import Mathlib

/-!
# Poker hand ranking: a shallow embedding of `hand.go`, `card.go`, `rank.go`, `suit.go`

The Go types `Suit`, `Rank` and `HandRank` are all `int`; they are embedded as `Int`.
Cards are handled by value (the Go code only ever reads `card.Suit` and `card.Rank`).
A Go `map[K]int` is embedded as an association list with pairwise different keys, and the
unspecified visiting order of `for k, v := range m` is an explicit parameter (`RangeOrder`).
`sort.Slice` is embedded as the insertion sort that the Go runtime runs on slices shorter
than twelve elements.
The functions that index a slice have a second embedding, named `...Checked`, in which an
index out of range is the result `none`; it is proved equal to the first one.
-/

namespace poker

/-! ## suit.go, rank.go, card.go -/

abbrev Suit := Int

abbrev Rank := Int

abbrev Hearts : Suit := 0
abbrev Spades : Suit := 1
abbrev Clubs : Suit := 2
abbrev Diamonds : Suit := 3

abbrev Two : Rank := 2
abbrev Three : Rank := 3
abbrev Four : Rank := 4
abbrev Five : Rank := 5
abbrev Six : Rank := 6
abbrev Seven : Rank := 7
abbrev Eight : Rank := 8
abbrev Nine : Rank := 9
abbrev Ten : Rank := 10
abbrev Jack : Rank := 11
abbrev Queen : Rank := 12
abbrev King : Rank := 13
abbrev Ace : Rank := 14

structure Card where
  Suit : poker.Suit
  Rank : poker.Rank
deriving DecidableEq

/-- NewCard creates a new Card. -/
def NewCard (suit : Suit) (rank : Rank) : Card := ⟨suit, rank⟩

/-- CopyCards creates a deep copy of a slice of cards. -/
def CopyCards (cards : List Card) : List Card :=
  cards.map (fun card => ({ Suit := card.Suit, Rank := card.Rank } : Card))

/-- A card of the standard deck: one of the four suits and one of the thirteen ranks
(what `ParseCard` can produce). -/
def Card.Valid (c : Card) : Prop :=
  Hearts ≤ c.Suit ∧ c.Suit ≤ Diamonds ∧ Two ≤ c.Rank ∧ c.Rank ≤ Ace

instance (c : Card) : Decidable c.Valid := by
  unfold Card.Valid; infer_instance

/-! ## hand.go: types -/

abbrev HandRank := Int

abbrev HighCard : HandRank := 0
abbrev OnePair : HandRank := 1
abbrev TwoPairs : HandRank := 2
abbrev ThreeOfAKind : HandRank := 3
abbrev Straight : HandRank := 4
abbrev Flush : HandRank := 5
abbrev FullHouse : HandRank := 6
abbrev FourOfAKind : HandRank := 7
abbrev StraightFlush : HandRank := 8
abbrev RoyalFlush : HandRank := 9

/-- The method String of HandRank returns the string representation of a HandRank:
`names[hr]` when `int(hr) < len(names)`, else `fmt.Sprintf("Unknown(%d)", hr)`. The test lets
a negative `hr` through to the index expression `names[hr]`, which then panics: `none`
stands for that panic. -/
def HandRank.String (hr : HandRank) : Option String :=
  let names := ["High Card", "One Pair", "Two Pairs", "Three of a Kind",
    "Straight", "Flush", "Full House", "Four of a Kind",
    "Straight Flush", "Royal Flush"]
  if hr < (names.length : Int) then
    if hr < 0 then none else names[hr.toNat]?
  else some ("Unknown(" ++ toString hr ++ ")")

structure Hand where
  Cards : List Card
  Rank : HandRank
  Values : List poker.Rank
deriving DecidableEq

/-- NewHand creates a new Hand from a slice of cards (`Rank` and `Values` keep their zero
values). -/
def NewHand (cards : List Card) : Hand :=
  { Cards := CopyCards cards, Rank := 0, Values := [] }

/-! ## Go runtime pieces: `sort.Slice` and `map` -/

/-- Inner loop of the insertion sort behind `sort.Slice`:
`for j := i; j > a && less(j, j-1); j-- { swap(j, j-1) }`.
The already sorted prefix is held back to front, so its head is the element at `j-1`. -/
def insertBack {α : Type} (less : α → α → Bool) (x : α) : List α → List α
  | [] => [x]
  | y :: ys => if less x y then y :: insertBack less x ys else x :: y :: ys

/-- The function `sort.Slice(data, less)` on a short slice: insertion sort, left to right. -/
def sortSlice {α : Type} (less : α → α → Bool) (data : List α) : List α :=
  (data.foldl (fun sorted x => insertBack less x sorted) []).reverse

/-- The statement `counts[k]++` on a map held as an association list. -/
def mapIncr : List (Int × Nat) → Int → List (Int × Nat)
  | [], k => [(k, 1)]
  | (k', c) :: rest, k => if k' = k then (k', c + 1) :: rest else (k', c) :: mapIncr rest k

/-- The order in which `range` visits the entries of a map is not specified by Go and may
change from one loop to the next: `ranks i m` is the order used by the `i`-th loop over the
rank counts inside `Evaluate`, `suits m` the one used by the loop over the suit counts. -/
structure RangeOrder where
  ranks : Nat → List (Rank × Nat) → List (Rank × Nat)
  suits : List (Suit × Nat) → List (Suit × Nat)
  ranks_perm : ∀ i m, (ranks i m).Perm m
  suits_perm : ∀ m, (suits m).Perm m

/-- The visiting order that follows insertion order. -/
def RangeOrder.insertion : RangeOrder :=
  { ranks := fun _ m => m, suits := fun m => m,
    ranks_perm := fun _ m => List.Perm.refl m, suits_perm := fun m => List.Perm.refl m }

/-- The visiting order that is the reverse of insertion order. -/
def RangeOrder.reversed : RangeOrder :=
  { ranks := fun _ m => m.reverse, suits := fun m => m.reverse,
    ranks_perm := fun _ m => List.reverse_perm m, suits_perm := fun m => List.reverse_perm m }

/-! ## hand.go: helpers of `Evaluate` -/

/-- The method sortByRank sorts the cards by rank in descending order. -/
def sortByRank (cards : List Card) : List Card :=
  sortSlice (fun ci cj => decide (ci.Rank > cj.Rank)) cards

/-- The method getRankCounts returns a map of rank frequencies. -/
def getRankCounts (cards : List Card) : List (Rank × Nat) :=
  cards.foldl (fun counts card => mapIncr counts card.Rank) []

/-- The method getSuitCounts returns a map of suit frequencies. -/
def getSuitCounts (cards : List Card) : List (Suit × Nat) :=
  cards.foldl (fun counts card => mapIncr counts card.Suit) []

/-- The method checkFlush checks if all cards are of the same suit; `suitCounts` is the map
in visiting order. -/
def checkFlush : List (Suit × Nat) → Bool
  | [] => false
  | (_, count) :: rest => if count = 5 then true else checkFlush rest

/-- The method checkStraight checks if the cards (sorted by descending rank) form a straight. -/
def checkStraight : List Card → Bool × Rank
  | [c0, c1, c2, c3, c4] =>
    if c0.Rank = Ace ∧ c1.Rank = Five ∧ c2.Rank = Four ∧ c3.Rank = Three ∧ c4.Rank = Two then
      (true, Five)
    else if c0.Rank - c1.Rank ≠ 1 then (false, 0)
    else if c1.Rank - c2.Rank ≠ 1 then (false, 0)
    else if c2.Rank - c3.Rank ≠ 1 then (false, 0)
    else if c3.Rank - c4.Rank ≠ 1 then (false, 0)
    else (true, c0.Rank)
  | _ => (false, 0)

/-- Loop of findNOfAKind, with the running `(best, found)`. -/
def findNOfAKindLoop (n : Nat) : List (Rank × Nat) → Rank × Bool → Rank × Bool
  | [], acc => acc
  | (rank, count) :: rest, (best, found) =>
    if count = n then
      if !found || decide (rank > best) then findNOfAKindLoop n rest (rank, true)
      else findNOfAKindLoop n rest (best, found)
    else findNOfAKindLoop n rest (best, found)

/-- The method findNOfAKind finds the highest rank that appears exactly n times;
`rankCounts` is the map in visiting order. -/
def findNOfAKind (rankCounts : List (Rank × Nat)) (n : Nat) : Rank × Bool :=
  findNOfAKindLoop n rankCounts (0, false)

/-- The method findAllPairs finds all ranks that appear exactly twice; `rankCounts` is the
map in visiting order. -/
def findAllPairs : List (Rank × Nat) → List Rank
  | [] => []
  | (rank, count) :: rest => if count = 2 then rank :: findAllPairs rest else findAllPairs rest

/-- Loop of getKickers: the running `(kickers, seen)`. -/
def kickerLoop (exclude : List Rank) : List Card → List Rank × List Rank → List Rank × List Rank
  | [], acc => acc
  | card :: rest, (kickers, seen) =>
    if !(exclude.contains card.Rank) && !(seen.contains card.Rank) then
      kickerLoop exclude rest (kickers ++ [card.Rank], card.Rank :: seen)
    else kickerLoop exclude rest (kickers, seen)

/-- The candidate kickers of getKickers before truncation: the ranks not excluded, each
once, sorted descending. -/
def kickerCandidates (cards : List Card) (exclude : List Rank) : List Rank :=
  sortSlice (fun ki kj => decide (ki > kj)) (kickerLoop exclude cards ([], [])).1

/-- The method getKickers returns the n highest kickers excluding the given ranks. -/
def getKickers (cards : List Card) (exclude : List Rank) (n : Nat) : List Rank :=
  let kickers := kickerCandidates cards exclude
  if kickers.length > n then kickers.take n else kickers

/-- The method getSortedRanks returns all ranks in descending order. -/
def getSortedRanks (cards : List Card) : List Rank :=
  sortSlice (fun ri rj => decide (ri > rj)) (cards.map (fun card => card.Rank))

/-! ## hand.go: `Evaluate`, `Compare`, `GetBestHand` -/

/-- The method Evaluate analyzes the hand and sets its rank and values. -/
def Evaluate (o : RangeOrder) (h : Hand) : Hand :=
  let cards := sortByRank h.Cards
  let rankCounts := getRankCounts cards
  let suitCounts := getSuitCounts cards
  let isFlush := checkFlush (o.suits suitCounts)
  let isStraight := (checkStraight cards).1
  let straightHigh := (checkStraight cards).2
  if isFlush && isStraight && decide (straightHigh = Ace) then
    { Cards := cards, Rank := RoyalFlush, Values := [Ace] }
  else if isFlush && isStraight then
    { Cards := cards, Rank := StraightFlush, Values := [straightHigh] }
  else if (findNOfAKind (o.ranks 0 rankCounts) 4).2 then
    let rank := (findNOfAKind (o.ranks 0 rankCounts) 4).1
    { Cards := cards, Rank := FourOfAKind, Values := [rank] ++ getKickers cards [rank] 1 }
  else
    let threeRank := (findNOfAKind (o.ranks 1 rankCounts) 3).1
    let hasThree := (findNOfAKind (o.ranks 1 rankCounts) 3).2
    let pairRank := (findNOfAKind (o.ranks 2 rankCounts) 2).1
    let hasPair := (findNOfAKind (o.ranks 2 rankCounts) 2).2
    if hasThree && hasPair then
      { Cards := cards, Rank := FullHouse, Values := [threeRank, pairRank] }
    else if isFlush then
      { Cards := cards, Rank := Flush, Values := getSortedRanks cards }
    else if isStraight then
      { Cards := cards, Rank := Straight, Values := [straightHigh] }
    else if (findNOfAKind (o.ranks 3 rankCounts) 3).2 then
      let rank := (findNOfAKind (o.ranks 3 rankCounts) 3).1
      { Cards := cards, Rank := ThreeOfAKind, Values := [rank] ++ getKickers cards [rank] 2 }
    else
      let pairs := findAllPairs (o.ranks 4 rankCounts)
      if pairs.length = 2 then
        let pairs := sortSlice (fun pi pj => decide (pi > pj)) pairs
        { Cards := cards, Rank := TwoPairs, Values := pairs ++ getKickers cards pairs 1 }
      else if (findNOfAKind (o.ranks 5 rankCounts) 2).2 then
        let rank := (findNOfAKind (o.ranks 5 rankCounts) 2).1
        { Cards := cards, Rank := OnePair, Values := [rank] ++ getKickers cards [rank] 3 }
      else
        { Cards := cards, Rank := HighCard, Values := getSortedRanks cards }

/-- The `for i := 0; i < minLen; i++` loop of Compare: the first argument is the number
`minLen - i` of iterations left; `none` means the loop ran to its end without returning. -/
def compareLoop (hv ov : List Rank) : Nat → Nat → Option Int
  | 0, _ => none
  | left + 1, i =>
    if hv.getD i 0 > ov.getD i 0 then some 1
    else if hv.getD i 0 < ov.getD i 0 then some (-1)
    else compareLoop hv ov left (i + 1)

/-- The method Compare compares this hand with another hand.
Returns: 1 if this hand wins, -1 if other hand wins, 0 if tie. -/
def Hand.Compare (h other : Hand) : Int :=
  if h.Rank > other.Rank then 1
  else if h.Rank < other.Rank then -1
  else
    let minLen := if other.Values.length < h.Values.length then other.Values.length
      else h.Values.length
    match compareLoop h.Values other.Values minLen 0 with
    | some r => r
    | none =>
      if h.Values.length > other.Values.length then 1
      else if h.Values.length < other.Values.length then -1
      else 0

/-- The `for i := start; i < len(cards); i++` loop of generateCombosHelper, with the test
`len(current) == k` of the recursive call unfolded into it; the first list is
`cards[start:]`. -/
def generateCombosLoop (k : Nat) : List Card → List Card → List (List Card) → List (List Card)
  | [], _, result => result
  | card :: rest, current, result =>
    let newCurrent := current ++ [card]
    let result :=
      if newCurrent.length = k then result ++ [newCurrent]
      else generateCombosLoop k rest newCurrent result
    generateCombosLoop k rest current result

/-- The function generateCombosHelper, on `cards[start:]`. -/
def generateCombosHelper (k : Nat) (cardsFromStart : List Card) (current : List Card)
    (result : List (List Card)) : List (List Card) :=
  if current.length = k then result ++ [current]
  else generateCombosLoop k cardsFromStart current result

/-- The function generateCombinations generates all k-sized combinations from cards. -/
def generateCombinations (cards : List Card) (k : Nat) : List (List Card) :=
  generateCombosHelper k cards [] []

/-- The `for i := 1; i < len(combos); i++` loop of GetBestHand, on `combos[1:]`. -/
def bestHandLoop (o : RangeOrder) : List (List Card) → Hand → Hand
  | [], bestHand => bestHand
  | combo :: rest, bestHand =>
    let hand := Evaluate o (NewHand combo)
    if hand.Compare bestHand > 0 then bestHandLoop o rest hand
    else bestHandLoop o rest bestHand

/-- The function GetBestHand finds the best 5-card hand from the given cards. -/
def GetBestHand (o : RangeOrder) (cards : List Card) : Hand :=
  if cards.length ≤ 5 then Evaluate o (NewHand cards)
  else
    match generateCombinations cards 5 with
    | [] => { Cards := [], Rank := HighCard, Values := [] }
    | combo0 :: rest => bestHandLoop o rest (Evaluate o (NewHand combo0))

/-! ## hand.go: the index expressions, checked

A second embedding of the functions that index a slice: every index expression `s[i]` is
read with `s[i]?`, and `none` stands for the run-time panic of an index out of range. -/

/-- The operand `h.Cards[i].Rank == r` of the wheel test of checkStraight. -/
def rankAtIs (cards : List Card) (i : Nat) (r : Rank) : Option Bool :=
  (cards[i]?).map (fun card => decide (card.Rank = r))

/-- Go's `a && b`: the right operand is evaluated only when the left one is true. -/
def andThen (a b : Option Bool) : Option Bool :=
  match a with
  | some true => b
  | other => other

/-- The `for i := 0; i < 4; i++` loop of checkStraight followed by
`return true, h.Cards[0].Rank`; the first argument is the number `4 - i` of iterations
left. -/
def checkStraightLoopChecked (cards : List Card) : Nat → Nat → Option (Bool × Rank)
  | 0, _ => (cards[0]?).map (fun card => (true, card.Rank))
  | left + 1, i =>
    match cards[i]?, cards[i + 1]? with
    | some ci, some cj =>
      if ci.Rank - cj.Rank ≠ 1 then some (false, 0)
      else checkStraightLoopChecked cards left (i + 1)
    | _, _ => none

/-- The method checkStraight, index expressions checked. -/
def checkStraightChecked (cards : List Card) : Option (Bool × Rank) :=
  if cards.length ≠ 5 then some (false, 0)
  else
    match andThen (andThen (andThen (andThen (rankAtIs cards 0 Ace) (rankAtIs cards 1 Five))
        (rankAtIs cards 2 Four)) (rankAtIs cards 3 Three)) (rankAtIs cards 4 Two) with
    | none => none
    | some true => some (true, Five)
    | some false => checkStraightLoopChecked cards 4 0

/-- The method Evaluate, with checkStraight checked. -/
def EvaluateChecked (o : RangeOrder) (h : Hand) : Option Hand :=
  let cards := sortByRank h.Cards
  let rankCounts := getRankCounts cards
  let suitCounts := getSuitCounts cards
  let isFlush := checkFlush (o.suits suitCounts)
  match checkStraightChecked cards with
  | none => none
  | some (isStraight, straightHigh) =>
    if isFlush && isStraight && decide (straightHigh = Ace) then
      some { Cards := cards, Rank := RoyalFlush, Values := [Ace] }
    else if isFlush && isStraight then
      some { Cards := cards, Rank := StraightFlush, Values := [straightHigh] }
    else if (findNOfAKind (o.ranks 0 rankCounts) 4).2 then
      let rank := (findNOfAKind (o.ranks 0 rankCounts) 4).1
      some { Cards := cards, Rank := FourOfAKind, Values := [rank] ++ getKickers cards [rank] 1 }
    else
      let threeRank := (findNOfAKind (o.ranks 1 rankCounts) 3).1
      let hasThree := (findNOfAKind (o.ranks 1 rankCounts) 3).2
      let pairRank := (findNOfAKind (o.ranks 2 rankCounts) 2).1
      let hasPair := (findNOfAKind (o.ranks 2 rankCounts) 2).2
      if hasThree && hasPair then
        some { Cards := cards, Rank := FullHouse, Values := [threeRank, pairRank] }
      else if isFlush then
        some { Cards := cards, Rank := Flush, Values := getSortedRanks cards }
      else if isStraight then
        some { Cards := cards, Rank := Straight, Values := [straightHigh] }
      else if (findNOfAKind (o.ranks 3 rankCounts) 3).2 then
        let rank := (findNOfAKind (o.ranks 3 rankCounts) 3).1
        some { Cards := cards, Rank := ThreeOfAKind,
               Values := [rank] ++ getKickers cards [rank] 2 }
      else
        let pairs := findAllPairs (o.ranks 4 rankCounts)
        if pairs.length = 2 then
          let pairs := sortSlice (fun pi pj => decide (pi > pj)) pairs
          some { Cards := cards, Rank := TwoPairs, Values := pairs ++ getKickers cards pairs 1 }
        else if (findNOfAKind (o.ranks 5 rankCounts) 2).2 then
          let rank := (findNOfAKind (o.ranks 5 rankCounts) 2).1
          some { Cards := cards, Rank := OnePair,
                 Values := [rank] ++ getKickers cards [rank] 3 }
        else
          some { Cards := cards, Rank := HighCard, Values := getSortedRanks cards }

/-- The `for i := 0; i < minLen; i++` loop of Compare, index expressions checked: the first
argument is the number `minLen - i` of iterations left; `some none` means the loop ran to
its end without returning. -/
def compareLoopChecked (hv ov : List Rank) : Nat → Nat → Option (Option Int)
  | 0, _ => some none
  | left + 1, i =>
    match hv[i]?, ov[i]? with
    | some x, some y =>
      if x > y then some (some 1)
      else if x < y then some (some (-1))
      else compareLoopChecked hv ov left (i + 1)
    | _, _ => none

/-- The method Compare, index expressions checked. -/
def Hand.CompareChecked (h other : Hand) : Option Int :=
  if h.Rank > other.Rank then some 1
  else if h.Rank < other.Rank then some (-1)
  else
    let minLen := if other.Values.length < h.Values.length then other.Values.length
      else h.Values.length
    match compareLoopChecked h.Values other.Values minLen 0 with
    | none => none
    | some (some r) => some r
    | some none =>
      if h.Values.length > other.Values.length then some 1
      else if h.Values.length < other.Values.length then some (-1)
      else some 0

/-- The `for i := start; i < len(cards); i++` loop of generateCombosHelper on the whole
slice `cards`, index expression `cards[i]` checked, with the test `len(current) == k` of the
recursive call unfolded into it. The first argument is the number `len(cards) - i` of
iterations left: the recursive call starts its own loop at `i + 1`, one iteration
closer to the end, which is why the recursion terminates. -/
def generateCombosLoopChecked (cards : List Card) (k : Nat) :
    Nat → Nat → List Card → List (List Card) → Option (List (List Card))
  | 0, _, _, result => some result
  | left + 1, i, current, result =>
    match cards[i]? with
    | none => none
    | some card =>
      let newCurrent := current ++ [card]
      let inner :=
        if newCurrent.length = k then some (result ++ [newCurrent])
        else generateCombosLoopChecked cards k left (i + 1) newCurrent result
      match inner with
      | none => none
      | some result => generateCombosLoopChecked cards k left (i + 1) current result

/-- The function generateCombosHelper, index expressions checked. -/
def generateCombosHelperChecked (cards : List Card) (k start : Nat) (current : List Card)
    (result : List (List Card)) : Option (List (List Card)) :=
  if current.length = k then some (result ++ [current])
  else generateCombosLoopChecked cards k (cards.length - start) start current result

/-- The function generateCombinations, index expressions checked. -/
def generateCombinationsChecked (cards : List Card) (k : Nat) : Option (List (List Card)) :=
  generateCombosHelperChecked cards k 0 [] []

/-- The `for i := 1; i < len(combos); i++` loop of GetBestHand, index expression
`combos[i]` checked; the first argument is the number `len(combos) - i` of iterations
left. -/
def bestHandLoopChecked (o : RangeOrder) (combos : List (List Card)) :
    Nat → Nat → Hand → Option Hand
  | 0, _, bestHand => some bestHand
  | left + 1, i, bestHand =>
    match combos[i]? with
    | none => none
    | some combo =>
      match EvaluateChecked o (NewHand combo) with
      | none => none
      | some hand =>
        match hand.CompareChecked bestHand with
        | none => none
        | some c =>
          if c > 0 then bestHandLoopChecked o combos left (i + 1) hand
          else bestHandLoopChecked o combos left (i + 1) bestHand

/-- The function GetBestHand, index expressions checked. -/
def GetBestHandChecked (o : RangeOrder) (cards : List Card) : Option Hand :=
  if cards.length ≤ 5 then EvaluateChecked o (NewHand cards)
  else
    match generateCombinationsChecked cards 5 with
    | none => none
    | some combos =>
      if combos.length = 0 then some { Cards := [], Rank := HighCard, Values := [] }
      else
        match combos[0]? with
        | none => none
        | some combo0 =>
          match EvaluateChecked o (NewHand combo0) with
          | none => none
          | some bestHand => bestHandLoopChecked o combos (combos.length - 1) 1 bestHand

/-! ## Reference definitions used to state the properties -/

/-- Lexicographic comparison of two value vectors as the specification words it: read from
index 0, the first differing element decides; if one vector is a strict prefix of the
other, the longer one wins; identical vectors are equal. -/
def lexCompare : List Rank → List Rank → Int
  | [], [] => 0
  | [], _ :: _ => -1
  | _ :: _, [] => 1
  | x :: xs, y :: ys => if x > y then 1 else if x < y then -1 else lexCompare xs ys

/-- The set of ranks of a list of cards. -/
def rankSet (cards : List Card) : Finset Rank := (cards.map Card.Rank).toFinset

/-- All cards of the list share one suit. -/
def AllOneSuit (cards : List Card) : Prop := ∀ c ∈ cards, ∀ c' ∈ cards, c.Suit = c'.Suit

instance (cards : List Card) : Decidable (AllOneSuit cards) := by
  unfold AllOneSuit; infer_instance

/-- The ranks form a straight as the specification words it: five consecutive ranks, or the
wheel Ace-Two-Three-Four-Five. -/
def StraightRanks (cards : List Card) : Prop :=
  (∃ r : Rank, rankSet cards = {r, r + 1, r + 2, r + 3, r + 4})
    ∨ rankSet cards = {Ace, Two, Three, Four, Five}

/-! ## Auxiliary closed forms used in the proofs -/

/-- Closed form of `Evaluate` on five cards held in descending rank order `a ≥ b ≥ c ≥ d ≥ e`:
the branches of `Evaluate` in the order of the code, with each query on the rank counts
replaced by the shape of the ranks that answers it. `Evaluate_five` proves that the code
computes exactly this. -/
def classify5 (isFlush isStraight : Bool) (straightHigh a b c d e : Rank) :
    HandRank × List Rank :=
  if isFlush && isStraight && decide (straightHigh = Ace) then (RoyalFlush, [Ace])
  else if isFlush && isStraight then (StraightFlush, [straightHigh])
  else if a = d ∧ d ≠ e then (FourOfAKind, [a, e])
  else if a ≠ b ∧ b = e then (FourOfAKind, [b, a])
  else if a = c ∧ c ≠ d ∧ d = e then (FullHouse, [a, d])
  else if a = b ∧ b ≠ c ∧ c = e then (FullHouse, [c, a])
  else if isFlush then (Flush, [a, b, c, d, e])
  else if isStraight then (Straight, [straightHigh])
  else if a = c ∧ c ≠ d ∧ d ≠ e then (ThreeOfAKind, [a, d, e])
  else if a ≠ b ∧ b = d ∧ d ≠ e then (ThreeOfAKind, [b, a, e])
  else if a ≠ b ∧ b ≠ c ∧ c = e then (ThreeOfAKind, [c, a, b])
  else if a = b ∧ b ≠ c ∧ c = d ∧ d ≠ e then (TwoPairs, [a, c, e])
  else if a = b ∧ b ≠ c ∧ c ≠ d ∧ d = e then (TwoPairs, [a, d, c])
  else if a ≠ b ∧ b = c ∧ c ≠ d ∧ d = e then (TwoPairs, [b, d, a])
  else if a = b ∧ b ≠ c ∧ c ≠ d ∧ d ≠ e then (OnePair, [a, c, d, e])
  else if a ≠ b ∧ b = c ∧ c ≠ d ∧ d ≠ e then (OnePair, [b, a, d, e])
  else if a ≠ b ∧ b ≠ c ∧ c = d ∧ d ≠ e then (OnePair, [c, a, b, e])
  else if a ≠ b ∧ b ≠ c ∧ c ≠ d ∧ d = e then (OnePair, [d, a, b, c])
  else (HighCard, [a, b, c, d, e])

/-- The outcomes of `Evaluate` on five cards held in descending rank order
`a ≥ b ≥ c ≥ d ≥ e`, one line per outcome: the flush flag `f` (1 when the five suits are
equal, else 0) and the shape of the ranks, then the category `r` and the value vector `v`.
`Evaluate_cases` proves that the code always lands on one of these lines. -/
def OutcomeTable (f a b c d e r : Int) (v : List Int) : Prop :=
  ((f = 1 ∧ (a - b = 1 ∧ b - c = 1 ∧ c - d = 1 ∧ d - e = 1) ∧ a = 14) ∧ r = 9 ∧ v = [14])
  ∨ ((f = 1 ∧ a = 14 ∧ b = 5 ∧ c = 4 ∧ d = 3 ∧ e = 2) ∧ r = 8 ∧ v = [5])
  ∨ ((f = 1 ∧ (a - b = 1 ∧ b - c = 1 ∧ c - d = 1 ∧ d - e = 1) ∧ a ≠ 14) ∧ r = 8 ∧ v = [a])
  ∨ ((a = d ∧ e < d) ∧ r = 7 ∧ v = [a, e])
  ∨ ((b < a ∧ b = e) ∧ r = 7 ∧ v = [b, a])
  ∨ ((a = c ∧ d < c ∧ d = e) ∧ r = 6 ∧ v = [a, d])
  ∨ ((a = b ∧ c < b ∧ c = e) ∧ r = 6 ∧ v = [c, a])
  ∨ ((f = 1 ∧ ¬ (a = 14 ∧ b = 5 ∧ c = 4 ∧ d = 3 ∧ e = 2) ∧ (b < a ∧ c < b ∧ d < c ∧ e < d) ∧ 5 ≤ a - e) ∧ r = 5 ∧ v = [a, b, c, d, e])
  ∨ ((f = 1 ∧ (d < a ∨ d = e) ∧ (a = b ∨ e < b) ∧ (c < a ∨ c = d ∨ e < d)
      ∧ (b < a ∨ b = c ∨ e < c) ∧ (a = b ∨ b = c ∨ c = d ∨ d = e)) ∧ r = 5 ∧ v = [a, b, c, d, e])
  ∨ ((f = 0 ∧ a = 14 ∧ b = 5 ∧ c = 4 ∧ d = 3 ∧ e = 2) ∧ r = 4 ∧ v = [5])
  ∨ ((f = 0 ∧ a - b = 1 ∧ b - c = 1 ∧ c - d = 1 ∧ d - e = 1) ∧ r = 4 ∧ v = [a])
  ∨ ((f = 0 ∧ a = c ∧ d < c ∧ e < d) ∧ r = 3 ∧ v = [a, d, e])
  ∨ ((f = 0 ∧ b < a ∧ b = d ∧ e < d) ∧ r = 3 ∧ v = [b, a, e])
  ∨ ((f = 0 ∧ b < a ∧ c < b ∧ c = e) ∧ r = 3 ∧ v = [c, a, b])
  ∨ ((f = 0 ∧ a = b ∧ c < b ∧ c = d ∧ e < d) ∧ r = 2 ∧ v = [a, c, e])
  ∨ ((f = 0 ∧ a = b ∧ c < b ∧ d < c ∧ d = e) ∧ r = 2 ∧ v = [a, d, c])
  ∨ ((f = 0 ∧ b < a ∧ b = c ∧ d < c ∧ d = e) ∧ r = 2 ∧ v = [b, d, a])
  ∨ ((f = 0 ∧ a = b ∧ c < b ∧ d < c ∧ e < d) ∧ r = 1 ∧ v = [a, c, d, e])
  ∨ ((f = 0 ∧ b < a ∧ b = c ∧ d < c ∧ e < d) ∧ r = 1 ∧ v = [b, a, d, e])
  ∨ ((f = 0 ∧ b < a ∧ c < b ∧ c = d ∧ e < d) ∧ r = 1 ∧ v = [c, a, b, e])
  ∨ ((f = 0 ∧ b < a ∧ c < b ∧ d < c ∧ d = e) ∧ r = 1 ∧ v = [d, a, b, c])
  ∨ ((f = 0 ∧ ¬ (a = 14 ∧ b = 5 ∧ c = 4 ∧ d = 3 ∧ e = 2) ∧ (b < a ∧ c < b ∧ d < c ∧ e < d) ∧ 5 ≤ a - e) ∧ r = 0 ∧ v = [a, b, c, d, e])
  ∨ ((f = 0 ∧ a = e) ∧ r = 0 ∧ v = [a, b, c, d, e])

/-- Closed form of `generateCombinations`: the selections of `k` elements of a list, each
kept in the order of the list; those that take the head come first. -/
def selections {α : Type} : Nat → List α → List (List α)
  | 0, _ => [[]]
  | _ + 1, [] => []
  | k + 1, x :: xs => (selections k xs).map (fun t => x :: t) ++ selections (k + 1) xs

/-- The five ranks in descending order, read back from the category `r` and the value
vector `v` of five cards of the deck. -/
def decodeRanks (r : Int) (v : List Int) : List Int :=
  match v with
  | [h] =>
    if r = 9 then [14, 13, 12, 11, 10]
    else if h = 5 then [14, 5, 4, 3, 2]
    else [h, h - 1, h - 2, h - 3, h - 4]
  | [x, y] =>
    if r = 7 then (if y < x then [x, x, x, x, y] else [y, x, x, x, x])
    else (if y < x then [x, x, x, y, y] else [y, y, x, x, x])
  | [x, y, z] =>
    if r = 3 then
      (if y < x then [x, x, x, y, z] else if z < x then [y, x, x, x, z] else [y, z, x, x, x])
    else
      (if z < y then [x, x, y, y, z] else if z < x then [x, x, z, y, y] else [z, x, x, y, y])
  | [p, x, y, z] =>
    if x < p then [p, p, x, y, z] else if y < p then [x, p, p, y, z]
    else if z < p then [x, y, p, p, z] else [x, y, z, p, p]
  | other => other

/-! ## Compare -/

theorem compareLoop_cons (x y : Rank) (xs ys : List Rank) (n i : Nat) :
    compareLoop (x :: xs) (y :: ys) n (i + 1) = compareLoop xs ys n i := by
  induction n generalizing i with
  | zero => rfl
  | succ n ih => simp only [compareLoop, List.getD_cons_succ, ih]

theorem Compare_eq_lexCompare (c1 c2 : List Card) (r : HandRank) (hv ov : List Rank) :
    Hand.Compare ⟨c1, r, hv⟩ ⟨c2, r, ov⟩ = lexCompare hv ov := by
  induction hv generalizing ov with
  | nil =>
    cases ov with
    | nil => simp [Hand.Compare, compareLoop, lexCompare]
    | cons y ys => simp [Hand.Compare, compareLoop, lexCompare]
  | cons x xs ih =>
    cases ov with
    | nil => simp [Hand.Compare, compareLoop, lexCompare]
    | cons y ys =>
      have h := ih ys
      simp only [Hand.Compare, lt_self_iff_false, gt_iff_lt, if_false] at h ⊢
      simp only [List.length_cons, Nat.add_lt_add_iff_right, lexCompare, gt_iff_lt]
      by_cases hxy : y < x
      · by_cases hlen : ys.length < xs.length <;> simp [hlen, compareLoop, hxy]
      · by_cases hyx : x < y
        · by_cases hlen : ys.length < xs.length <;> simp [hlen, compareLoop, hxy, hyx]
        · rw [if_neg hxy, if_neg hyx, ← h]
          by_cases hlen : ys.length < xs.length <;>
            simp [hlen, compareLoop, hxy, hyx, compareLoop_cons]

theorem Compare_eq (a b : Hand) :
    a.Compare b = if a.Rank > b.Rank then 1 else if a.Rank < b.Rank then -1
      else lexCompare a.Values b.Values := by
  by_cases h1 : a.Rank > b.Rank
  · simp [Hand.Compare, h1]
  · by_cases h2 : a.Rank < b.Rank
    · simp [Hand.Compare, h1, h2]
    · have e : a.Rank = b.Rank := by
        simp only [HandRank] at *; omega
      rw [if_neg h1, if_neg h2]
      obtain ⟨ca, ra, va⟩ := a
      obtain ⟨cb, rb, vb⟩ := b
      simp only at e
      subst e
      exact Compare_eq_lexCompare ca cb ra va vb

theorem lexCompare_range (xs ys : List Rank) :
    lexCompare xs ys = 1 ∨ lexCompare xs ys = 0 ∨ lexCompare xs ys = -1 := by
  induction xs generalizing ys with
  | nil => cases ys <;> simp [lexCompare]
  | cons x xs ih =>
    cases ys with
    | nil => simp [lexCompare]
    | cons y ys =>
      simp only [lexCompare]
      split_ifs
      · simp
      · simp
      · exact ih ys

theorem lexCompare_antisymm (xs ys : List Rank) : lexCompare xs ys = -lexCompare ys xs := by
  induction xs generalizing ys with
  | nil => cases ys <;> simp [lexCompare]
  | cons x xs ih =>
    cases ys with
    | nil => simp [lexCompare]
    | cons y ys =>
      simp only [lexCompare, gt_iff_lt]
      have := ih ys
      simp only [Rank] at *
      split_ifs <;> omega

theorem lexCompare_eq_zero (xs ys : List Rank) : lexCompare xs ys = 0 ↔ xs = ys := by
  induction xs generalizing ys with
  | nil => cases ys <;> simp [lexCompare]
  | cons x xs ih =>
    cases ys with
    | nil => simp [lexCompare]
    | cons y ys =>
      simp only [lexCompare, gt_iff_lt, List.cons.injEq]
      have := ih ys
      simp only [Rank] at *
      split_ifs with h1 h2
      · constructor
        · intro h; exact absurd h (by decide)
        · rintro ⟨h, -⟩; omega
      · constructor
        · intro h; exact absurd h (by decide)
        · rintro ⟨h, -⟩; omega
      · rw [ih ys]
        constructor
        · intro h; exact ⟨by omega, h⟩
        · intro h; exact h.2

theorem lexCompare_trans (xs ys zs : List Rank) (h1 : 0 ≤ lexCompare xs ys)
    (h2 : 0 ≤ lexCompare ys zs) :
    0 ≤ lexCompare xs zs ∧ (lexCompare xs ys = 1 ∨ lexCompare ys zs = 1 → lexCompare xs zs = 1) := by
  induction xs generalizing ys zs with
  | nil =>
    cases ys with
    | nil =>
      cases zs with
      | nil => simp [lexCompare]
      | cons z zs => simp [lexCompare] at h2
    | cons y ys => simp [lexCompare] at h1
  | cons x xs ih =>
    cases ys with
    | nil =>
      cases zs with
      | nil => simp [lexCompare]
      | cons z zs => simp [lexCompare] at h2
    | cons y ys =>
      cases zs with
      | nil => simp [lexCompare]
      | cons z zs =>
        have := ih ys zs
        simp only [lexCompare, gt_iff_lt] at h1 h2 ⊢
        simp only [Rank] at *
        split_ifs at h1 h2 ⊢ <;> omega

theorem Compare_range (a b : Hand) : a.Compare b = 1 ∨ a.Compare b = 0 ∨ a.Compare b = -1 := by
  rw [Compare_eq]
  split_ifs
  · simp
  · simp
  · exact lexCompare_range _ _

theorem Compare_antisymm (a b : Hand) : a.Compare b = -b.Compare a := by
  rw [Compare_eq, Compare_eq]
  have := lexCompare_antisymm a.Values b.Values
  simp only [HandRank, gt_iff_lt] at *
  split_ifs <;> omega

theorem Compare_trans (a b c : Hand) (h1 : 0 ≤ a.Compare b) (h2 : 0 ≤ b.Compare c) :
    0 ≤ a.Compare c ∧ (a.Compare b = 1 ∨ b.Compare c = 1 → a.Compare c = 1) := by
  simp only [Compare_eq] at h1 h2 ⊢
  have := lexCompare_trans a.Values b.Values c.Values
  simp only [HandRank, gt_iff_lt] at *
  split_ifs at h1 h2 ⊢ <;> omega

theorem Compare_self (a : Hand) : a.Compare a = 0 := by
  rw [Compare_eq]; simp [(lexCompare_eq_zero a.Values a.Values).2 rfl]

/-! ## sort.Slice -/

theorem insertBack_perm {α : Type} (less : α → α → Bool) (x : α) (l : List α) :
    (insertBack less x l).Perm (x :: l) := by
  induction l with
  | nil => exact List.Perm.refl _
  | cons y ys ih =>
    simp only [insertBack]
    split_ifs
    · exact (List.Perm.cons y ih).trans (List.Perm.swap x y ys)
    · exact List.Perm.refl _

theorem sortLoop_perm {α : Type} (less : α → α → Bool) (l acc : List α) :
    (l.foldl (fun sorted x => insertBack less x sorted) acc).Perm (acc ++ l) := by
  induction l generalizing acc with
  | nil => simp
  | cons x xs ih =>
    simp only [List.foldl_cons]
    refine (ih _).trans ?_
    refine (List.Perm.append_right xs (insertBack_perm less x acc)).trans ?_
    simpa using (@List.perm_middle _ x acc xs).symm

theorem sortSlice_perm {α : Type} (less : α → α → Bool) (l : List α) :
    (sortSlice less l).Perm l := by
  unfold sortSlice
  exact (List.reverse_perm _).trans (by simpa using sortLoop_perm less l [])

theorem insertBack_sorted {α : Type} (key : α → Int) (x : α) (acc : List α)
    (h : acc.Pairwise (fun a b => key a ≤ key b)) :
    (insertBack (fun a b => decide (key a > key b)) x acc).Pairwise
      (fun a b => key a ≤ key b) := by
  induction acc with
  | nil => simp [insertBack]
  | cons y ys ih =>
    rw [List.pairwise_cons] at h
    simp only [insertBack, gt_iff_lt, decide_eq_true_eq]
    split_ifs with hxy
    · rw [List.pairwise_cons]
      refine ⟨?_, ih h.2⟩
      intro z hz
      rcases (List.mem_cons.1 ((insertBack_perm _ x ys).subset hz)) with rfl | hz
      · exact le_of_lt hxy
      · exact h.1 z hz
    · rw [List.pairwise_cons, List.pairwise_cons]
      refine ⟨?_, h⟩
      intro z hz
      rcases List.mem_cons.1 hz with rfl | hz
      · exact not_lt.1 hxy
      · exact le_trans (not_lt.1 hxy) (h.1 z hz)

theorem sortLoop_sorted {α : Type} (key : α → Int) (l acc : List α)
    (h : acc.Pairwise (fun a b => key a ≤ key b)) :
    (l.foldl (fun sorted x => insertBack (fun a b => decide (key a > key b)) x sorted)
      acc).Pairwise (fun a b => key a ≤ key b) := by
  induction l generalizing acc with
  | nil => simpa using h
  | cons x xs ih => exact ih _ (insertBack_sorted key x acc h)

theorem sortSlice_sorted {α : Type} (key : α → Int) (l : List α) :
    (sortSlice (fun a b => decide (key a > key b)) l).Pairwise (fun a b => key a ≥ key b) := by
  unfold sortSlice
  rw [List.pairwise_reverse]
  exact sortLoop_sorted key l [] List.Pairwise.nil

theorem sortLoop_of_sorted {α : Type} (key : α → Int) (l acc : List α)
    (h : (acc.reverse ++ l).Pairwise (fun a b => key a ≥ key b)) :
    l.foldl (fun sorted x => insertBack (fun a b => decide (key a > key b)) x sorted) acc
      = l.reverse ++ acc := by
  induction l generalizing acc with
  | nil => simp
  | cons x xs ih =>
    have hx : insertBack (fun a b => decide (key a > key b)) x acc = x :: acc := by
      cases acc with
      | nil => rfl
      | cons y ys =>
        have hy : key y ≥ key x := by
          rw [List.pairwise_append] at h
          exact h.2.2 y (by simp) x (by simp)
        simp only [insertBack, gt_iff_lt, decide_eq_true_eq]
        rw [if_neg (not_lt.2 hy)]
    simp only [List.foldl_cons, hx]
    rw [ih (x :: acc) (by simpa using h)]
    simp

theorem sortSlice_of_sorted {α : Type} (key : α → Int) (l : List α)
    (h : l.Pairwise (fun a b => key a ≥ key b)) :
    sortSlice (fun a b => decide (key a > key b)) l = l := by
  unfold sortSlice
  rw [sortLoop_of_sorted key l [] (by simpa using h)]
  simp

theorem sorted_desc_unique (l₁ l₂ : List Int) (hp : l₁.Perm l₂)
    (h₁ : l₁.Pairwise (fun a b => a ≥ b)) (h₂ : l₂.Pairwise (fun a b => a ≥ b)) : l₁ = l₂ :=
  List.eq_of_perm_of_sorted hp h₁ h₂

theorem sortSlice_ranks_perm (l₁ l₂ : List Rank) (hp : l₁.Perm l₂) :
    sortSlice (fun a b => decide (a > b)) l₁ = sortSlice (fun a b => decide (a > b)) l₂ :=
  sorted_desc_unique _ _
    (((sortSlice_perm _ l₁).trans hp).trans (sortSlice_perm _ l₂).symm)
    (sortSlice_sorted (fun a => a) l₁) (sortSlice_sorted (fun a => a) l₂)

theorem sortByRank_perm (cards : List Card) : (sortByRank cards).Perm cards :=
  sortSlice_perm _ cards

theorem sortByRank_sorted (cards : List Card) :
    (sortByRank cards).Pairwise (fun a b => a.Rank ≥ b.Rank) :=
  sortSlice_sorted (fun c : Card => c.Rank) cards

theorem sortByRank_of_sorted (cards : List Card)
    (h : cards.Pairwise (fun a b => a.Rank ≥ b.Rank)) : sortByRank cards = cards :=
  sortSlice_of_sorted (fun c : Card => c.Rank) cards h

theorem CopyCards_eq (cards : List Card) : CopyCards cards = cards := by
  unfold CopyCards
  induction cards with
  | nil => rfl
  | cons c cs ih => simp [ih]

/-! ## Maps of counts -/

theorem mapIncr_keys (m : List (Int × Nat)) (k : Int) :
    (mapIncr m k).map Prod.fst
      = if k ∈ m.map Prod.fst then m.map Prod.fst else m.map Prod.fst ++ [k] := by
  induction m with
  | nil => simp [mapIncr]
  | cons p rest ih =>
    obtain ⟨k', c⟩ := p
    by_cases hk : k' = k
    · subst hk
      simp [mapIncr]
    · have hk' : ¬ k = k' := fun e => hk e.symm
      simp only [mapIncr, if_neg hk, List.map_cons, ih, List.mem_cons, hk', false_or]
      split_ifs <;> simp

theorem mapIncr_mem_of_ne (m : List (Int × Nat)) (k : Int) (p : Int × Nat) (hp : p.1 ≠ k) :
    p ∈ mapIncr m k ↔ p ∈ m := by
  induction m with
  | nil =>
    obtain ⟨a, b⟩ := p
    simp only [mapIncr, List.mem_singleton, Prod.mk.injEq, List.not_mem_nil, iff_false]
    exact fun h => hp h.1
  | cons q rest ih =>
    obtain ⟨k', c⟩ := q
    by_cases hk : k' = k
    · subst hk
      obtain ⟨a, b⟩ := p
      simp only [mapIncr, if_true, List.mem_cons, Prod.mk.injEq]
      constructor
      · rintro (⟨h, -⟩ | h)
        · exact absurd h hp
        · exact Or.inr h
      · rintro (⟨h, -⟩ | h)
        · exact absurd h hp
        · exact Or.inr h
    · simp only [mapIncr, if_neg hk, List.mem_cons, ih]

theorem mapIncr_mem_key (m : List (Int × Nat)) (k : Int) (c : Nat)
    (hnd : (m.map Prod.fst).Nodup) :
    (k, c) ∈ mapIncr m k
      ↔ (k ∉ m.map Prod.fst ∧ c = 1) ∨ (∃ c0, (k, c0) ∈ m ∧ c = c0 + 1) := by
  induction m with
  | nil => simp [mapIncr]
  | cons q rest ih =>
    obtain ⟨k', c'⟩ := q
    rw [List.map_cons, List.nodup_cons] at hnd
    by_cases hk : k' = k
    · subst hk
      have hno : ∀ c0, (k', c0) ∉ rest := fun c0 h =>
        hnd.1 (List.mem_map.2 ⟨(k', c0), h, rfl⟩)
      simp only [mapIncr, if_true, List.mem_cons, Prod.mk.injEq, true_and, List.map_cons]
      constructor
      · rintro (h | h)
        · exact Or.inr ⟨c', Or.inl rfl, h⟩
        · exact absurd h (hno _)
      · rintro (⟨h, -⟩ | ⟨c0, h | h, e⟩)
        · exact absurd (Or.inl trivial) h
        · exact Or.inl (by rw [e, h])
        · exact absurd h (hno _)
    · have hk' : ¬ k = k' := fun e => hk e.symm
      simp only [mapIncr, if_neg hk, List.mem_cons, Prod.mk.injEq, hk', false_and, false_or,
        ih hnd.2, List.map_cons, not_or, not_false_eq_true, true_and]

theorem counts_spec (ks : List Int) :
    ((ks.foldl mapIncr []).map Prod.fst).Nodup
      ∧ ∀ k c, (k, c) ∈ ks.foldl mapIncr [] ↔ 0 < c ∧ c = ks.count k := by
  induction ks using List.reverseRecOn with
  | nil =>
    simp only [List.foldl_nil, List.map_nil, List.nodup_nil, List.not_mem_nil, List.count_nil,
      false_iff, true_and]
    intro k c h
    omega
  | append_singleton ks x ih =>
    obtain ⟨hnd, hmem⟩ := ih
    rw [List.foldl_append, List.foldl_cons, List.foldl_nil]
    constructor
    · rw [mapIncr_keys]
      split_ifs with hx
      · exact hnd
      · exact List.Nodup.append hnd (List.nodup_singleton x) (by simpa using hx)
    · intro k c
      by_cases hk : k = x
      · subst hk
        rw [mapIncr_mem_key _ _ _ hnd]
        have hkey : k ∈ (ks.foldl mapIncr []).map Prod.fst ↔ 0 < ks.count k := by
          constructor
          · intro h
            obtain ⟨⟨a, b⟩, hp, rfl⟩ := List.mem_map.1 h
            have := (hmem a b).1 hp
            show 0 < ks.count a
            omega
          · intro h
            exact List.mem_map.2 ⟨(k, ks.count k), (hmem _ _).2 ⟨h, rfl⟩, rfl⟩
        simp only [hkey, hmem, List.count_append, List.count_singleton_self]
        constructor
        · rintro (⟨h, rfl⟩ | ⟨c0, ⟨h0, rfl⟩, rfl⟩)
          · omega
          · omega
        · rintro ⟨h1, h2⟩
          by_cases h0 : 0 < ks.count k
          · exact Or.inr ⟨ks.count k, ⟨h0, rfl⟩, h2⟩
          · exact Or.inl ⟨h0, by omega⟩
      · rw [mapIncr_mem_of_ne _ _ _ hk, hmem, List.count_append]
        have : [x].count k = 0 := by
          simp [List.count_singleton, hk]
        rw [this, Nat.add_zero]

theorem getRankCounts_eq (cards : List Card) :
    getRankCounts cards = (cards.map Card.Rank).foldl mapIncr [] := by
  unfold getRankCounts
  rw [List.foldl_map]

theorem getSuitCounts_eq (cards : List Card) :
    getSuitCounts cards = (cards.map Card.Suit).foldl mapIncr [] := by
  unfold getSuitCounts
  rw [List.foldl_map]

/-! ## checkFlush -/

theorem checkFlush_iff (l : List (Suit × Nat)) : checkFlush l = true ↔ ∃ s, (s, 5) ∈ l := by
  induction l with
  | nil => simp [checkFlush]
  | cons p rest ih =>
    obtain ⟨s, n⟩ := p
    simp only [checkFlush, List.mem_cons, Prod.mk.injEq]
    split_ifs with h
    · subst h
      simp only [true_iff]
      exact ⟨s, by simp⟩
    · rw [ih]
      constructor
      · rintro ⟨s', hs⟩; exact ⟨s', Or.inr hs⟩
      · rintro ⟨s', ⟨-, h5⟩ | hs⟩
        · exact absurd h5.symm h
        · exact ⟨s', hs⟩

theorem checkFlush_perm (l l' : List (Suit × Nat)) (hp : l.Perm l') :
    checkFlush l = checkFlush l' := by
  rw [Bool.eq_iff_iff, checkFlush_iff, checkFlush_iff]
  exact exists_congr fun s => hp.mem_iff

theorem checkFlush_counts (o : RangeOrder) (cards : List Card) :
    checkFlush (o.suits (getSuitCounts cards)) = true
      ↔ ∃ s, (cards.map Card.Suit).count s = 5 := by
  rw [checkFlush_perm _ _ (o.suits_perm _), checkFlush_iff, getSuitCounts_eq]
  refine exists_congr fun s => ?_
  rw [(counts_spec _).2]
  constructor
  · rintro ⟨-, h⟩; exact h.symm
  · intro h; exact ⟨by omega, h.symm⟩

theorem checkFlush_five (o : RangeOrder) (c0 c1 c2 c3 c4 : Card) :
    checkFlush (o.suits (getSuitCounts [c0, c1, c2, c3, c4])) = true
      ↔ c1.Suit = c0.Suit ∧ c2.Suit = c0.Suit ∧ c3.Suit = c0.Suit ∧ c4.Suit = c0.Suit := by
  rw [checkFlush_counts]
  constructor
  · rintro ⟨s, hs⟩
    have hlen : ([c0, c1, c2, c3, c4].map Card.Suit).count s
        = ([c0, c1, c2, c3, c4].map Card.Suit).length := by rw [hs]; rfl
    rw [List.count_eq_length] at hlen
    have h0 := hlen c0.Suit (by simp)
    have h1 := hlen c1.Suit (by simp)
    have h2 := hlen c2.Suit (by simp)
    have h3 := hlen c3.Suit (by simp)
    have h4 := hlen c4.Suit (by simp)
    exact ⟨h1 ▸ h0.symm ▸ rfl, h2 ▸ h0.symm ▸ rfl, h3 ▸ h0.symm ▸ rfl, h4 ▸ h0.symm ▸ rfl⟩
  · rintro ⟨h1, h2, h3, h4⟩
    refine ⟨c0.Suit, ?_⟩
    simp [h1, h2, h3, h4]

/-! ## findNOfAKind and findAllPairs -/

theorem findNOfAKindLoop_spec (n : Nat) (l : List (Rank × Nat)) (best : Rank) (found : Bool) :
    ((findNOfAKindLoop n l (best, found)).2 = true ↔ found = true ∨ ∃ r, (r, n) ∈ l)
    ∧ ((findNOfAKindLoop n l (best, found)).2 = false →
        (findNOfAKindLoop n l (best, found)).1 = best)
    ∧ ((findNOfAKindLoop n l (best, found)).2 = true →
        ((found = true ∧ (findNOfAKindLoop n l (best, found)).1 = best)
          ∨ ((findNOfAKindLoop n l (best, found)).1, n) ∈ l)
        ∧ (found = true → best ≤ (findNOfAKindLoop n l (best, found)).1)
        ∧ ∀ r, (r, n) ∈ l → r ≤ (findNOfAKindLoop n l (best, found)).1) := by
  induction l generalizing best found with
  | nil => simp [findNOfAKindLoop]
  | cons p rest ih =>
    obtain ⟨rank, count⟩ := p
    simp only [findNOfAKindLoop]
    by_cases hc : count = n
    · subst hc
      by_cases hb : (!found || decide (rank > best)) = true
      · rw [if_pos rfl, if_pos hb]
        obtain ⟨i1, i2, i3⟩ := ih rank true
        refine ⟨?_, ?_, ?_⟩
        · rw [i1]; simp
        · intro h; rw [i1.2 (Or.inl rfl)] at h; exact absurd h (by simp)
        · intro h
          obtain ⟨j1, j2, j3⟩ := i3 h
          refine ⟨?_, ?_, ?_⟩
          · rcases j1 with ⟨-, e⟩ | hm
            · right; rw [e]; exact List.mem_cons_self _ _
            · right; exact List.mem_cons_of_mem _ hm
          · intro hf
            have hlt : best < rank := by
              simp only [hf, Bool.not_true, Bool.false_or, gt_iff_lt, decide_eq_true_eq] at hb
              exact hb
            exact le_trans (le_of_lt hlt) (j2 rfl)
          · intro r hr
            rcases List.mem_cons.1 hr with e | hr
            · have : r = rank := by simpa using congrArg Prod.fst e
              rw [this]; exact j2 rfl
            · exact j3 r hr
      · rw [if_pos rfl, if_neg hb]
        have hf : found = true := by
          cases found
          · simp at hb
          · rfl
        have hle : rank ≤ best := by
          simp only [hf, Bool.not_true, Bool.false_or, gt_iff_lt, decide_eq_true_eq,
            not_lt] at hb
          exact hb
        obtain ⟨i1, i2, i3⟩ := ih best found
        refine ⟨?_, ?_, ?_⟩
        · rw [i1]; simp [hf]
        · exact i2
        · intro h
          obtain ⟨j1, j2, j3⟩ := i3 h
          refine ⟨?_, j2, ?_⟩
          · rcases j1 with j | hm
            · exact Or.inl j
            · exact Or.inr (List.mem_cons_of_mem _ hm)
          · intro r hr
            rcases List.mem_cons.1 hr with e | hr
            · have : r = rank := by simpa using congrArg Prod.fst e
              rw [this]; exact le_trans hle (j2 hf)
            · exact j3 r hr
    · rw [if_neg hc]
      obtain ⟨i1, i2, i3⟩ := ih best found
      have hne : ∀ r, (r, n) ≠ (rank, count) := by
        intro r e
        exact hc (by simpa using (congrArg Prod.snd e).symm)
      refine ⟨?_, i2, ?_⟩
      · rw [i1]
        simp only [List.mem_cons, hne, false_or]
      · intro h
        obtain ⟨j1, j2, j3⟩ := i3 h
        refine ⟨?_, j2, ?_⟩
        · rcases j1 with j | hm
          · exact Or.inl j
          · exact Or.inr (List.mem_cons_of_mem _ hm)
        · intro r hr
          rcases List.mem_cons.1 hr with e | hr
          · exact absurd e (hne r)
          · exact j3 r hr

theorem findNOfAKind_found (l : List (Rank × Nat)) (n : Nat) :
    (findNOfAKind l n).2 = true ↔ ∃ r, (r, n) ∈ l := by
  unfold findNOfAKind
  rw [(findNOfAKindLoop_spec n l 0 false).1]
  simp

theorem findNOfAKind_best (l : List (Rank × Nat)) (n : Nat) (h : (findNOfAKind l n).2 = true) :
    ((findNOfAKind l n).1, n) ∈ l ∧ ∀ r, (r, n) ∈ l → r ≤ (findNOfAKind l n).1 := by
  unfold findNOfAKind at h ⊢
  obtain ⟨j1, -, j3⟩ := (findNOfAKindLoop_spec n l 0 false).2.2 h
  refine ⟨?_, j3⟩
  rcases j1 with ⟨hf, -⟩ | hm
  · exact absurd hf (by simp)
  · exact hm

theorem findNOfAKind_none (l : List (Rank × Nat)) (n : Nat) (h : (findNOfAKind l n).2 = false) :
    (findNOfAKind l n).1 = 0 := by
  unfold findNOfAKind at h ⊢
  exact (findNOfAKindLoop_spec n l 0 false).2.1 h

theorem findNOfAKind_perm (l l' : List (Rank × Nat)) (n : Nat) (hp : l.Perm l') :
    findNOfAKind l n = findNOfAKind l' n := by
  have hfound : (findNOfAKind l n).2 = (findNOfAKind l' n).2 := by
    rw [Bool.eq_iff_iff, findNOfAKind_found, findNOfAKind_found]
    exact exists_congr fun r => hp.mem_iff
  refine Prod.ext ?_ hfound
  cases hf : (findNOfAKind l n).2
  · rw [findNOfAKind_none l n hf, findNOfAKind_none l' n (hfound ▸ hf)]
  · obtain ⟨m1, b1⟩ := findNOfAKind_best l n hf
    obtain ⟨m2, b2⟩ := findNOfAKind_best l' n (hfound ▸ hf)
    exact le_antisymm (b2 _ (hp.mem_iff.1 m1)) (b1 _ (hp.mem_iff.2 m2))

theorem findAllPairs_eq (l : List (Rank × Nat)) :
    findAllPairs l = (l.filter (fun p => decide (p.2 = 2))).map Prod.fst := by
  induction l with
  | nil => rfl
  | cons p rest ih =>
    obtain ⟨r, c⟩ := p
    simp only [findAllPairs, List.filter_cons, decide_eq_true_eq]
    split_ifs
    · simp [ih]
    · exact ih

theorem findAllPairs_perm (l l' : List (Rank × Nat)) (hp : l.Perm l') :
    (findAllPairs l).Perm (findAllPairs l') := by
  rw [findAllPairs_eq, findAllPairs_eq]
  exact (hp.filter _).map _

/-! ## Evaluate on five cards -/

theorem checkStraight_of_repeat (c0 c1 c2 c3 c4 : Card)
    (h : c0.Rank = c1.Rank ∨ c1.Rank = c2.Rank ∨ c2.Rank = c3.Rank ∨ c3.Rank = c4.Rank) :
    checkStraight [c0, c1, c2, c3, c4] = (false, 0) := by
  simp only [checkStraight, Ace, Five, Four, Three, Two, Rank] at *
  split_ifs <;> first | rfl | omega

theorem Evaluate_sorted_five (t0 t1 t2 t3 t4 : Suit) (a b c d e : Int) (r : HandRank)
    (v : List Rank) (hab : b ≤ a) (hbc : c ≤ b) (hcd : d ≤ c) (hde : e ≤ d) :
    Evaluate RangeOrder.insertion ⟨[⟨t0, a⟩, ⟨t1, b⟩, ⟨t2, c⟩, ⟨t3, d⟩, ⟨t4, e⟩], r, v⟩
      = ⟨[⟨t0, a⟩, ⟨t1, b⟩, ⟨t2, c⟩, ⟨t3, d⟩, ⟨t4, e⟩],
          (classify5 (checkFlush (getSuitCounts [⟨t0, a⟩, ⟨t1, b⟩, ⟨t2, c⟩, ⟨t3, d⟩, ⟨t4, e⟩]))
            (checkStraight [⟨t0, a⟩, ⟨t1, b⟩, ⟨t2, c⟩, ⟨t3, d⟩, ⟨t4, e⟩]).1
            (checkStraight [⟨t0, a⟩, ⟨t1, b⟩, ⟨t2, c⟩, ⟨t3, d⟩, ⟨t4, e⟩]).2 a b c d e).1,
          (classify5 (checkFlush (getSuitCounts [⟨t0, a⟩, ⟨t1, b⟩, ⟨t2, c⟩, ⟨t3, d⟩, ⟨t4, e⟩]))
            (checkStraight [⟨t0, a⟩, ⟨t1, b⟩, ⟨t2, c⟩, ⟨t3, d⟩, ⟨t4, e⟩]).1
            (checkStraight [⟨t0, a⟩, ⟨t1, b⟩, ⟨t2, c⟩, ⟨t3, d⟩, ⟨t4, e⟩]).2 a b c d e).2⟩ := by
  have hs : sortByRank [⟨t0, a⟩, ⟨t1, b⟩, ⟨t2, c⟩, ⟨t3, d⟩, ⟨t4, e⟩]
      = [⟨t0, a⟩, ⟨t1, b⟩, ⟨t2, c⟩, ⟨t3, d⟩, ⟨t4, e⟩] := by
    apply sortByRank_of_sorted
    simp
    simp only [Rank]
    omega
  have hr : getSortedRanks [⟨t0, a⟩, ⟨t1, b⟩, ⟨t2, c⟩, ⟨t3, d⟩, ⟨t4, e⟩] = [a, b, c, d, e] := by
    unfold getSortedRanks
    apply sortSlice_of_sorted (fun x : Int => x)
    simp
    omega
  simp only [Evaluate, hs, hr, RangeOrder.insertion]
  generalize checkFlush (getSuitCounts _) = f
  rcases hab.eq_or_lt with hab | hab <;> rcases hbc.eq_or_lt with hbc | hbc <;>
    rcases hcd.eq_or_lt with hcd | hcd <;> rcases hde.eq_or_lt with hde | hde
  · subst hab
    subst hbc
    subst hcd
    subst hde
    rw [checkStraight_of_repeat _ _ _ _ _ (by simp)]
    cases f <;>
      simp [getRankCounts, mapIncr, findNOfAKind, findNOfAKindLoop, findAllPairs,
      getKickers, kickerCandidates, kickerLoop, sortSlice, insertBack, classify5]
  · subst hab
    subst hbc
    subst hcd
    rw [checkStraight_of_repeat _ _ _ _ _ (by simp)]
    have n1 : d ≠ e := by omega
    have p1 : e ≠ d := by omega
    have m1 : ¬ d < e := by omega
    have q1 : e < d := by omega
    cases f <;>
      simp [getRankCounts, mapIncr, findNOfAKind, findNOfAKindLoop, findAllPairs,
      getKickers, kickerCandidates, kickerLoop, sortSlice, insertBack, classify5, n1, p1, m1, q1]
  · subst hab
    subst hbc
    subst hde
    rw [checkStraight_of_repeat _ _ _ _ _ (by simp)]
    have n1 : c ≠ e := by omega
    have p1 : e ≠ c := by omega
    have m1 : ¬ c < e := by omega
    have q1 : e < c := by omega
    cases f <;>
      simp [getRankCounts, mapIncr, findNOfAKind, findNOfAKindLoop, findAllPairs,
      getKickers, kickerCandidates, kickerLoop, sortSlice, insertBack, classify5, n1, p1, m1, q1]
  · subst hab
    subst hbc
    rw [checkStraight_of_repeat _ _ _ _ _ (by simp)]
    have n1 : c ≠ d := by omega
    have p1 : d ≠ c := by omega
    have m1 : ¬ c < d := by omega
    have q1 : d < c := by omega
    have n2 : c ≠ e := by omega
    have p2 : e ≠ c := by omega
    have m2 : ¬ c < e := by omega
    have q2 : e < c := by omega
    have n3 : d ≠ e := by omega
    have p3 : e ≠ d := by omega
    have m3 : ¬ d < e := by omega
    have q3 : e < d := by omega
    cases f <;>
      simp [getRankCounts, mapIncr, findNOfAKind, findNOfAKindLoop, findAllPairs,
      getKickers, kickerCandidates, kickerLoop, sortSlice, insertBack, classify5, n1, p1, m1, q1, n2, p2, m2, q2, n3, p3, m3, q3]
  · subst hab
    subst hcd
    subst hde
    rw [checkStraight_of_repeat _ _ _ _ _ (by simp)]
    have n1 : b ≠ e := by omega
    have p1 : e ≠ b := by omega
    have m1 : ¬ b < e := by omega
    have q1 : e < b := by omega
    cases f <;>
      simp [getRankCounts, mapIncr, findNOfAKind, findNOfAKindLoop, findAllPairs,
      getKickers, kickerCandidates, kickerLoop, sortSlice, insertBack, classify5, n1, p1, m1, q1]
  · subst hab
    subst hcd
    rw [checkStraight_of_repeat _ _ _ _ _ (by simp)]
    have n1 : b ≠ d := by omega
    have p1 : d ≠ b := by omega
    have m1 : ¬ b < d := by omega
    have q1 : d < b := by omega
    have n2 : b ≠ e := by omega
    have p2 : e ≠ b := by omega
    have m2 : ¬ b < e := by omega
    have q2 : e < b := by omega
    have n3 : d ≠ e := by omega
    have p3 : e ≠ d := by omega
    have m3 : ¬ d < e := by omega
    have q3 : e < d := by omega
    cases f <;>
      simp [getRankCounts, mapIncr, findNOfAKind, findNOfAKindLoop, findAllPairs,
      getKickers, kickerCandidates, kickerLoop, sortSlice, insertBack, classify5, n1, p1, m1, q1, n2, p2, m2, q2, n3, p3, m3, q3]
  · subst hab
    subst hde
    rw [checkStraight_of_repeat _ _ _ _ _ (by simp)]
    have n1 : b ≠ c := by omega
    have p1 : c ≠ b := by omega
    have m1 : ¬ b < c := by omega
    have q1 : c < b := by omega
    have n2 : b ≠ e := by omega
    have p2 : e ≠ b := by omega
    have m2 : ¬ b < e := by omega
    have q2 : e < b := by omega
    have n3 : c ≠ e := by omega
    have p3 : e ≠ c := by omega
    have m3 : ¬ c < e := by omega
    have q3 : e < c := by omega
    cases f <;>
      simp [getRankCounts, mapIncr, findNOfAKind, findNOfAKindLoop, findAllPairs,
      getKickers, kickerCandidates, kickerLoop, sortSlice, insertBack, classify5, n1, p1, m1, q1, n2, p2, m2, q2, n3, p3, m3, q3]
  · subst hab
    rw [checkStraight_of_repeat _ _ _ _ _ (by simp)]
    have n1 : b ≠ c := by omega
    have p1 : c ≠ b := by omega
    have m1 : ¬ b < c := by omega
    have q1 : c < b := by omega
    have n2 : b ≠ d := by omega
    have p2 : d ≠ b := by omega
    have m2 : ¬ b < d := by omega
    have q2 : d < b := by omega
    have n3 : b ≠ e := by omega
    have p3 : e ≠ b := by omega
    have m3 : ¬ b < e := by omega
    have q3 : e < b := by omega
    have n4 : c ≠ d := by omega
    have p4 : d ≠ c := by omega
    have m4 : ¬ c < d := by omega
    have q4 : d < c := by omega
    have n5 : c ≠ e := by omega
    have p5 : e ≠ c := by omega
    have m5 : ¬ c < e := by omega
    have q5 : e < c := by omega
    have n6 : d ≠ e := by omega
    have p6 : e ≠ d := by omega
    have m6 : ¬ d < e := by omega
    have q6 : e < d := by omega
    cases f <;>
      simp [getRankCounts, mapIncr, findNOfAKind, findNOfAKindLoop, findAllPairs,
      getKickers, kickerCandidates, kickerLoop, sortSlice, insertBack, classify5, n1, p1, m1, q1, n2, p2, m2, q2, n3, p3, m3, q3, n4, p4, m4, q4, n5, p5, m5, q5, n6, p6, m6, q6]
  · subst hbc
    subst hcd
    subst hde
    rw [checkStraight_of_repeat _ _ _ _ _ (by simp)]
    have n1 : a ≠ e := by omega
    have p1 : e ≠ a := by omega
    have m1 : ¬ a < e := by omega
    have q1 : e < a := by omega
    cases f <;>
      simp [getRankCounts, mapIncr, findNOfAKind, findNOfAKindLoop, findAllPairs,
      getKickers, kickerCandidates, kickerLoop, sortSlice, insertBack, classify5, n1, p1, m1, q1]
  · subst hbc
    subst hcd
    rw [checkStraight_of_repeat _ _ _ _ _ (by simp)]
    have n1 : a ≠ d := by omega
    have p1 : d ≠ a := by omega
    have m1 : ¬ a < d := by omega
    have q1 : d < a := by omega
    have n2 : a ≠ e := by omega
    have p2 : e ≠ a := by omega
    have m2 : ¬ a < e := by omega
    have q2 : e < a := by omega
    have n3 : d ≠ e := by omega
    have p3 : e ≠ d := by omega
    have m3 : ¬ d < e := by omega
    have q3 : e < d := by omega
    cases f <;>
      simp [getRankCounts, mapIncr, findNOfAKind, findNOfAKindLoop, findAllPairs,
      getKickers, kickerCandidates, kickerLoop, sortSlice, insertBack, classify5, n1, p1, m1, q1, n2, p2, m2, q2, n3, p3, m3, q3]
  · subst hbc
    subst hde
    rw [checkStraight_of_repeat _ _ _ _ _ (by simp)]
    have n1 : a ≠ c := by omega
    have p1 : c ≠ a := by omega
    have m1 : ¬ a < c := by omega
    have q1 : c < a := by omega
    have n2 : a ≠ e := by omega
    have p2 : e ≠ a := by omega
    have m2 : ¬ a < e := by omega
    have q2 : e < a := by omega
    have n3 : c ≠ e := by omega
    have p3 : e ≠ c := by omega
    have m3 : ¬ c < e := by omega
    have q3 : e < c := by omega
    cases f <;>
      simp [getRankCounts, mapIncr, findNOfAKind, findNOfAKindLoop, findAllPairs,
      getKickers, kickerCandidates, kickerLoop, sortSlice, insertBack, classify5, n1, p1, m1, q1, n2, p2, m2, q2, n3, p3, m3, q3]
  · subst hbc
    rw [checkStraight_of_repeat _ _ _ _ _ (by simp)]
    have n1 : a ≠ c := by omega
    have p1 : c ≠ a := by omega
    have m1 : ¬ a < c := by omega
    have q1 : c < a := by omega
    have n2 : a ≠ d := by omega
    have p2 : d ≠ a := by omega
    have m2 : ¬ a < d := by omega
    have q2 : d < a := by omega
    have n3 : a ≠ e := by omega
    have p3 : e ≠ a := by omega
    have m3 : ¬ a < e := by omega
    have q3 : e < a := by omega
    have n4 : c ≠ d := by omega
    have p4 : d ≠ c := by omega
    have m4 : ¬ c < d := by omega
    have q4 : d < c := by omega
    have n5 : c ≠ e := by omega
    have p5 : e ≠ c := by omega
    have m5 : ¬ c < e := by omega
    have q5 : e < c := by omega
    have n6 : d ≠ e := by omega
    have p6 : e ≠ d := by omega
    have m6 : ¬ d < e := by omega
    have q6 : e < d := by omega
    cases f <;>
      simp [getRankCounts, mapIncr, findNOfAKind, findNOfAKindLoop, findAllPairs,
      getKickers, kickerCandidates, kickerLoop, sortSlice, insertBack, classify5, n1, p1, m1, q1, n2, p2, m2, q2, n3, p3, m3, q3, n4, p4, m4, q4, n5, p5, m5, q5, n6, p6, m6, q6]
  · subst hcd
    subst hde
    rw [checkStraight_of_repeat _ _ _ _ _ (by simp)]
    have n1 : a ≠ b := by omega
    have p1 : b ≠ a := by omega
    have m1 : ¬ a < b := by omega
    have q1 : b < a := by omega
    have n2 : a ≠ e := by omega
    have p2 : e ≠ a := by omega
    have m2 : ¬ a < e := by omega
    have q2 : e < a := by omega
    have n3 : b ≠ e := by omega
    have p3 : e ≠ b := by omega
    have m3 : ¬ b < e := by omega
    have q3 : e < b := by omega
    cases f <;>
      simp [getRankCounts, mapIncr, findNOfAKind, findNOfAKindLoop, findAllPairs,
      getKickers, kickerCandidates, kickerLoop, sortSlice, insertBack, classify5, n1, p1, m1, q1, n2, p2, m2, q2, n3, p3, m3, q3]
  · subst hcd
    rw [checkStraight_of_repeat _ _ _ _ _ (by simp)]
    have n1 : a ≠ b := by omega
    have p1 : b ≠ a := by omega
    have m1 : ¬ a < b := by omega
    have q1 : b < a := by omega
    have n2 : a ≠ d := by omega
    have p2 : d ≠ a := by omega
    have m2 : ¬ a < d := by omega
    have q2 : d < a := by omega
    have n3 : a ≠ e := by omega
    have p3 : e ≠ a := by omega
    have m3 : ¬ a < e := by omega
    have q3 : e < a := by omega
    have n4 : b ≠ d := by omega
    have p4 : d ≠ b := by omega
    have m4 : ¬ b < d := by omega
    have q4 : d < b := by omega
    have n5 : b ≠ e := by omega
    have p5 : e ≠ b := by omega
    have m5 : ¬ b < e := by omega
    have q5 : e < b := by omega
    have n6 : d ≠ e := by omega
    have p6 : e ≠ d := by omega
    have m6 : ¬ d < e := by omega
    have q6 : e < d := by omega
    cases f <;>
      simp [getRankCounts, mapIncr, findNOfAKind, findNOfAKindLoop, findAllPairs,
      getKickers, kickerCandidates, kickerLoop, sortSlice, insertBack, classify5, n1, p1, m1, q1, n2, p2, m2, q2, n3, p3, m3, q3, n4, p4, m4, q4, n5, p5, m5, q5, n6, p6, m6, q6]
  · subst hde
    rw [checkStraight_of_repeat _ _ _ _ _ (by simp)]
    have n1 : a ≠ b := by omega
    have p1 : b ≠ a := by omega
    have m1 : ¬ a < b := by omega
    have q1 : b < a := by omega
    have n2 : a ≠ c := by omega
    have p2 : c ≠ a := by omega
    have m2 : ¬ a < c := by omega
    have q2 : c < a := by omega
    have n3 : a ≠ e := by omega
    have p3 : e ≠ a := by omega
    have m3 : ¬ a < e := by omega
    have q3 : e < a := by omega
    have n4 : b ≠ c := by omega
    have p4 : c ≠ b := by omega
    have m4 : ¬ b < c := by omega
    have q4 : c < b := by omega
    have n5 : b ≠ e := by omega
    have p5 : e ≠ b := by omega
    have m5 : ¬ b < e := by omega
    have q5 : e < b := by omega
    have n6 : c ≠ e := by omega
    have p6 : e ≠ c := by omega
    have m6 : ¬ c < e := by omega
    have q6 : e < c := by omega
    cases f <;>
      simp [getRankCounts, mapIncr, findNOfAKind, findNOfAKindLoop, findAllPairs,
      getKickers, kickerCandidates, kickerLoop, sortSlice, insertBack, classify5, n1, p1, m1, q1, n2, p2, m2, q2, n3, p3, m3, q3, n4, p4, m4, q4, n5, p5, m5, q5, n6, p6, m6, q6]
  · generalize checkStraight _ = st
    obtain ⟨s, hi⟩ := st
    have n1 : a ≠ b := by omega
    have p1 : b ≠ a := by omega
    have m1 : ¬ a < b := by omega
    have q1 : b < a := by omega
    have n2 : a ≠ c := by omega
    have p2 : c ≠ a := by omega
    have m2 : ¬ a < c := by omega
    have q2 : c < a := by omega
    have n3 : a ≠ d := by omega
    have p3 : d ≠ a := by omega
    have m3 : ¬ a < d := by omega
    have q3 : d < a := by omega
    have n4 : a ≠ e := by omega
    have p4 : e ≠ a := by omega
    have m4 : ¬ a < e := by omega
    have q4 : e < a := by omega
    have n5 : b ≠ c := by omega
    have p5 : c ≠ b := by omega
    have m5 : ¬ b < c := by omega
    have q5 : c < b := by omega
    have n6 : b ≠ d := by omega
    have p6 : d ≠ b := by omega
    have m6 : ¬ b < d := by omega
    have q6 : d < b := by omega
    have n7 : b ≠ e := by omega
    have p7 : e ≠ b := by omega
    have m7 : ¬ b < e := by omega
    have q7 : e < b := by omega
    have n8 : c ≠ d := by omega
    have p8 : d ≠ c := by omega
    have m8 : ¬ c < d := by omega
    have q8 : d < c := by omega
    have n9 : c ≠ e := by omega
    have p9 : e ≠ c := by omega
    have m9 : ¬ c < e := by omega
    have q9 : e < c := by omega
    have n10 : d ≠ e := by omega
    have p10 : e ≠ d := by omega
    have m10 : ¬ d < e := by omega
    have q10 : e < d := by omega
    cases f <;> cases s <;>
      simp [getRankCounts, mapIncr, findNOfAKind, findNOfAKindLoop, findAllPairs,
      getKickers, kickerCandidates, kickerLoop, sortSlice, insertBack, classify5, n1, p1, m1, q1, n2, p2, m2, q2, n3, p3, m3, q3, n4, p4, m4, q4, n5, p5, m5, q5, n6, p6, m6, q6, n7, p7, m7, q7, n8, p8, m8, q8, n9, p9, m9, q9, n10, p10, m10, q10]
    split_ifs <;> rfl

/-! ## The visiting order of the maps does not matter -/

theorem findNOfAKind_order (o : RangeOrder) (i : Nat) (m : List (Rank × Nat)) (n : Nat) :
    findNOfAKind (o.ranks i m) n = findNOfAKind m n :=
  findNOfAKind_perm _ _ n (o.ranks_perm i m)

theorem checkFlush_order (o : RangeOrder) (m : List (Suit × Nat)) :
    checkFlush (o.suits m) = checkFlush m :=
  checkFlush_perm _ _ (o.suits_perm m)

theorem findAllPairs_length_order (o : RangeOrder) (i : Nat) (m : List (Rank × Nat)) :
    (findAllPairs (o.ranks i m)).length = (findAllPairs m).length :=
  (findAllPairs_perm _ _ (o.ranks_perm i m)).length_eq

theorem findAllPairs_sort_order (o : RangeOrder) (i : Nat) (m : List (Rank × Nat)) :
    sortSlice (fun pi pj => decide (pi > pj)) (findAllPairs (o.ranks i m))
      = sortSlice (fun pi pj => decide (pi > pj)) (findAllPairs m) :=
  sortSlice_ranks_perm _ _ (findAllPairs_perm _ _ (o.ranks_perm i m))

theorem Evaluate_order (o : RangeOrder) (h : Hand) :
    Evaluate o h = Evaluate RangeOrder.insertion h := by
  simp only [Evaluate, findNOfAKind_order, checkFlush_order, findAllPairs_length_order,
    findAllPairs_sort_order, RangeOrder.insertion]

theorem Evaluate_irrelevant (o : RangeOrder) (c1 c2 : List Card) (r1 r2 : HandRank)
    (v1 v2 : List Rank) (h : c1 = c2) :
    Evaluate o ⟨c1, r1, v1⟩ = Evaluate o ⟨c2, r2, v2⟩ := by
  subst h
  simp only [Evaluate]

theorem length_five {α : Type} (l : List α) (h : l.length = 5) :
    ∃ x0 x1 x2 x3 x4, l = [x0, x1, x2, x3, x4] := by
  match l, h with
  | [x0, x1, x2, x3, x4], _ => exact ⟨x0, x1, x2, x3, x4, rfl⟩

/-- The flush flag and the straight flag of five cards in descending rank order, as
propositions on suits and ranks. -/
theorem checkFlush_sorted_five (c0 c1 c2 c3 c4 : Card) :
    checkFlush (getSuitCounts [c0, c1, c2, c3, c4])
      = decide (c1.Suit = c0.Suit ∧ c2.Suit = c0.Suit ∧ c3.Suit = c0.Suit ∧ c4.Suit = c0.Suit) := by
  rw [Bool.eq_iff_iff, decide_eq_true_eq]
  exact checkFlush_five RangeOrder.insertion c0 c1 c2 c3 c4

theorem checkStraight_eq (c0 c1 c2 c3 c4 : Card) :
    checkStraight [c0, c1, c2, c3, c4]
      = (decide ((c0.Rank = 14 ∧ c1.Rank = 5 ∧ c2.Rank = 4 ∧ c3.Rank = 3 ∧ c4.Rank = 2)
            ∨ (c0.Rank - c1.Rank = 1 ∧ c1.Rank - c2.Rank = 1 ∧ c2.Rank - c3.Rank = 1
              ∧ c3.Rank - c4.Rank = 1)),
          if c0.Rank = 14 ∧ c1.Rank = 5 ∧ c2.Rank = 4 ∧ c3.Rank = 3 ∧ c4.Rank = 2 then 5
          else if c0.Rank - c1.Rank = 1 ∧ c1.Rank - c2.Rank = 1 ∧ c2.Rank - c3.Rank = 1
              ∧ c3.Rank - c4.Rank = 1 then c0.Rank
          else 0) := by
  simp only [checkStraight, Ace, Five, Four, Three, Two, Rank, ne_eq]
  split_ifs <;> simp_all

theorem Evaluate_five (o : RangeOrder) (cards : List Card) (hlen : cards.length = 5) :
    ∃ (t0 t1 t2 t3 t4 a b c d e : Int),
      [(⟨t0, a⟩ : Card), ⟨t1, b⟩, ⟨t2, c⟩, ⟨t3, d⟩, ⟨t4, e⟩].Perm cards
      ∧ b ≤ a ∧ c ≤ b ∧ d ≤ c ∧ e ≤ d
      ∧ sortByRank cards = [(⟨t0, a⟩ : Card), ⟨t1, b⟩, ⟨t2, c⟩, ⟨t3, d⟩, ⟨t4, e⟩]
      ∧ Evaluate o (NewHand cards)
        = ⟨[⟨t0, a⟩, ⟨t1, b⟩, ⟨t2, c⟩, ⟨t3, d⟩, ⟨t4, e⟩],
            (classify5 (decide (t1 = t0 ∧ t2 = t0 ∧ t3 = t0 ∧ t4 = t0))
              (decide ((a = 14 ∧ b = 5 ∧ c = 4 ∧ d = 3 ∧ e = 2)
                ∨ (a - b = 1 ∧ b - c = 1 ∧ c - d = 1 ∧ d - e = 1)))
              (if a = 14 ∧ b = 5 ∧ c = 4 ∧ d = 3 ∧ e = 2 then 5
                else if a - b = 1 ∧ b - c = 1 ∧ c - d = 1 ∧ d - e = 1 then a else 0)
              a b c d e).1,
            (classify5 (decide (t1 = t0 ∧ t2 = t0 ∧ t3 = t0 ∧ t4 = t0))
              (decide ((a = 14 ∧ b = 5 ∧ c = 4 ∧ d = 3 ∧ e = 2)
                ∨ (a - b = 1 ∧ b - c = 1 ∧ c - d = 1 ∧ d - e = 1)))
              (if a = 14 ∧ b = 5 ∧ c = 4 ∧ d = 3 ∧ e = 2 then 5
                else if a - b = 1 ∧ b - c = 1 ∧ c - d = 1 ∧ d - e = 1 then a else 0)
              a b c d e).2⟩ := by
  have hp := sortByRank_perm cards
  have hsorted := sortByRank_sorted cards
  obtain ⟨s0, s1, s2, s3, s4, hs⟩ := length_five (sortByRank cards) (by rw [hp.length_eq, hlen])
  rw [hs] at hp hsorted
  simp only [List.pairwise_cons, List.mem_cons, List.mem_singleton, forall_eq_or_imp,
    forall_eq, List.not_mem_nil, ge_iff_le] at hsorted
  obtain ⟨⟨h01, -⟩, ⟨h12, -⟩, ⟨h23, -⟩, ⟨h34, -⟩, -⟩ := hsorted
  have hsort2 : sortByRank [s0, s1, s2, s3, s4] = [s0, s1, s2, s3, s4] := by
    rw [← hs]; exact sortByRank_of_sorted _ (sortByRank_sorted cards)
  have e1 : Evaluate o (NewHand cards) = Evaluate o ⟨[s0, s1, s2, s3, s4], 0, []⟩ := by
    simp only [Evaluate, NewHand, CopyCards_eq, hs, hsort2]
  obtain ⟨t0, a⟩ := s0
  obtain ⟨t1, b⟩ := s1
  obtain ⟨t2, c⟩ := s2
  obtain ⟨t3, d⟩ := s3
  obtain ⟨t4, e⟩ := s4
  refine ⟨t0, t1, t2, t3, t4, a, b, c, d, e, hp, h01, h12, h23, h34, hs, ?_⟩
  rw [e1, Evaluate_order, Evaluate_sorted_five t0 t1 t2 t3 t4 a b c d e 0 [] h01 h12 h23 h34,
    checkFlush_sorted_five, checkStraight_eq]

/-! ## Counting ranks in five sorted cards -/

theorem count_ranks_of_perm (cards : List Card) (t0 t1 t2 t3 t4 : Suit) (a b c d e : Int)
    (hp : [(⟨t0, a⟩ : Card), ⟨t1, b⟩, ⟨t2, c⟩, ⟨t3, d⟩, ⟨t4, e⟩].Perm cards) (q : Rank) :
    (cards.map Card.Rank).count q = [a, b, c, d, e].count q := by
  rw [← (hp.map Card.Rank).count_eq]
  rfl

theorem count_five (a b c d e q : Int) :
    [a, b, c, d, e].count q
      = (if a = q then 1 else 0) + (if b = q then 1 else 0) + (if c = q then 1 else 0)
        + (if d = q then 1 else 0) + (if e = q then 1 else 0) := by
  simp only [List.count_cons, List.count_nil, beq_iff_eq]
  omega

theorem count_eq_four (a b c d e q : Int) (hab : b ≤ a) (hbc : c ≤ b) (hcd : d ≤ c)
    (hde : e ≤ d) :
    [a, b, c, d, e].count q = 4 ↔ q = b ∧ ((a = d ∧ e < d) ∨ (b < a ∧ b = e)) := by
  rw [count_five]
  split_ifs <;> omega

theorem count_eq_three (a b c d e q : Int) (hab : b ≤ a) (hbc : c ≤ b) (hcd : d ≤ c)
    (hde : e ≤ d) :
    [a, b, c, d, e].count q = 3
      ↔ q = c ∧ ((a = c ∧ d < c) ∨ (b < a ∧ b = d ∧ e < d) ∨ (c < b ∧ c = e)) := by
  rw [count_five]
  split_ifs <;> omega

theorem count_eq_two (a b c d e q : Int) (hab : b ≤ a) (hbc : c ≤ b) (hcd : d ≤ c)
    (hde : e ≤ d) :
    [a, b, c, d, e].count q = 2
      ↔ (q = a ∧ a = b ∧ c < b) ∨ (q = b ∧ b < a ∧ b = c ∧ d < c)
        ∨ (q = c ∧ c < b ∧ c = d ∧ e < d) ∨ (q = d ∧ d < c ∧ d = e) := by
  rw [count_five]
  split_ifs <;> omega

theorem count_eq_one (a b c d e q : Int) (hab : b ≤ a) (hbc : c ≤ b) (hcd : d ≤ c)
    (hde : e ≤ d) :
    [a, b, c, d, e].count q = 1
      ↔ (q = a ∧ b < a) ∨ (q = b ∧ b < a ∧ c < b) ∨ (q = c ∧ c < b ∧ d < c)
        ∨ (q = d ∧ d < c ∧ e < d) ∨ (q = e ∧ e < d) := by
  rw [count_five]
  split_ifs <;> omega

theorem mem_ranks_of_perm (cards : List Card) (t0 t1 t2 t3 t4 : Suit) (a b c d e : Int)
    (hp : [(⟨t0, a⟩ : Card), ⟨t1, b⟩, ⟨t2, c⟩, ⟨t3, d⟩, ⟨t4, e⟩].Perm cards) (k : Rank) :
    k ∈ cards.map Card.Rank ↔ k = a ∨ k = b ∨ k = c ∨ k = d ∨ k = e := by
  rw [← (hp.map Card.Rank).mem_iff]
  simp

/-! ## The table of outcomes of Evaluate on five cards -/

set_option maxHeartbeats 1600000 in
theorem Evaluate_cases (o : RangeOrder) (cards : List Card) (hlen : cards.length = 5) :
    ∃ (t0 t1 t2 t3 t4 a b c d e f : Int),
      [(⟨t0, a⟩ : Card), ⟨t1, b⟩, ⟨t2, c⟩, ⟨t3, d⟩, ⟨t4, e⟩].Perm cards
      ∧ (b ≤ a ∧ c ≤ b ∧ d ≤ c ∧ e ≤ d)
      ∧ (Evaluate o (NewHand cards)).Cards
          = [(⟨t0, a⟩ : Card), ⟨t1, b⟩, ⟨t2, c⟩, ⟨t3, d⟩, ⟨t4, e⟩]
      ∧ (f = 1 ∨ f = 0)
      ∧ (f = 1 ↔ t1 = t0 ∧ t2 = t0 ∧ t3 = t0 ∧ t4 = t0)
      ∧ OutcomeTable f a b c d e (Evaluate o (NewHand cards)).Rank
          (Evaluate o (NewHand cards)).Values := by
  obtain ⟨t0, t1, t2, t3, t4, a, b, c, d, e, hp, hab, hbc, hcd, hde, -, hE⟩ :=
    Evaluate_five o cards hlen
  obtain ⟨f, hf01, hfF⟩ : ∃ f : Int, (f = 1 ∨ f = 0)
      ∧ (f = 1 ↔ t1 = t0 ∧ t2 = t0 ∧ t3 = t0 ∧ t4 = t0) := by
    by_cases hF : t1 = t0 ∧ t2 = t0 ∧ t3 = t0 ∧ t4 = t0
    · exact ⟨1, Or.inl rfl, by simp [hF]⟩
    · exact ⟨0, Or.inr rfl, by simp [hF]⟩
  refine ⟨t0, t1, t2, t3, t4, a, b, c, d, e, f, hp, ⟨hab, hbc, hcd, hde⟩, by rw [hE], hf01,
    hfF, ?_⟩
  have hf0 : ¬ (t1 = t0 ∧ t2 = t0 ∧ t3 = t0 ∧ t4 = t0) → f = 0 := by
    intro h
    rcases hf01 with h1 | h0
    · exact absurd (hfF.1 h1) h
    · exact h0
  have hf1 := hfF.2
  clear hfF hf01
  rw [hE]
  simp only [classify5, Bool.and_eq_true, decide_eq_true_eq, Ace, HighCard, OnePair, TwoPairs,
    ThreeOfAKind, Straight, Flush, FullHouse, FourOfAKind, StraightFlush, RoyalFlush, Rank,
    HandRank, ne_eq, OutcomeTable]
  rcases hab.eq_or_lt with hab | hab <;> rcases hbc.eq_or_lt with hbc | hbc <;>
    rcases hcd.eq_or_lt with hcd | hcd <;> rcases hde.eq_or_lt with hde | hde
  · subst hab
    subst hbc
    subst hcd
    subst hde
    have hW : ¬ (e = 14 ∧ e = 5 ∧ e = 4 ∧ e = 3 ∧ e = 2) := by omega
    have hR : ¬ (e - e = 1 ∧ e - e = 1 ∧ e - e = 1 ∧ e - e = 1) := by omega
    by_cases hF : t1 = t0 ∧ t2 = t0 ∧ t3 = t0 ∧ t4 = t0
    · have hf := hf1 hF
      iterate 8 right
      left
      refine ⟨by omega, ?_, ?_⟩ <;> simp [hF, hW, hR]
    · have hf := hf0 hF
      iterate 22 right
      refine ⟨by omega, ?_, ?_⟩ <;> simp [hF, hW, hR]
  · subst hab
    subst hbc
    subst hcd
    have n1 : d ≠ e := by omega
    have p1 : e ≠ d := by omega
    have hW : ¬ (d = 14 ∧ d = 5 ∧ d = 4 ∧ d = 3 ∧ e = 2) := by omega
    have hR : ¬ (d - d = 1 ∧ d - d = 1 ∧ d - d = 1 ∧ d - e = 1) := by omega
    iterate 3 right
    left
    refine ⟨by omega, ?_, ?_⟩ <;> simp [n1, p1, hW, hR]
  · subst hab
    subst hbc
    subst hde
    have n1 : c ≠ e := by omega
    have p1 : e ≠ c := by omega
    have hW : ¬ (c = 14 ∧ c = 5 ∧ c = 4 ∧ e = 3 ∧ e = 2) := by omega
    have hR : ¬ (c - c = 1 ∧ c - c = 1 ∧ c - e = 1 ∧ e - e = 1) := by omega
    iterate 5 right
    left
    refine ⟨by omega, ?_, ?_⟩ <;> simp [n1, p1, hW, hR]
  · subst hab
    subst hbc
    have n1 : c ≠ d := by omega
    have p1 : d ≠ c := by omega
    have n2 : c ≠ e := by omega
    have p2 : e ≠ c := by omega
    have n3 : d ≠ e := by omega
    have p3 : e ≠ d := by omega
    have hW : ¬ (c = 14 ∧ c = 5 ∧ c = 4 ∧ d = 3 ∧ e = 2) := by omega
    have hR : ¬ (c - c = 1 ∧ c - c = 1 ∧ c - d = 1 ∧ d - e = 1) := by omega
    by_cases hF : t1 = t0 ∧ t2 = t0 ∧ t3 = t0 ∧ t4 = t0
    · have hf := hf1 hF
      iterate 8 right
      left
      refine ⟨by omega, ?_, ?_⟩ <;> simp [hF, n1, p1, n2, p2, n3, p3, hW, hR]
    · have hf := hf0 hF
      iterate 11 right
      left
      refine ⟨by omega, ?_, ?_⟩ <;> simp [hF, n1, p1, n2, p2, n3, p3, hW, hR]
  · subst hab
    subst hcd
    subst hde
    have n1 : b ≠ e := by omega
    have p1 : e ≠ b := by omega
    have hW : ¬ (b = 14 ∧ b = 5 ∧ e = 4 ∧ e = 3 ∧ e = 2) := by omega
    have hR : ¬ (b - b = 1 ∧ b - e = 1 ∧ e - e = 1 ∧ e - e = 1) := by omega
    iterate 6 right
    left
    refine ⟨by omega, ?_, ?_⟩ <;> simp [n1, p1, hW, hR]
  · subst hab
    subst hcd
    have n1 : b ≠ d := by omega
    have p1 : d ≠ b := by omega
    have n2 : b ≠ e := by omega
    have p2 : e ≠ b := by omega
    have n3 : d ≠ e := by omega
    have p3 : e ≠ d := by omega
    have hW : ¬ (b = 14 ∧ b = 5 ∧ d = 4 ∧ d = 3 ∧ e = 2) := by omega
    have hR : ¬ (b - b = 1 ∧ b - d = 1 ∧ d - d = 1 ∧ d - e = 1) := by omega
    by_cases hF : t1 = t0 ∧ t2 = t0 ∧ t3 = t0 ∧ t4 = t0
    · have hf := hf1 hF
      iterate 8 right
      left
      refine ⟨by omega, ?_, ?_⟩ <;> simp [hF, n1, p1, n2, p2, n3, p3, hW, hR]
    · have hf := hf0 hF
      iterate 14 right
      left
      refine ⟨by omega, ?_, ?_⟩ <;> simp [hF, n1, p1, n2, p2, n3, p3, hW, hR]
  · subst hab
    subst hde
    have n1 : b ≠ c := by omega
    have p1 : c ≠ b := by omega
    have n2 : b ≠ e := by omega
    have p2 : e ≠ b := by omega
    have n3 : c ≠ e := by omega
    have p3 : e ≠ c := by omega
    have hW : ¬ (b = 14 ∧ b = 5 ∧ c = 4 ∧ e = 3 ∧ e = 2) := by omega
    have hR : ¬ (b - b = 1 ∧ b - c = 1 ∧ c - e = 1 ∧ e - e = 1) := by omega
    by_cases hF : t1 = t0 ∧ t2 = t0 ∧ t3 = t0 ∧ t4 = t0
    · have hf := hf1 hF
      iterate 8 right
      left
      refine ⟨by omega, ?_, ?_⟩ <;> simp [hF, n1, p1, n2, p2, n3, p3, hW, hR]
    · have hf := hf0 hF
      iterate 15 right
      left
      refine ⟨by omega, ?_, ?_⟩ <;> simp [hF, n1, p1, n2, p2, n3, p3, hW, hR]
  · subst hab
    have n1 : b ≠ c := by omega
    have p1 : c ≠ b := by omega
    have n2 : b ≠ d := by omega
    have p2 : d ≠ b := by omega
    have n3 : b ≠ e := by omega
    have p3 : e ≠ b := by omega
    have n4 : c ≠ d := by omega
    have p4 : d ≠ c := by omega
    have n5 : c ≠ e := by omega
    have p5 : e ≠ c := by omega
    have n6 : d ≠ e := by omega
    have p6 : e ≠ d := by omega
    have hW : ¬ (b = 14 ∧ b = 5 ∧ c = 4 ∧ d = 3 ∧ e = 2) := by omega
    have hR : ¬ (b - b = 1 ∧ b - c = 1 ∧ c - d = 1 ∧ d - e = 1) := by omega
    by_cases hF : t1 = t0 ∧ t2 = t0 ∧ t3 = t0 ∧ t4 = t0
    · have hf := hf1 hF
      iterate 8 right
      left
      refine ⟨by omega, ?_, ?_⟩ <;> simp [hF, n1, p1, n2, p2, n3, p3, n4, p4, n5, p5, n6, p6, hW, hR]
    · have hf := hf0 hF
      iterate 17 right
      left
      refine ⟨by omega, ?_, ?_⟩ <;> simp [hF, n1, p1, n2, p2, n3, p3, n4, p4, n5, p5, n6, p6, hW, hR]
  · subst hbc
    subst hcd
    subst hde
    have n1 : a ≠ e := by omega
    have p1 : e ≠ a := by omega
    have hW : ¬ (a = 14 ∧ e = 5 ∧ e = 4 ∧ e = 3 ∧ e = 2) := by omega
    have hR : ¬ (a - e = 1 ∧ e - e = 1 ∧ e - e = 1 ∧ e - e = 1) := by omega
    iterate 4 right
    left
    refine ⟨by omega, ?_, ?_⟩ <;> simp [n1, p1, hW, hR]
  · subst hbc
    subst hcd
    have n1 : a ≠ d := by omega
    have p1 : d ≠ a := by omega
    have n2 : a ≠ e := by omega
    have p2 : e ≠ a := by omega
    have n3 : d ≠ e := by omega
    have p3 : e ≠ d := by omega
    have hW : ¬ (a = 14 ∧ d = 5 ∧ d = 4 ∧ d = 3 ∧ e = 2) := by omega
    have hR : ¬ (a - d = 1 ∧ d - d = 1 ∧ d - d = 1 ∧ d - e = 1) := by omega
    by_cases hF : t1 = t0 ∧ t2 = t0 ∧ t3 = t0 ∧ t4 = t0
    · have hf := hf1 hF
      iterate 8 right
      left
      refine ⟨by omega, ?_, ?_⟩ <;> simp [hF, n1, p1, n2, p2, n3, p3, hW, hR]
    · have hf := hf0 hF
      iterate 12 right
      left
      refine ⟨by omega, ?_, ?_⟩ <;> simp [hF, n1, p1, n2, p2, n3, p3, hW, hR]
  · subst hbc
    subst hde
    have n1 : a ≠ c := by omega
    have p1 : c ≠ a := by omega
    have n2 : a ≠ e := by omega
    have p2 : e ≠ a := by omega
    have n3 : c ≠ e := by omega
    have p3 : e ≠ c := by omega
    have hW : ¬ (a = 14 ∧ c = 5 ∧ c = 4 ∧ e = 3 ∧ e = 2) := by omega
    have hR : ¬ (a - c = 1 ∧ c - c = 1 ∧ c - e = 1 ∧ e - e = 1) := by omega
    by_cases hF : t1 = t0 ∧ t2 = t0 ∧ t3 = t0 ∧ t4 = t0
    · have hf := hf1 hF
      iterate 8 right
      left
      refine ⟨by omega, ?_, ?_⟩ <;> simp [hF, n1, p1, n2, p2, n3, p3, hW, hR]
    · have hf := hf0 hF
      iterate 16 right
      left
      refine ⟨by omega, ?_, ?_⟩ <;> simp [hF, n1, p1, n2, p2, n3, p3, hW, hR]
  · subst hbc
    have n1 : a ≠ c := by omega
    have p1 : c ≠ a := by omega
    have n2 : a ≠ d := by omega
    have p2 : d ≠ a := by omega
    have n3 : a ≠ e := by omega
    have p3 : e ≠ a := by omega
    have n4 : c ≠ d := by omega
    have p4 : d ≠ c := by omega
    have n5 : c ≠ e := by omega
    have p5 : e ≠ c := by omega
    have n6 : d ≠ e := by omega
    have p6 : e ≠ d := by omega
    have hW : ¬ (a = 14 ∧ c = 5 ∧ c = 4 ∧ d = 3 ∧ e = 2) := by omega
    have hR : ¬ (a - c = 1 ∧ c - c = 1 ∧ c - d = 1 ∧ d - e = 1) := by omega
    by_cases hF : t1 = t0 ∧ t2 = t0 ∧ t3 = t0 ∧ t4 = t0
    · have hf := hf1 hF
      iterate 8 right
      left
      refine ⟨by omega, ?_, ?_⟩ <;> simp [hF, n1, p1, n2, p2, n3, p3, n4, p4, n5, p5, n6, p6, hW, hR]
    · have hf := hf0 hF
      iterate 18 right
      left
      refine ⟨by omega, ?_, ?_⟩ <;> simp [hF, n1, p1, n2, p2, n3, p3, n4, p4, n5, p5, n6, p6, hW, hR]
  · subst hcd
    subst hde
    have n1 : a ≠ b := by omega
    have p1 : b ≠ a := by omega
    have n2 : a ≠ e := by omega
    have p2 : e ≠ a := by omega
    have n3 : b ≠ e := by omega
    have p3 : e ≠ b := by omega
    have hW : ¬ (a = 14 ∧ b = 5 ∧ e = 4 ∧ e = 3 ∧ e = 2) := by omega
    have hR : ¬ (a - b = 1 ∧ b - e = 1 ∧ e - e = 1 ∧ e - e = 1) := by omega
    by_cases hF : t1 = t0 ∧ t2 = t0 ∧ t3 = t0 ∧ t4 = t0
    · have hf := hf1 hF
      iterate 8 right
      left
      refine ⟨by omega, ?_, ?_⟩ <;> simp [hF, n1, p1, n2, p2, n3, p3, hW, hR]
    · have hf := hf0 hF
      iterate 13 right
      left
      refine ⟨by omega, ?_, ?_⟩ <;> simp [hF, n1, p1, n2, p2, n3, p3, hW, hR]
  · subst hcd
    have n1 : a ≠ b := by omega
    have p1 : b ≠ a := by omega
    have n2 : a ≠ d := by omega
    have p2 : d ≠ a := by omega
    have n3 : a ≠ e := by omega
    have p3 : e ≠ a := by omega
    have n4 : b ≠ d := by omega
    have p4 : d ≠ b := by omega
    have n5 : b ≠ e := by omega
    have p5 : e ≠ b := by omega
    have n6 : d ≠ e := by omega
    have p6 : e ≠ d := by omega
    have hW : ¬ (a = 14 ∧ b = 5 ∧ d = 4 ∧ d = 3 ∧ e = 2) := by omega
    have hR : ¬ (a - b = 1 ∧ b - d = 1 ∧ d - d = 1 ∧ d - e = 1) := by omega
    by_cases hF : t1 = t0 ∧ t2 = t0 ∧ t3 = t0 ∧ t4 = t0
    · have hf := hf1 hF
      iterate 8 right
      left
      refine ⟨by omega, ?_, ?_⟩ <;> simp [hF, n1, p1, n2, p2, n3, p3, n4, p4, n5, p5, n6, p6, hW, hR]
    · have hf := hf0 hF
      iterate 19 right
      left
      refine ⟨by omega, ?_, ?_⟩ <;> simp [hF, n1, p1, n2, p2, n3, p3, n4, p4, n5, p5, n6, p6, hW, hR]
  · subst hde
    have n1 : a ≠ b := by omega
    have p1 : b ≠ a := by omega
    have n2 : a ≠ c := by omega
    have p2 : c ≠ a := by omega
    have n3 : a ≠ e := by omega
    have p3 : e ≠ a := by omega
    have n4 : b ≠ c := by omega
    have p4 : c ≠ b := by omega
    have n5 : b ≠ e := by omega
    have p5 : e ≠ b := by omega
    have n6 : c ≠ e := by omega
    have p6 : e ≠ c := by omega
    have hW : ¬ (a = 14 ∧ b = 5 ∧ c = 4 ∧ e = 3 ∧ e = 2) := by omega
    have hR : ¬ (a - b = 1 ∧ b - c = 1 ∧ c - e = 1 ∧ e - e = 1) := by omega
    by_cases hF : t1 = t0 ∧ t2 = t0 ∧ t3 = t0 ∧ t4 = t0
    · have hf := hf1 hF
      iterate 8 right
      left
      refine ⟨by omega, ?_, ?_⟩ <;> simp [hF, n1, p1, n2, p2, n3, p3, n4, p4, n5, p5, n6, p6, hW, hR]
    · have hf := hf0 hF
      iterate 20 right
      left
      refine ⟨by omega, ?_, ?_⟩ <;> simp [hF, n1, p1, n2, p2, n3, p3, n4, p4, n5, p5, n6, p6, hW, hR]
  · have n1 : a ≠ b := by omega
    have p1 : b ≠ a := by omega
    have n2 : a ≠ c := by omega
    have p2 : c ≠ a := by omega
    have n3 : a ≠ d := by omega
    have p3 : d ≠ a := by omega
    have n4 : a ≠ e := by omega
    have p4 : e ≠ a := by omega
    have n5 : b ≠ c := by omega
    have p5 : c ≠ b := by omega
    have n6 : b ≠ d := by omega
    have p6 : d ≠ b := by omega
    have n7 : b ≠ e := by omega
    have p7 : e ≠ b := by omega
    have n8 : c ≠ d := by omega
    have p8 : d ≠ c := by omega
    have n9 : c ≠ e := by omega
    have p9 : e ≠ c := by omega
    have n10 : d ≠ e := by omega
    have p10 : e ≠ d := by omega
    by_cases hF : t1 = t0 ∧ t2 = t0 ∧ t3 = t0 ∧ t4 = t0
    · by_cases hW : a = 14 ∧ b = 5 ∧ c = 4 ∧ d = 3 ∧ e = 2
      · have hf := hf1 hF
        iterate 1 right
        left
        refine ⟨by omega, ?_, ?_⟩ <;> simp [hF, hW, n1, p1, n2, p2, n3, p3, n4, p4, n5, p5, n6, p6, n7, p7, n8, p8, n9, p9, n10, p10]
      · by_cases hR : a - b = 1 ∧ b - c = 1 ∧ c - d = 1 ∧ d - e = 1
        · by_cases hA : a = 14
          · have hf := hf1 hF
            have hb : b = 13 := by omega
            have hc : c = 12 := by omega
            have hd : d = 11 := by omega
            have he : e = 10 := by omega
            subst hA hb hc hd he
            left
            refine ⟨by omega, ?_, ?_⟩ <;> simp [hF]
          · have hf := hf1 hF
            iterate 2 right
            left
            refine ⟨by omega, ?_, ?_⟩ <;> simp [hF, hW, hR, hA, n1, p1, n2, p2, n3, p3, n4, p4, n5, p5, n6, p6, n7, p7, n8, p8, n9, p9, n10, p10]
        · have hf := hf1 hF
          iterate 7 right
          left
          refine ⟨by omega, ?_, ?_⟩ <;> simp [hF, hW, hR, n1, p1, n2, p2, n3, p3, n4, p4, n5, p5, n6, p6, n7, p7, n8, p8, n9, p9, n10, p10]
    · by_cases hW : a = 14 ∧ b = 5 ∧ c = 4 ∧ d = 3 ∧ e = 2
      · have hf := hf0 hF
        iterate 9 right
        left
        refine ⟨by omega, ?_, ?_⟩ <;> simp [hF, hW, n1, p1, n2, p2, n3, p3, n4, p4, n5, p5, n6, p6, n7, p7, n8, p8, n9, p9, n10, p10]
      · by_cases hR : a - b = 1 ∧ b - c = 1 ∧ c - d = 1 ∧ d - e = 1
        · have hf := hf0 hF
          iterate 10 right
          left
          refine ⟨by omega, ?_, ?_⟩ <;> simp [hF, hW, hR, n1, p1, n2, p2, n3, p3, n4, p4, n5, p5, n6, p6, n7, p7, n8, p8, n9, p9, n10, p10]
        · have hf := hf0 hF
          iterate 21 right
          left
          refine ⟨by omega, ?_, ?_⟩ <;> simp [hF, hW, hR, n1, p1, n2, p2, n3, p3, n4, p4, n5, p5, n6, p6, n7, p7, n8, p8, n9, p9, n10, p10]

/-! ## From statements on the cards to statements on the sorted ranks -/

theorem allOneSuit_iff (cards : List Card) (t0 t1 t2 t3 t4 a b c d e : Int)
    (hp : [(⟨t0, a⟩ : Card), ⟨t1, b⟩, ⟨t2, c⟩, ⟨t3, d⟩, ⟨t4, e⟩].Perm cards) :
    AllOneSuit cards ↔ t1 = t0 ∧ t2 = t0 ∧ t3 = t0 ∧ t4 = t0 := by
  unfold AllOneSuit
  simp only [← hp.mem_iff, List.mem_cons, List.mem_singleton, List.not_mem_nil, or_false,
    forall_eq_or_imp, forall_eq]
  constructor
  · intro h
    exact ⟨h.2.1.1, h.2.2.1.1, h.2.2.2.1.1, h.2.2.2.2.1⟩
  · rintro ⟨h1, h2, h3, h4⟩
    subst h1 h2 h3 h4
    simp

theorem rankSet_eq_iff (cards : List Card) (t0 t1 t2 t3 t4 a b c d e : Int)
    (hp : [(⟨t0, a⟩ : Card), ⟨t1, b⟩, ⟨t2, c⟩, ⟨t3, d⟩, ⟨t4, e⟩].Perm cards)
    (hs : b ≤ a ∧ c ≤ b ∧ d ≤ c ∧ e ≤ d) (x0 x1 x2 x3 x4 : Int)
    (hx : x0 < x1 ∧ x1 < x2 ∧ x2 < x3 ∧ x3 < x4) :
    rankSet cards = {x0, x1, x2, x3, x4}
      ↔ a = x4 ∧ b = x3 ∧ c = x2 ∧ d = x1 ∧ e = x0 := by
  have hset : rankSet cards = [a, b, c, d, e].toFinset := by
    unfold rankSet
    exact (List.toFinset_eq_of_perm _ _ (hp.map Card.Rank)).symm
  have hx' : ({x0, x1, x2, x3, x4} : Finset Int) = [x4, x3, x2, x1, x0].toFinset := by
    ext y
    simp only [Finset.mem_insert, Finset.mem_singleton, List.mem_toFinset, List.mem_cons,
      List.not_mem_nil, or_false]
    omega
  rw [hset, hx']
  constructor
  · intro h
    have hnx : [x4, x3, x2, x1, x0].Nodup := by
      simp only [List.nodup_cons, List.mem_cons, List.mem_singleton, List.not_mem_nil,
        List.nodup_nil, not_or, not_false_eq_true, and_true]
      omega
    have hna : [a, b, c, d, e].Nodup := by
      rw [← Multiset.coe_nodup, ← Multiset.toFinset_card_eq_card_iff_nodup]
      rw [show (([a, b, c, d, e] : List Int) : Multiset Int).toFinset = [a, b, c, d, e].toFinset
        from rfl, h, List.toFinset_card_of_nodup hnx]
      rfl
    have hperm := List.perm_of_nodup_nodup_toFinset_eq hna hnx h
    have heq := sorted_desc_unique _ _ hperm
      (by simp only [List.pairwise_cons, List.mem_cons, List.mem_singleton, List.not_mem_nil,
            forall_eq_or_imp, forall_eq, List.Pairwise.nil, IsEmpty.forall_iff, implies_true,
            and_true]
          omega)
      (by simp only [List.pairwise_cons, List.mem_cons, List.mem_singleton, List.not_mem_nil,
            forall_eq_or_imp, forall_eq, List.Pairwise.nil, IsEmpty.forall_iff, implies_true,
            and_true]
          omega)
    simpa using heq
  · rintro ⟨rfl, rfl, rfl, rfl, rfl⟩
    rfl

theorem straightRanks_iff (cards : List Card) (t0 t1 t2 t3 t4 a b c d e : Int)
    (hp : [(⟨t0, a⟩ : Card), ⟨t1, b⟩, ⟨t2, c⟩, ⟨t3, d⟩, ⟨t4, e⟩].Perm cards)
    (hs : b ≤ a ∧ c ≤ b ∧ d ≤ c ∧ e ≤ d) :
    StraightRanks cards
      ↔ (a - b = 1 ∧ b - c = 1 ∧ c - d = 1 ∧ d - e = 1)
        ∨ (a = 14 ∧ b = 5 ∧ c = 4 ∧ d = 3 ∧ e = 2) := by
  unfold StraightRanks
  have hw : ({Ace, Two, Three, Four, Five} : Finset Rank) = {2, 3, 4, 5, 14} := by decide
  rw [hw, rankSet_eq_iff cards t0 t1 t2 t3 t4 a b c d e hp hs 2 3 4 5 14 (by omega)]
  constructor
  · rintro (⟨r, hr⟩ | h)
    · rw [rankSet_eq_iff cards t0 t1 t2 t3 t4 a b c d e hp hs r (r + 1) (r + 2) (r + 3)
        (r + 4) (by omega)] at hr
      left; omega
    · right; omega
  · rintro (h | h)
    · left
      refine ⟨e, ?_⟩
      rw [rankSet_eq_iff cards t0 t1 t2 t3 t4 a b c d e hp hs e (e + 1) (e + 2) (e + 3)
        (e + 4) (by omega)]
      omega
    · right; omega

theorem nodup_five (cards : List Card) (t0 t1 t2 t3 t4 a b c d e : Int)
    (hp : [(⟨t0, a⟩ : Card), ⟨t1, b⟩, ⟨t2, c⟩, ⟨t3, d⟩, ⟨t4, e⟩].Perm cards)
    (hnd : cards.Nodup) :
    ((t0 = t1 → a ≠ b) ∧ (t1 = t2 → b ≠ c) ∧ (t2 = t3 → c ≠ d) ∧ (t3 = t4 → d ≠ e))
    ∧ ((t0 = t2 → a ≠ c) ∧ (t0 = t3 → a ≠ d) ∧ (t0 = t4 → a ≠ e) ∧ (t1 = t3 → b ≠ d)
      ∧ (t1 = t4 → b ≠ e) ∧ (t2 = t4 → c ≠ e)) := by
  have h := hp.nodup_iff.2 hnd
  simp only [List.nodup_cons, List.mem_cons, List.mem_singleton, List.not_mem_nil,
    List.nodup_nil, not_or, Card.mk.injEq, not_and, or_false, not_false_eq_true,
    and_true] at h
  obtain ⟨⟨h01, h02, h03, h04⟩, ⟨h12, h13, h14⟩, ⟨h23, h24⟩, h34⟩ := h
  exact ⟨⟨h01, h12, h23, h34⟩, h02, h03, h04, h13, h14, h24⟩

theorem flush_chain (cards : List Card) (t0 t1 t2 t3 t4 a b c d e f : Int)
    (hp : [(⟨t0, a⟩ : Card), ⟨t1, b⟩, ⟨t2, c⟩, ⟨t3, d⟩, ⟨t4, e⟩].Perm cards)
    (hs : b ≤ a ∧ c ≤ b ∧ d ≤ c ∧ e ≤ d) (hnd : cards.Nodup)
    (hf : f = 1 ↔ t1 = t0 ∧ t2 = t0 ∧ t3 = t0 ∧ t4 = t0) :
    f = 1 → b < a ∧ c < b ∧ d < c ∧ e < d := by
  intro h1
  obtain ⟨e1, e2, e3, e4⟩ := hf.1 h1
  obtain ⟨⟨h01, h12, h23, h34⟩, -⟩ := nodup_five cards t0 t1 t2 t3 t4 a b c d e hp hnd
  have n1 := h01 (by omega)
  have n2 := h12 (by omega)
  have n3 := h23 (by omega)
  have n4 := h34 (by omega)
  omega

theorem valid_five (cards : List Card) (t0 t1 t2 t3 t4 a b c d e : Int)
    (hp : [(⟨t0, a⟩ : Card), ⟨t1, b⟩, ⟨t2, c⟩, ⟨t3, d⟩, ⟨t4, e⟩].Perm cards)
    (hv : ∀ card ∈ cards, card.Valid) :
    (2 ≤ e ∧ a ≤ 14)
    ∧ (0 ≤ t0 ∧ t0 ≤ 3) ∧ (0 ≤ t1 ∧ t1 ≤ 3) ∧ (0 ≤ t2 ∧ t2 ≤ 3) ∧ (0 ≤ t3 ∧ t3 ≤ 3)
      ∧ (0 ≤ t4 ∧ t4 ≤ 3) := by
  have h0 := hv _ (hp.mem_iff.1 (by simp : (⟨t0, a⟩ : Card) ∈ _))
  have h1 := hv _ (hp.mem_iff.1 (by simp : (⟨t1, b⟩ : Card) ∈ _))
  have h2 := hv _ (hp.mem_iff.1 (by simp : (⟨t2, c⟩ : Card) ∈ _))
  have h3 := hv _ (hp.mem_iff.1 (by simp : (⟨t3, d⟩ : Card) ∈ _))
  have h4 := hv _ (hp.mem_iff.1 (by simp : (⟨t4, e⟩ : Card) ∈ _))
  simp only [Card.Valid, Hearts, Diamonds, Two, Ace, Suit, Rank] at h0 h1 h2 h3 h4
  omega

theorem not_five_of_a_kind (cards : List Card) (t0 t1 t2 t3 t4 a b c d e : Int)
    (hp : [(⟨t0, a⟩ : Card), ⟨t1, b⟩, ⟨t2, c⟩, ⟨t3, d⟩, ⟨t4, e⟩].Perm cards)
    (hs : b ≤ a ∧ c ≤ b ∧ d ≤ c ∧ e ≤ d) (hnd : cards.Nodup)
    (hv : ∀ card ∈ cards, card.Valid) : e < a := by
  by_contra hcon
  have hae : a = e := by omega
  obtain ⟨⟨h01, h12, h23, h34⟩, h02, h03, h04, h13, h14, h24⟩ :=
    nodup_five cards t0 t1 t2 t3 t4 a b c d e hp hnd
  obtain ⟨-, v0, v1, v2, v3, v4⟩ := valid_five cards t0 t1 t2 t3 t4 a b c d e hp hv
  have eb : b = a := by omega
  have ec : c = a := by omega
  have ed : d = a := by omega
  subst eb ec ed
  subst hae
  have n01 : t0 ≠ t1 := fun h => h01 h rfl
  have n02 : t0 ≠ t2 := fun h => h02 h rfl
  have n03 : t0 ≠ t3 := fun h => h03 h rfl
  have n04 : t0 ≠ t4 := fun h => h04 h rfl
  have n12 : t1 ≠ t2 := fun h => h12 h rfl
  have n13 : t1 ≠ t3 := fun h => h13 h rfl
  have n14 : t1 ≠ t4 := fun h => h14 h rfl
  have n23 : t2 ≠ t3 := fun h => h23 h rfl
  have n24 : t2 ≠ t4 := fun h => h24 h rfl
  have n34 : t3 ≠ t4 := fun h => h34 h rfl
  clear h01 h02 h03 h04 h12 h13 h14 h23 h24 h34 hp hs hnd hv hcon
  omega

/-! ## Reading the table of outcomes -/

theorem table_rank (f a b c d e r : Int) (v : List Int) (hs : b ≤ a ∧ c ≤ b ∧ d ≤ c ∧ e ≤ d)
    (h : OutcomeTable f a b c d e r v) :
    (r = 9 ↔ f = 1 ∧ (a - b = 1 ∧ b - c = 1 ∧ c - d = 1 ∧ d - e = 1) ∧ a = 14)
    ∧ (r = 8 ↔ f = 1 ∧ ((a = 14 ∧ b = 5 ∧ c = 4 ∧ d = 3 ∧ e = 2)
        ∨ ((a - b = 1 ∧ b - c = 1 ∧ c - d = 1 ∧ d - e = 1) ∧ a ≠ 14)))
    ∧ (r = 7 ↔ (a = d ∧ e < d) ∨ (b < a ∧ b = e))
    ∧ (r = 6 ↔ (a = c ∧ d < c ∧ d = e) ∨ (a = b ∧ c < b ∧ c = e))
    ∧ (r = 5 ↔ f = 1 ∧ ¬ (a = 14 ∧ b = 5 ∧ c = 4 ∧ d = 3 ∧ e = 2)
        ∧ ¬ (a - b = 1 ∧ b - c = 1 ∧ c - d = 1 ∧ d - e = 1)
        ∧ ¬ ((a = d ∧ e < d) ∨ (b < a ∧ b = e))
        ∧ ¬ ((a = c ∧ d < c ∧ d = e) ∨ (a = b ∧ c < b ∧ c = e)))
    ∧ (r = 4 ↔ f = 0 ∧ ((a = 14 ∧ b = 5 ∧ c = 4 ∧ d = 3 ∧ e = 2)
        ∨ (a - b = 1 ∧ b - c = 1 ∧ c - d = 1 ∧ d - e = 1)))
    ∧ (r = 3 ↔ f = 0 ∧ ((a = c ∧ d < c ∧ e < d) ∨ (b < a ∧ b = d ∧ e < d)
        ∨ (b < a ∧ c < b ∧ c = e)))
    ∧ (r = 2 ↔ f = 0 ∧ ((a = b ∧ c < b ∧ c = d ∧ e < d) ∨ (a = b ∧ c < b ∧ d < c ∧ d = e)
        ∨ (b < a ∧ b = c ∧ d < c ∧ d = e)))
    ∧ (r = 1 ↔ f = 0 ∧ ((a = b ∧ c < b ∧ d < c ∧ e < d) ∨ (b < a ∧ b = c ∧ d < c ∧ e < d)
        ∨ (b < a ∧ c < b ∧ c = d ∧ e < d) ∨ (b < a ∧ c < b ∧ d < c ∧ d = e)))
    ∧ (r = 0 ↔ f = 0 ∧ ¬ (a = 14 ∧ b = 5 ∧ c = 4 ∧ d = 3 ∧ e = 2)
        ∧ ¬ (a - b = 1 ∧ b - c = 1 ∧ c - d = 1 ∧ d - e = 1)
        ∧ ((b < a ∧ c < b ∧ d < c ∧ e < d) ∨ a = e)) := by
  unfold OutcomeTable at h
  rcases h with ⟨hc, hR, hV⟩
    | ⟨hc, hR, hV⟩
    | ⟨hc, hR, hV⟩
    | ⟨hc, hR, hV⟩
    | ⟨hc, hR, hV⟩
    | ⟨hc, hR, hV⟩
    | ⟨hc, hR, hV⟩
    | ⟨hc, hR, hV⟩
    | ⟨hc, hR, hV⟩
    | ⟨hc, hR, hV⟩
    | ⟨hc, hR, hV⟩
    | ⟨hc, hR, hV⟩
    | ⟨hc, hR, hV⟩
    | ⟨hc, hR, hV⟩
    | ⟨hc, hR, hV⟩
    | ⟨hc, hR, hV⟩
    | ⟨hc, hR, hV⟩
    | ⟨hc, hR, hV⟩
    | ⟨hc, hR, hV⟩
    | ⟨hc, hR, hV⟩
    | ⟨hc, hR, hV⟩
    | ⟨hc, hR, hV⟩
    | ⟨hc, hR, hV⟩
  all_goals
    refine ⟨?_, ?_, ?_, ?_, ?_, ?_, ?_, ?_, ?_, ?_⟩ <;> omega

theorem table_values (f a b c d e r : Int) (v : List Int)
    (hs : b ≤ a ∧ c ≤ b ∧ d ≤ c ∧ e ≤ d) (h : OutcomeTable f a b c d e r v) :
    (r = 9 → (True) → v = [14])
    ∧ (r = 8 → (a = 14 ∧ b = 5 ∧ c = 4 ∧ d = 3 ∧ e = 2) → v = [5])
    ∧ (r = 8 → (a - b = 1 ∧ b - c = 1 ∧ c - d = 1 ∧ d - e = 1) → v = [a])
    ∧ (r = 7 → (a = d ∧ e < d) → v = [a, e])
    ∧ (r = 7 → (b < a ∧ b = e) → v = [b, a])
    ∧ (r = 6 → (a = c ∧ d < c ∧ d = e) → v = [a, d])
    ∧ (r = 6 → (a = b ∧ c < b ∧ c = e) → v = [c, a])
    ∧ (r = 5 → (True) → v = [a, b, c, d, e])
    ∧ (r = 4 → (a = 14 ∧ b = 5 ∧ c = 4 ∧ d = 3 ∧ e = 2) → v = [5])
    ∧ (r = 4 → (a - b = 1 ∧ b - c = 1 ∧ c - d = 1 ∧ d - e = 1) → v = [a])
    ∧ (r = 3 → (a = c ∧ d < c ∧ e < d) → v = [a, d, e])
    ∧ (r = 3 → (b < a ∧ b = d ∧ e < d) → v = [b, a, e])
    ∧ (r = 3 → (b < a ∧ c < b ∧ c = e) → v = [c, a, b])
    ∧ (r = 2 → (a = b ∧ c < b ∧ c = d ∧ e < d) → v = [a, c, e])
    ∧ (r = 2 → (a = b ∧ c < b ∧ d < c ∧ d = e) → v = [a, d, c])
    ∧ (r = 2 → (b < a ∧ b = c ∧ d < c ∧ d = e) → v = [b, d, a])
    ∧ (r = 1 → (a = b ∧ c < b ∧ d < c ∧ e < d) → v = [a, c, d, e])
    ∧ (r = 1 → (b < a ∧ b = c ∧ d < c ∧ e < d) → v = [b, a, d, e])
    ∧ (r = 1 → (b < a ∧ c < b ∧ c = d ∧ e < d) → v = [c, a, b, e])
    ∧ (r = 1 → (b < a ∧ c < b ∧ d < c ∧ d = e) → v = [d, a, b, c])
    ∧ (r = 0 → (True) → v = [a, b, c, d, e]) := by
  unfold OutcomeTable at h
  rcases h with ⟨hc, hR, hV⟩
    | ⟨hc, hR, hV⟩
    | ⟨hc, hR, hV⟩
    | ⟨hc, hR, hV⟩
    | ⟨hc, hR, hV⟩
    | ⟨hc, hR, hV⟩
    | ⟨hc, hR, hV⟩
    | ⟨hc, hR, hV⟩
    | ⟨hc, hR, hV⟩
    | ⟨hc, hR, hV⟩
    | ⟨hc, hR, hV⟩
    | ⟨hc, hR, hV⟩
    | ⟨hc, hR, hV⟩
    | ⟨hc, hR, hV⟩
    | ⟨hc, hR, hV⟩
    | ⟨hc, hR, hV⟩
    | ⟨hc, hR, hV⟩
    | ⟨hc, hR, hV⟩
    | ⟨hc, hR, hV⟩
    | ⟨hc, hR, hV⟩
    | ⟨hc, hR, hV⟩
    | ⟨hc, hR, hV⟩
    | ⟨hc, hR, hV⟩
  all_goals
    refine ⟨?_, ?_, ?_, ?_, ?_, ?_, ?_, ?_, ?_, ?_, ?_, ?_, ?_, ?_, ?_, ?_, ?_, ?_, ?_, ?_, ?_⟩ <;> intro h1 h2 <;>
      first | exact hV | (exfalso; clear hV; omega)

/-! ## Shapes of five sorted ranks from counts -/

theorem two_pairs_shape (a b c d e p1 p2 : Int)
    (h1 : (p1 = a ∧ a = b ∧ c < b) ∨ (p1 = b ∧ b < a ∧ b = c ∧ d < c)
      ∨ (p1 = c ∧ c < b ∧ c = d ∧ e < d) ∨ (p1 = d ∧ d < c ∧ d = e))
    (h2 : (p2 = a ∧ a = b ∧ c < b) ∨ (p2 = b ∧ b < a ∧ b = c ∧ d < c)
      ∨ (p2 = c ∧ c < b ∧ c = d ∧ e < d) ∨ (p2 = d ∧ d < c ∧ d = e))
    (hlt : p2 < p1) :
    ((a = b ∧ c < b ∧ c = d ∧ e < d) ∧ p1 = a ∧ p2 = c)
      ∨ ((a = b ∧ c < b ∧ d < c ∧ d = e) ∧ p1 = a ∧ p2 = d)
      ∨ ((b < a ∧ b = c ∧ d < c ∧ d = e) ∧ p1 = b ∧ p2 = d) := by
  rcases h1 with h1 | h1 | h1 | h1 <;> rcases h2 with h2 | h2 | h2 | h2 <;>
    first
    | (exfalso; omega)
    | (left; omega)
    | (right; left; omega)
    | (right; right; omega)

theorem trips_shape (a b c d e t k1 k2 : Int) (hs : b ≤ a ∧ c ≤ b ∧ d ≤ c ∧ e ≤ d)
    (h3 : t = c ∧ ((a = c ∧ d < c) ∨ (b < a ∧ b = d ∧ e < d) ∨ (c < b ∧ c = e)))
    (h1 : (k1 = a ∧ b < a) ∨ (k1 = b ∧ b < a ∧ c < b) ∨ (k1 = c ∧ c < b ∧ d < c)
      ∨ (k1 = d ∧ d < c ∧ e < d) ∨ (k1 = e ∧ e < d))
    (h2 : (k2 = a ∧ b < a) ∨ (k2 = b ∧ b < a ∧ c < b) ∨ (k2 = c ∧ c < b ∧ d < c)
      ∨ (k2 = d ∧ d < c ∧ e < d) ∨ (k2 = e ∧ e < d))
    (hlt : k2 < k1) :
    ((a = c ∧ d < c ∧ e < d) ∧ k1 = d ∧ k2 = e)
      ∨ ((b < a ∧ b = d ∧ e < d) ∧ k1 = a ∧ k2 = e)
      ∨ ((b < a ∧ c < b ∧ c = e) ∧ k1 = a ∧ k2 = b) := by
  obtain ⟨-, h3⟩ := h3
  rcases h3 with h3 | h3 | h3 <;> rcases h1 with h1 | h1 | h1 | h1 | h1 <;>
    rcases h2 with h2 | h2 | h2 | h2 | h2 <;>
    first
    | (exfalso; omega)
    | (left; omega)
    | (right; left; omega)
    | (right; right; omega)

theorem one_pair_shape (a b c d e p k1 k2 k3 : Int)
    (h2 : (p = a ∧ a = b ∧ c < b) ∨ (p = b ∧ b < a ∧ b = c ∧ d < c)
      ∨ (p = c ∧ c < b ∧ c = d ∧ e < d) ∨ (p = d ∧ d < c ∧ d = e))
    (h1 : (k1 = a ∧ b < a) ∨ (k1 = b ∧ b < a ∧ c < b) ∨ (k1 = c ∧ c < b ∧ d < c)
      ∨ (k1 = d ∧ d < c ∧ e < d) ∨ (k1 = e ∧ e < d))
    (h1b : (k2 = a ∧ b < a) ∨ (k2 = b ∧ b < a ∧ c < b) ∨ (k2 = c ∧ c < b ∧ d < c)
      ∨ (k2 = d ∧ d < c ∧ e < d) ∨ (k2 = e ∧ e < d))
    (h1c : (k3 = a ∧ b < a) ∨ (k3 = b ∧ b < a ∧ c < b) ∨ (k3 = c ∧ c < b ∧ d < c)
      ∨ (k3 = d ∧ d < c ∧ e < d) ∨ (k3 = e ∧ e < d))
    (hlt : k2 < k1) (hlt' : k3 < k2) :
    ((a = b ∧ c < b ∧ d < c ∧ e < d) ∧ p = a ∧ k1 = c ∧ k2 = d ∧ k3 = e)
      ∨ ((b < a ∧ b = c ∧ d < c ∧ e < d) ∧ p = b ∧ k1 = a ∧ k2 = d ∧ k3 = e)
      ∨ ((b < a ∧ c < b ∧ c = d ∧ e < d) ∧ p = c ∧ k1 = a ∧ k2 = b ∧ k3 = e)
      ∨ ((b < a ∧ c < b ∧ d < c ∧ d = e) ∧ p = d ∧ k1 = a ∧ k2 = b ∧ k3 = c) := by
  rcases h2 with h2 | h2 | h2 | h2 <;> rcases h1 with h1 | h1 | h1 | h1 | h1 <;>
    rcases h1b with h1b | h1b | h1b | h1b | h1b <;>
    rcases h1c with h1c | h1c | h1c | h1c | h1c <;>
    first
    | (exfalso; omega)
    | (left; omega)
    | (right; left; omega)
    | (right; right; left; omega)
    | (right; right; right; omega)

/-! ## The kicker candidates of the shapes that have kickers -/

theorem kickerCandidates_quads_hi (t0 t1 t2 t3 t4 x y : Int) (h1 : y < x) :
    kickerCandidates [⟨t0, x⟩, ⟨t1, x⟩, ⟨t2, x⟩, ⟨t3, x⟩, ⟨t4, y⟩] [x] = [y] := by
  have n1 : x ≠ y := by omega
  have p1 : y ≠ x := by omega
  have m1 : ¬ x < y := by omega
  simp [kickerCandidates, kickerLoop, sortSlice, insertBack, n1, p1, m1, h1]

theorem kickerCandidates_quads_lo (t0 t1 t2 t3 t4 x y : Int) (h1 : y < x) :
    kickerCandidates [⟨t0, x⟩, ⟨t1, y⟩, ⟨t2, y⟩, ⟨t3, y⟩, ⟨t4, y⟩] [y] = [x] := by
  have n1 : x ≠ y := by omega
  have p1 : y ≠ x := by omega
  have m1 : ¬ x < y := by omega
  simp [kickerCandidates, kickerLoop, sortSlice, insertBack, n1, p1, m1, h1]

theorem kickerCandidates_trips_hi (t0 t1 t2 t3 t4 x y z : Int) (h1 : y < x) (h2 : z < y) :
    kickerCandidates [⟨t0, x⟩, ⟨t1, x⟩, ⟨t2, x⟩, ⟨t3, y⟩, ⟨t4, z⟩] [x] = [y, z] := by
  have n1 : x ≠ y := by omega
  have p1 : y ≠ x := by omega
  have m1 : ¬ x < y := by omega
  have n2 : x ≠ z := by omega
  have p2 : z ≠ x := by omega
  have m2 : ¬ x < z := by omega
  have n3 : y ≠ z := by omega
  have p3 : z ≠ y := by omega
  have m3 : ¬ y < z := by omega
  simp [kickerCandidates, kickerLoop, sortSlice, insertBack, n1, p1, m1, n2, p2, m2, n3, p3, m3, h1, h2]

theorem kickerCandidates_trips_mid (t0 t1 t2 t3 t4 x y z : Int) (h1 : y < x) (h2 : z < y) :
    kickerCandidates [⟨t0, x⟩, ⟨t1, y⟩, ⟨t2, y⟩, ⟨t3, y⟩, ⟨t4, z⟩] [y] = [x, z] := by
  have n1 : x ≠ y := by omega
  have p1 : y ≠ x := by omega
  have m1 : ¬ x < y := by omega
  have n2 : x ≠ z := by omega
  have p2 : z ≠ x := by omega
  have m2 : ¬ x < z := by omega
  have n3 : y ≠ z := by omega
  have p3 : z ≠ y := by omega
  have m3 : ¬ y < z := by omega
  simp [kickerCandidates, kickerLoop, sortSlice, insertBack, n1, p1, m1, n2, p2, m2, n3, p3, m3, h1, h2]

theorem kickerCandidates_trips_lo (t0 t1 t2 t3 t4 x y z : Int) (h1 : y < x) (h2 : z < y) :
    kickerCandidates [⟨t0, x⟩, ⟨t1, y⟩, ⟨t2, z⟩, ⟨t3, z⟩, ⟨t4, z⟩] [z] = [x, y] := by
  have n1 : x ≠ y := by omega
  have p1 : y ≠ x := by omega
  have m1 : ¬ x < y := by omega
  have n2 : x ≠ z := by omega
  have p2 : z ≠ x := by omega
  have m2 : ¬ x < z := by omega
  have n3 : y ≠ z := by omega
  have p3 : z ≠ y := by omega
  have m3 : ¬ y < z := by omega
  simp [kickerCandidates, kickerLoop, sortSlice, insertBack, n1, p1, m1, n2, p2, m2, n3, p3, m3, h1, h2]

theorem kickerCandidates_pairs_hi (t0 t1 t2 t3 t4 x y z : Int) (h1 : y < x) (h2 : z < y) :
    kickerCandidates [⟨t0, x⟩, ⟨t1, x⟩, ⟨t2, y⟩, ⟨t3, y⟩, ⟨t4, z⟩] [x, y] = [z] := by
  have n1 : x ≠ y := by omega
  have p1 : y ≠ x := by omega
  have m1 : ¬ x < y := by omega
  have n2 : x ≠ z := by omega
  have p2 : z ≠ x := by omega
  have m2 : ¬ x < z := by omega
  have n3 : y ≠ z := by omega
  have p3 : z ≠ y := by omega
  have m3 : ¬ y < z := by omega
  simp [kickerCandidates, kickerLoop, sortSlice, insertBack, n1, p1, m1, n2, p2, m2, n3, p3, m3, h1, h2]

theorem kickerCandidates_pairs_split (t0 t1 t2 t3 t4 x y z : Int) (h1 : y < x) (h2 : z < y) :
    kickerCandidates [⟨t0, x⟩, ⟨t1, x⟩, ⟨t2, y⟩, ⟨t3, z⟩, ⟨t4, z⟩] [x, z] = [y] := by
  have n1 : x ≠ y := by omega
  have p1 : y ≠ x := by omega
  have m1 : ¬ x < y := by omega
  have n2 : x ≠ z := by omega
  have p2 : z ≠ x := by omega
  have m2 : ¬ x < z := by omega
  have n3 : y ≠ z := by omega
  have p3 : z ≠ y := by omega
  have m3 : ¬ y < z := by omega
  simp [kickerCandidates, kickerLoop, sortSlice, insertBack, n1, p1, m1, n2, p2, m2, n3, p3, m3, h1, h2]

theorem kickerCandidates_pairs_lo (t0 t1 t2 t3 t4 x y z : Int) (h1 : y < x) (h2 : z < y) :
    kickerCandidates [⟨t0, x⟩, ⟨t1, y⟩, ⟨t2, y⟩, ⟨t3, z⟩, ⟨t4, z⟩] [y, z] = [x] := by
  have n1 : x ≠ y := by omega
  have p1 : y ≠ x := by omega
  have m1 : ¬ x < y := by omega
  have n2 : x ≠ z := by omega
  have p2 : z ≠ x := by omega
  have m2 : ¬ x < z := by omega
  have n3 : y ≠ z := by omega
  have p3 : z ≠ y := by omega
  have m3 : ¬ y < z := by omega
  simp [kickerCandidates, kickerLoop, sortSlice, insertBack, n1, p1, m1, n2, p2, m2, n3, p3, m3, h1, h2]

theorem kickerCandidates_pair_first (t0 t1 t2 t3 t4 x y z w : Int) (h1 : y < x) (h2 : z < y) (h3 : w < z) :
    kickerCandidates [⟨t0, x⟩, ⟨t1, x⟩, ⟨t2, y⟩, ⟨t3, z⟩, ⟨t4, w⟩] [x] = [y, z, w] := by
  have n1 : x ≠ y := by omega
  have p1 : y ≠ x := by omega
  have m1 : ¬ x < y := by omega
  have n2 : x ≠ z := by omega
  have p2 : z ≠ x := by omega
  have m2 : ¬ x < z := by omega
  have n3 : x ≠ w := by omega
  have p3 : w ≠ x := by omega
  have m3 : ¬ x < w := by omega
  have n4 : y ≠ z := by omega
  have p4 : z ≠ y := by omega
  have m4 : ¬ y < z := by omega
  have n5 : y ≠ w := by omega
  have p5 : w ≠ y := by omega
  have m5 : ¬ y < w := by omega
  have n6 : z ≠ w := by omega
  have p6 : w ≠ z := by omega
  have m6 : ¬ z < w := by omega
  simp [kickerCandidates, kickerLoop, sortSlice, insertBack, n1, p1, m1, n2, p2, m2, n3, p3, m3, n4, p4, m4, n5, p5, m5, n6, p6, m6, h1, h2, h3]

theorem kickerCandidates_pair_second (t0 t1 t2 t3 t4 x y z w : Int) (h1 : y < x) (h2 : z < y) (h3 : w < z) :
    kickerCandidates [⟨t0, x⟩, ⟨t1, y⟩, ⟨t2, y⟩, ⟨t3, z⟩, ⟨t4, w⟩] [y] = [x, z, w] := by
  have n1 : x ≠ y := by omega
  have p1 : y ≠ x := by omega
  have m1 : ¬ x < y := by omega
  have n2 : x ≠ z := by omega
  have p2 : z ≠ x := by omega
  have m2 : ¬ x < z := by omega
  have n3 : x ≠ w := by omega
  have p3 : w ≠ x := by omega
  have m3 : ¬ x < w := by omega
  have n4 : y ≠ z := by omega
  have p4 : z ≠ y := by omega
  have m4 : ¬ y < z := by omega
  have n5 : y ≠ w := by omega
  have p5 : w ≠ y := by omega
  have m5 : ¬ y < w := by omega
  have n6 : z ≠ w := by omega
  have p6 : w ≠ z := by omega
  have m6 : ¬ z < w := by omega
  simp [kickerCandidates, kickerLoop, sortSlice, insertBack, n1, p1, m1, n2, p2, m2, n3, p3, m3, n4, p4, m4, n5, p5, m5, n6, p6, m6, h1, h2, h3]

theorem kickerCandidates_pair_third (t0 t1 t2 t3 t4 x y z w : Int) (h1 : y < x) (h2 : z < y) (h3 : w < z) :
    kickerCandidates [⟨t0, x⟩, ⟨t1, y⟩, ⟨t2, z⟩, ⟨t3, z⟩, ⟨t4, w⟩] [z] = [x, y, w] := by
  have n1 : x ≠ y := by omega
  have p1 : y ≠ x := by omega
  have m1 : ¬ x < y := by omega
  have n2 : x ≠ z := by omega
  have p2 : z ≠ x := by omega
  have m2 : ¬ x < z := by omega
  have n3 : x ≠ w := by omega
  have p3 : w ≠ x := by omega
  have m3 : ¬ x < w := by omega
  have n4 : y ≠ z := by omega
  have p4 : z ≠ y := by omega
  have m4 : ¬ y < z := by omega
  have n5 : y ≠ w := by omega
  have p5 : w ≠ y := by omega
  have m5 : ¬ y < w := by omega
  have n6 : z ≠ w := by omega
  have p6 : w ≠ z := by omega
  have m6 : ¬ z < w := by omega
  simp [kickerCandidates, kickerLoop, sortSlice, insertBack, n1, p1, m1, n2, p2, m2, n3, p3, m3, n4, p4, m4, n5, p5, m5, n6, p6, m6, h1, h2, h3]

theorem kickerCandidates_pair_fourth (t0 t1 t2 t3 t4 x y z w : Int) (h1 : y < x) (h2 : z < y) (h3 : w < z) :
    kickerCandidates [⟨t0, x⟩, ⟨t1, y⟩, ⟨t2, z⟩, ⟨t3, w⟩, ⟨t4, w⟩] [w] = [x, y, z] := by
  have n1 : x ≠ y := by omega
  have p1 : y ≠ x := by omega
  have m1 : ¬ x < y := by omega
  have n2 : x ≠ z := by omega
  have p2 : z ≠ x := by omega
  have m2 : ¬ x < z := by omega
  have n3 : x ≠ w := by omega
  have p3 : w ≠ x := by omega
  have m3 : ¬ x < w := by omega
  have n4 : y ≠ z := by omega
  have p4 : z ≠ y := by omega
  have m4 : ¬ y < z := by omega
  have n5 : y ≠ w := by omega
  have p5 : w ≠ y := by omega
  have m5 : ¬ y < w := by omega
  have n6 : z ≠ w := by omega
  have p6 : w ≠ z := by omega
  have m6 : ¬ z < w := by omega
  simp [kickerCandidates, kickerLoop, sortSlice, insertBack, n1, p1, m1, n2, p2, m2, n3, p3, m3, n4, p4, m4, n5, p5, m5, n6, p6, m6, h1, h2, h3]

theorem kickerCandidates_five (t0 t1 t2 t3 t4 a b c d e : Int)
    (hs : b ≤ a ∧ c ≤ b ∧ d ≤ c ∧ e ≤ d) :
    (a = d ∧ e < d →
        kickerCandidates [⟨t0, a⟩, ⟨t1, b⟩, ⟨t2, c⟩, ⟨t3, d⟩, ⟨t4, e⟩] [a] = [e])
    ∧ (b < a ∧ b = e →
        kickerCandidates [⟨t0, a⟩, ⟨t1, b⟩, ⟨t2, c⟩, ⟨t3, d⟩, ⟨t4, e⟩] [b] = [a])
    ∧ (a = c ∧ d < c ∧ e < d →
        kickerCandidates [⟨t0, a⟩, ⟨t1, b⟩, ⟨t2, c⟩, ⟨t3, d⟩, ⟨t4, e⟩] [a] = [d, e])
    ∧ (b < a ∧ b = d ∧ e < d →
        kickerCandidates [⟨t0, a⟩, ⟨t1, b⟩, ⟨t2, c⟩, ⟨t3, d⟩, ⟨t4, e⟩] [b] = [a, e])
    ∧ (b < a ∧ c < b ∧ c = e →
        kickerCandidates [⟨t0, a⟩, ⟨t1, b⟩, ⟨t2, c⟩, ⟨t3, d⟩, ⟨t4, e⟩] [c] = [a, b])
    ∧ (a = b ∧ c < b ∧ c = d ∧ e < d →
        kickerCandidates [⟨t0, a⟩, ⟨t1, b⟩, ⟨t2, c⟩, ⟨t3, d⟩, ⟨t4, e⟩] [a, c] = [e])
    ∧ (a = b ∧ c < b ∧ d < c ∧ d = e →
        kickerCandidates [⟨t0, a⟩, ⟨t1, b⟩, ⟨t2, c⟩, ⟨t3, d⟩, ⟨t4, e⟩] [a, d] = [c])
    ∧ (b < a ∧ b = c ∧ d < c ∧ d = e →
        kickerCandidates [⟨t0, a⟩, ⟨t1, b⟩, ⟨t2, c⟩, ⟨t3, d⟩, ⟨t4, e⟩] [b, d] = [a])
    ∧ (a = b ∧ c < b ∧ d < c ∧ e < d →
        kickerCandidates [⟨t0, a⟩, ⟨t1, b⟩, ⟨t2, c⟩, ⟨t3, d⟩, ⟨t4, e⟩] [a] = [c, d, e])
    ∧ (b < a ∧ b = c ∧ d < c ∧ e < d →
        kickerCandidates [⟨t0, a⟩, ⟨t1, b⟩, ⟨t2, c⟩, ⟨t3, d⟩, ⟨t4, e⟩] [b] = [a, d, e])
    ∧ (b < a ∧ c < b ∧ c = d ∧ e < d →
        kickerCandidates [⟨t0, a⟩, ⟨t1, b⟩, ⟨t2, c⟩, ⟨t3, d⟩, ⟨t4, e⟩] [c] = [a, b, e])
    ∧ (b < a ∧ c < b ∧ d < c ∧ d = e →
        kickerCandidates [⟨t0, a⟩, ⟨t1, b⟩, ⟨t2, c⟩, ⟨t3, d⟩, ⟨t4, e⟩] [d] = [a, b, c]) := by
  refine ⟨?_, ?_, ?_, ?_, ?_, ?_, ?_, ?_, ?_, ?_, ?_, ?_⟩ <;> intro h
  · have e0 : b = a := by omega
    have e1 : c = b := by omega
    have e2 : d = c := by omega
    subst e2
    subst e1
    subst e0
    exact kickerCandidates_quads_hi _ _ _ _ _ _ _ (by omega)
  · have e1 : c = b := by omega
    have e2 : d = c := by omega
    have e3 : e = d := by omega
    subst e3
    subst e2
    subst e1
    exact kickerCandidates_quads_lo _ _ _ _ _ _ _ (by omega)
  · have e0 : b = a := by omega
    have e1 : c = b := by omega
    subst e1
    subst e0
    exact kickerCandidates_trips_hi _ _ _ _ _ _ _ _ (by omega) (by omega)
  · have e1 : c = b := by omega
    have e2 : d = c := by omega
    subst e2
    subst e1
    exact kickerCandidates_trips_mid _ _ _ _ _ _ _ _ (by omega) (by omega)
  · have e2 : d = c := by omega
    have e3 : e = d := by omega
    subst e3
    subst e2
    exact kickerCandidates_trips_lo _ _ _ _ _ _ _ _ (by omega) (by omega)
  · have e0 : b = a := by omega
    have e2 : d = c := by omega
    subst e2
    subst e0
    exact kickerCandidates_pairs_hi _ _ _ _ _ _ _ _ (by omega) (by omega)
  · have e0 : b = a := by omega
    have e3 : e = d := by omega
    subst e3
    subst e0
    exact kickerCandidates_pairs_split _ _ _ _ _ _ _ _ (by omega) (by omega)
  · have e1 : c = b := by omega
    have e3 : e = d := by omega
    subst e3
    subst e1
    exact kickerCandidates_pairs_lo _ _ _ _ _ _ _ _ (by omega) (by omega)
  · have e0 : b = a := by omega
    subst e0
    exact kickerCandidates_pair_first _ _ _ _ _ _ _ _ _ (by omega) (by omega) (by omega)
  · have e1 : c = b := by omega
    subst e1
    exact kickerCandidates_pair_second _ _ _ _ _ _ _ _ _ (by omega) (by omega) (by omega)
  · have e2 : d = c := by omega
    subst e2
    exact kickerCandidates_pair_third _ _ _ _ _ _ _ _ _ (by omega) (by omega) (by omega)
  · have e3 : e = d := by omega
    subst e3
    exact kickerCandidates_pair_fourth _ _ _ _ _ _ _ _ _ (by omega) (by omega) (by omega)

/-! ## generateCombinations and GetBestHand -/

theorem generateCombosLoop_mem (k : Nat) (suffix current : List Card)
    (result : List (List Card)) (hcur : current.length < k) (x : List Card) :
    x ∈ generateCombosLoop k suffix current result
      ↔ x ∈ result ∨ ∃ t, t.Sublist suffix ∧ x = current ++ t ∧ x.length = k := by
  induction suffix generalizing current result with
  | nil =>
    simp only [generateCombosLoop, List.sublist_nil]
    constructor
    · intro h; exact Or.inl h
    · rintro (h | ⟨t, rfl, rfl, hl⟩)
      · exact h
      · simp only [List.append_nil] at hl
        omega
  | cons card rest ih =>
    simp only [generateCombosLoop]
    rw [ih current _ hcur]
    have hsplit : (∃ t, t.Sublist (card :: rest) ∧ x = current ++ t ∧ x.length = k)
        ↔ (∃ t, t.Sublist rest ∧ x = current ++ t ∧ x.length = k)
          ∨ (∃ t, t.Sublist rest ∧ x = (current ++ [card]) ++ t ∧ x.length = k) := by
      constructor
      · rintro ⟨t, ht, hx, hl⟩
        rcases List.sublist_cons_iff.1 ht with h | ⟨r, rfl, hr⟩
        · exact Or.inl ⟨t, h, hx, hl⟩
        · exact Or.inr ⟨r, hr, by simpa using hx, hl⟩
      · rintro (⟨t, ht, hx, hl⟩ | ⟨t, ht, hx, hl⟩)
        · exact ⟨t, List.sublist_cons_iff.2 (Or.inl ht), hx, hl⟩
        · exact ⟨card :: t, List.cons_sublist_cons.2 ht, by simpa using hx, hl⟩
    by_cases hk : (current ++ [card]).length = k
    · have hlast : (∃ t, t.Sublist rest ∧ x = (current ++ [card]) ++ t ∧ x.length = k)
          ↔ x = current ++ [card] := by
        constructor
        · rintro ⟨t, -, hx, hl⟩
          have ht : t = [] := by
            rw [hx, List.length_append] at hl
            exact List.length_eq_zero.1 (by omega)
          rw [hx, ht, List.append_nil]
        · intro hx
          exact ⟨[], List.nil_sublist _, by rw [hx, List.append_nil], by rw [hx, hk]⟩
      rw [hsplit, hlast, if_pos hk, List.mem_append, List.mem_singleton]
      constructor
      · rintro ((h | h) | h)
        · exact Or.inl h
        · exact Or.inr (Or.inr h)
        · exact Or.inr (Or.inl h)
      · rintro (h | h | h)
        · exact Or.inl (Or.inl h)
        · exact Or.inr h
        · exact Or.inl (Or.inr h)
    · have hlt : (current ++ [card]).length < k := by
        simp only [List.length_append, List.length_singleton] at hk ⊢
        omega
      rw [hsplit, if_neg hk, ih (current ++ [card]) result hlt]
      constructor
      · rintro ((h | h) | h)
        · exact Or.inl h
        · exact Or.inr (Or.inr h)
        · exact Or.inr (Or.inl h)
      · rintro (h | h | h)
        · exact Or.inl (Or.inl h)
        · exact Or.inr h
        · exact Or.inl (Or.inr h)

theorem generateCombinations_mem (cards : List Card) (k : Nat) (hk : 0 < k) (x : List Card) :
    x ∈ generateCombinations cards k ↔ x.Sublist cards ∧ x.length = k := by
  unfold generateCombinations generateCombosHelper
  rw [if_neg (by simp only [List.length_nil]; omega)]
  rw [generateCombosLoop_mem k cards [] [] (by simpa using hk)]
  simp only [List.not_mem_nil, false_or, List.nil_append]
  constructor
  · rintro ⟨t, ht, rfl, hl⟩
    exact ⟨ht, hl⟩
  · rintro ⟨hx, hl⟩
    exact ⟨x, hx, rfl, hl⟩

theorem bestHandLoop_spec (o : RangeOrder) (rest : List (List Card)) (best : Hand) :
    (bestHandLoop o rest best = best
        ∨ ∃ combo ∈ rest, bestHandLoop o rest best = Evaluate o (NewHand combo))
    ∧ 0 ≤ (bestHandLoop o rest best).Compare best
    ∧ ∀ combo ∈ rest,
        0 ≤ (bestHandLoop o rest best).Compare (Evaluate o (NewHand combo)) := by
  induction rest generalizing best with
  | nil =>
    simp only [bestHandLoop, List.not_mem_nil, false_and, exists_false, or_false,
      IsEmpty.forall_iff, implies_true, and_true, true_and]
    rw [Compare_self]
  | cons combo rest ih =>
    simp only [bestHandLoop]
    by_cases hgt : (Evaluate o (NewHand combo)).Compare best > 0
    · rw [if_pos hgt]
      obtain ⟨h1, h2, h3⟩ := ih (Evaluate o (NewHand combo))
      have hge : 0 ≤ (Evaluate o (NewHand combo)).Compare best := le_of_lt hgt
      refine ⟨Or.inr ?_, (Compare_trans _ _ _ h2 hge).1, ?_⟩
      · rcases h1 with h1 | ⟨c', hc', h1⟩
        · exact ⟨combo, List.mem_cons_self _ _, h1⟩
        · exact ⟨c', List.mem_cons_of_mem _ hc', h1⟩
      · intro c' hc'
        rcases List.mem_cons.1 hc' with rfl | hc'
        · exact h2
        · exact h3 c' hc'
    · rw [if_neg hgt]
      obtain ⟨h1, h2, h3⟩ := ih best
      refine ⟨?_, h2, ?_⟩
      · rcases h1 with h1 | ⟨c', hc', h1⟩
        · exact Or.inl h1
        · exact Or.inr ⟨c', List.mem_cons_of_mem _ hc', h1⟩
      · intro c' hc'
        rcases List.mem_cons.1 hc' with rfl | hc'
        · have hle : 0 ≤ best.Compare (Evaluate o (NewHand c')) := by
            have := Compare_antisymm best (Evaluate o (NewHand c'))
            have hn := not_lt.1 hgt
            omega
          exact (Compare_trans _ _ _ h2 hle).1
        · exact h3 c' hc'

theorem Evaluate_Cards (o : RangeOrder) (h : Hand) :
    (Evaluate o h).Cards = sortByRank h.Cards := by
  simp only [Evaluate, apply_ite Hand.Cards, ite_self]

/-! ## The classifier: category and value vector of five cards -/

theorem count_four_of_perm (cards : List Card) (t0 t1 t2 t3 t4 a b c d e : Int)
    (hp : [(⟨t0, a⟩ : Card), ⟨t1, b⟩, ⟨t2, c⟩, ⟨t3, d⟩, ⟨t4, e⟩].Perm cards)
    (hs : b ≤ a ∧ c ≤ b ∧ d ≤ c ∧ e ≤ d) (q : Int) :
    (cards.map Card.Rank).count q = 4 ↔ q = b ∧ ((a = d ∧ e < d) ∨ (b < a ∧ b = e)) := by
  rw [count_ranks_of_perm cards t0 t1 t2 t3 t4 a b c d e hp]
  exact count_eq_four a b c d e q hs.1 hs.2.1 hs.2.2.1 hs.2.2.2

theorem count_three_of_perm (cards : List Card) (t0 t1 t2 t3 t4 a b c d e : Int)
    (hp : [(⟨t0, a⟩ : Card), ⟨t1, b⟩, ⟨t2, c⟩, ⟨t3, d⟩, ⟨t4, e⟩].Perm cards)
    (hs : b ≤ a ∧ c ≤ b ∧ d ≤ c ∧ e ≤ d) (q : Int) :
    (cards.map Card.Rank).count q = 3
      ↔ q = c ∧ ((a = c ∧ d < c) ∨ (b < a ∧ b = d ∧ e < d) ∨ (c < b ∧ c = e)) := by
  rw [count_ranks_of_perm cards t0 t1 t2 t3 t4 a b c d e hp]
  exact count_eq_three a b c d e q hs.1 hs.2.1 hs.2.2.1 hs.2.2.2

theorem count_two_of_perm (cards : List Card) (t0 t1 t2 t3 t4 a b c d e : Int)
    (hp : [(⟨t0, a⟩ : Card), ⟨t1, b⟩, ⟨t2, c⟩, ⟨t3, d⟩, ⟨t4, e⟩].Perm cards)
    (hs : b ≤ a ∧ c ≤ b ∧ d ≤ c ∧ e ≤ d) (q : Int) :
    (cards.map Card.Rank).count q = 2
      ↔ (q = a ∧ a = b ∧ c < b) ∨ (q = b ∧ b < a ∧ b = c ∧ d < c)
        ∨ (q = c ∧ c < b ∧ c = d ∧ e < d) ∨ (q = d ∧ d < c ∧ d = e) := by
  rw [count_ranks_of_perm cards t0 t1 t2 t3 t4 a b c d e hp]
  exact count_eq_two a b c d e q hs.1 hs.2.1 hs.2.2.1 hs.2.2.2

theorem count_one_of_perm (cards : List Card) (t0 t1 t2 t3 t4 a b c d e : Int)
    (hp : [(⟨t0, a⟩ : Card), ⟨t1, b⟩, ⟨t2, c⟩, ⟨t3, d⟩, ⟨t4, e⟩].Perm cards)
    (hs : b ≤ a ∧ c ≤ b ∧ d ≤ c ∧ e ≤ d) (q : Int) :
    (cards.map Card.Rank).count q = 1
      ↔ (q = a ∧ b < a) ∨ (q = b ∧ b < a ∧ c < b) ∨ (q = c ∧ c < b ∧ d < c)
        ∨ (q = d ∧ d < c ∧ e < d) ∨ (q = e ∧ e < d) := by
  rw [count_ranks_of_perm cards t0 t1 t2 t3 t4 a b c d e hp]
  exact count_eq_one a b c d e q hs.1 hs.2.1 hs.2.2.1 hs.2.2.2

/-- C4. Among five cards, `Evaluate` answers Four of a Kind exactly when some rank occurs on
four cards, with value vector that rank followed by the rank of the fifth card; it answers
Full House exactly when one rank occurs on three cards and another on two, with value vector
the triple rank followed by the pair rank. (Holds for any five cards, distinct or not.) -/
theorem Evaluate_four_of_a_kind_full_house (o : RangeOrder) (cards : List Card)
    (hlen : cards.length = 5) :
    ((Evaluate o (NewHand cards)).Rank = FourOfAKind
        ↔ ∃ q, (cards.map Card.Rank).count q = 4)
    ∧ (∀ q k, (cards.map Card.Rank).count q = 4 → k ∈ cards.map Card.Rank → k ≠ q →
        (Evaluate o (NewHand cards)).Values = [q, k])
    ∧ ((Evaluate o (NewHand cards)).Rank = FullHouse
        ↔ ∃ t p, (cards.map Card.Rank).count t = 3 ∧ (cards.map Card.Rank).count p = 2)
    ∧ (∀ t p, (cards.map Card.Rank).count t = 3 → (cards.map Card.Rank).count p = 2 →
        (Evaluate o (NewHand cards)).Values = [t, p]) := by
  obtain ⟨t0, t1, t2, t3, t4, a, b, c, d, e, f, hp, hs, -, -, -, htab⟩ :=
    Evaluate_cases o cards hlen
  obtain ⟨-, -, r7, r6, -⟩ := table_rank f a b c d e _ _ hs htab
  obtain ⟨-, -, -, v7a, v7b, v6a, v6b, -⟩ := table_values f a b c d e _ _ hs htab
  simp only [count_four_of_perm cards t0 t1 t2 t3 t4 a b c d e hp hs,
    count_three_of_perm cards t0 t1 t2 t3 t4 a b c d e hp hs,
    count_two_of_perm cards t0 t1 t2 t3 t4 a b c d e hp hs,
    mem_ranks_of_perm cards t0 t1 t2 t3 t4 a b c d e hp, exists_eq_left, FourOfAKind, Rank, ne_eq,
    FullHouse]
  clear htab hp
  refine ⟨r7, ?_, ?_, ?_⟩
  · rintro q k ⟨rfl, hq⟩ h2 h3
    rcases hq with hq | hq
    · rw [v7a (r7.2 (Or.inl hq)) hq]
      simp only [List.cons.injEq, and_true, true_and]
      omega
    · rw [v7b (r7.2 (Or.inr hq)) hq]
      simp only [List.cons.injEq, and_true, true_and]
      omega
  · rw [r6]
    constructor
    · rintro (h | h)
      · exact ⟨c, d, by omega, by omega⟩
      · exact ⟨c, a, by omega, by omega⟩
    · rintro ⟨t, p, h1, h2⟩
      omega
  · rintro t p ⟨rfl, h1⟩ h2
    have h : (a = t ∧ d < t ∧ d = e) ∨ (a = b ∧ t < b ∧ t = e) := by omega
    rcases h with h | h
    · rw [v6a (r6.2 (Or.inl h)) h]
      simp only [List.cons.injEq, and_true, true_and]
      omega
    · rw [v6b (r6.2 (Or.inr h)) h]
      simp only [List.cons.injEq, and_true, true_and]
      omega

theorem flag_of_not_flush (cards : List Card) (t0 t1 t2 t3 t4 a b c d e f : Int)
    (hp : [(⟨t0, a⟩ : Card), ⟨t1, b⟩, ⟨t2, c⟩, ⟨t3, d⟩, ⟨t4, e⟩].Perm cards)
    (hf01 : f = 1 ∨ f = 0) (hfF : f = 1 ↔ t1 = t0 ∧ t2 = t0 ∧ t3 = t0 ∧ t4 = t0) :
    (AllOneSuit cards ↔ f = 1) ∧ (¬ AllOneSuit cards ↔ f = 0) := by
  rw [allOneSuit_iff cards t0 t1 t2 t3 t4 a b c d e hp, ← hfF]
  constructor
  · exact Iff.rfl
  · constructor
    · intro h; rcases hf01 with h1 | h0
      · exact absurd h1 h
      · exact h0
    · intro h0 h1; omega

theorem wheel_set : ({Ace, Two, Three, Four, Five} : Finset Rank) = {2, 3, 4, 5, 14} := by
  decide

/-- C2. Five standard-deck cards that are not all of one suit are classified Straight exactly
when their rank set is `{r, .., r+4}` with `Two ≤ r ≤ Ten` or is the wheel
`{Ace, Two, Three, Four, Five}`; the value vector is `[r+4]`, and `[Five]` for the wheel; the
wrap-around set `{King, Ace, Two, Three, Four}` is not a straight. -/
theorem Evaluate_straight (o : RangeOrder) (cards : List Card) (hlen : cards.length = 5)
    (hv : ∀ card ∈ cards, card.Valid) (hns : ¬ AllOneSuit cards) :
    ((Evaluate o (NewHand cards)).Rank = Straight
        ↔ (∃ r : Rank, Two ≤ r ∧ r ≤ Ten ∧ rankSet cards = {r, r + 1, r + 2, r + 3, r + 4})
          ∨ rankSet cards = {Ace, Two, Three, Four, Five})
    ∧ (∀ r : Rank, rankSet cards = {r, r + 1, r + 2, r + 3, r + 4} →
        (Evaluate o (NewHand cards)).Values = [r + 4])
    ∧ (rankSet cards = {Ace, Two, Three, Four, Five} →
        (Evaluate o (NewHand cards)).Values = [Five])
    ∧ (rankSet cards = {King, Ace, Two, Three, Four} →
        (Evaluate o (NewHand cards)).Rank ≠ Straight) := by
  obtain ⟨t0, t1, t2, t3, t4, a, b, c, d, e, f, hp, hs, -, hf01, hfF, htab⟩ :=
    Evaluate_cases o cards hlen
  obtain ⟨-, -, -, -, -, r4, -⟩ := table_rank f a b c d e _ _ hs htab
  obtain ⟨-, -, -, -, -, -, -, -, v4w, v4r, -⟩ := table_values f a b c d e _ _ hs htab
  have hf0 : f = 0 := (flag_of_not_flush cards t0 t1 t2 t3 t4 a b c d e f hp hf01 hfF).2.1 hns
  obtain ⟨⟨hlo, hhi⟩, -⟩ := valid_five cards t0 t1 t2 t3 t4 a b c d e hp hv
  have hrun : ∀ r : Int, rankSet cards = {r, r + 1, r + 2, r + 3, r + 4}
      ↔ a = r + 4 ∧ b = r + 3 ∧ c = r + 2 ∧ d = r + 1 ∧ e = r := fun r =>
    rankSet_eq_iff cards t0 t1 t2 t3 t4 a b c d e hp hs r (r + 1) (r + 2) (r + 3) (r + 4)
      (by omega)
  have hwheel : rankSet cards = {Ace, Two, Three, Four, Five}
      ↔ a = 14 ∧ b = 5 ∧ c = 4 ∧ d = 3 ∧ e = 2 := by
    rw [wheel_set]
    exact rankSet_eq_iff cards t0 t1 t2 t3 t4 a b c d e hp hs 2 3 4 5 14 (by omega)
  have hwrap : rankSet cards = {King, Ace, Two, Three, Four}
      ↔ a = 14 ∧ b = 13 ∧ c = 4 ∧ d = 3 ∧ e = 2 := by
    rw [show ({King, Ace, Two, Three, Four} : Finset Rank) = {2, 3, 4, 13, 14} by decide]
    exact rankSet_eq_iff cards t0 t1 t2 t3 t4 a b c d e hp hs 2 3 4 13 14 (by omega)
  simp only [hrun, hwheel, hwrap, Straight, Two, Ten, Five, Rank, ne_eq]
  clear htab hp hv hns hrun hwheel hwrap
  refine ⟨?_, ?_, ?_, ?_⟩
  · rw [r4]
    constructor
    · rintro ⟨-, hw | hr⟩
      · exact Or.inr hw
      · exact Or.inl ⟨e, by omega, by omega, by omega⟩
    · rintro (⟨r, h1, h2, h3⟩ | hw)
      · exact ⟨hf0, Or.inr (by omega)⟩
      · exact ⟨hf0, Or.inl hw⟩
  · intro r hr
    have hR : a - b = 1 ∧ b - c = 1 ∧ c - d = 1 ∧ d - e = 1 := by omega
    rw [v4r (r4.2 ⟨hf0, Or.inr hR⟩) hR]
    simp only [List.cons.injEq, and_true]
    omega
  · intro hw
    rw [v4w (r4.2 ⟨hf0, Or.inl hw⟩) hw]
  · intro hw h
    rcases (r4.1 h).2 with h' | h'
    · omega
    · omega

/-- C3. Five cards of one suit whose ranks form a straight: with ranks
`{Ten, Jack, Queen, King, Ace}` the hand is a Royal Flush with value vector `[Ace]`; with any
other five consecutive ranks it is a Straight Flush with its highest rank as value vector;
the suited wheel is a Straight Flush with value vector `[Five]`; such a hand is never
classified Flush or Straight. -/
theorem Evaluate_straight_flush (o : RangeOrder) (cards : List Card) (hlen : cards.length = 5)
    (hsuit : AllOneSuit cards) :
    (rankSet cards = {Ten, Jack, Queen, King, Ace} →
        (Evaluate o (NewHand cards)).Rank = RoyalFlush
          ∧ (Evaluate o (NewHand cards)).Values = [Ace])
    ∧ (∀ r : Rank, r ≠ Ten → rankSet cards = {r, r + 1, r + 2, r + 3, r + 4} →
        (Evaluate o (NewHand cards)).Rank = StraightFlush
          ∧ (Evaluate o (NewHand cards)).Values = [r + 4])
    ∧ (rankSet cards = {Ace, Two, Three, Four, Five} →
        (Evaluate o (NewHand cards)).Rank = StraightFlush
          ∧ (Evaluate o (NewHand cards)).Values = [Five])
    ∧ (StraightRanks cards →
        (Evaluate o (NewHand cards)).Rank ≠ Flush
          ∧ (Evaluate o (NewHand cards)).Rank ≠ Straight) := by
  obtain ⟨t0, t1, t2, t3, t4, a, b, c, d, e, f, hp, hs, -, hf01, hfF, htab⟩ :=
    Evaluate_cases o cards hlen
  obtain ⟨r9, r8, -, -, r5, r4, -⟩ := table_rank f a b c d e _ _ hs htab
  obtain ⟨v9, v8w, v8r, -⟩ := table_values f a b c d e _ _ hs htab
  have hf1 : f = 1 := (flag_of_not_flush cards t0 t1 t2 t3 t4 a b c d e f hp hf01 hfF).1.1 hsuit
  have hrun : ∀ r : Int, rankSet cards = {r, r + 1, r + 2, r + 3, r + 4}
      ↔ a = r + 4 ∧ b = r + 3 ∧ c = r + 2 ∧ d = r + 1 ∧ e = r := fun r =>
    rankSet_eq_iff cards t0 t1 t2 t3 t4 a b c d e hp hs r (r + 1) (r + 2) (r + 3) (r + 4)
      (by omega)
  have hwheel : rankSet cards = {Ace, Two, Three, Four, Five}
      ↔ a = 14 ∧ b = 5 ∧ c = 4 ∧ d = 3 ∧ e = 2 := by
    rw [wheel_set]
    exact rankSet_eq_iff cards t0 t1 t2 t3 t4 a b c d e hp hs 2 3 4 5 14 (by omega)
  have hroyal : rankSet cards = {Ten, Jack, Queen, King, Ace}
      ↔ a = 14 ∧ b = 13 ∧ c = 12 ∧ d = 11 ∧ e = 10 :=
    rankSet_eq_iff cards t0 t1 t2 t3 t4 a b c d e hp hs 10 11 12 13 14 (by omega)
  have hst := straightRanks_iff cards t0 t1 t2 t3 t4 a b c d e hp hs
  simp only [hrun, hwheel, hroyal, hst, RoyalFlush, StraightFlush, Flush, Straight, Ten, Ace,
    Five, Rank, ne_eq]
  clear htab hp hsuit hrun hwheel hroyal hst
  refine ⟨?_, ?_, ?_, ?_⟩
  · intro h
    have hr : (Evaluate o (NewHand cards)).Rank = 9 := r9.2 ⟨hf1, by omega, by omega⟩
    exact ⟨hr, v9 hr trivial⟩
  · intro r hne h
    have hR : a - b = 1 ∧ b - c = 1 ∧ c - d = 1 ∧ d - e = 1 := by omega
    have hr : (Evaluate o (NewHand cards)).Rank = 8 :=
      r8.2 ⟨hf1, Or.inr ⟨hR, by omega⟩⟩
    refine ⟨hr, ?_⟩
    rw [v8r hr hR]
    simp only [List.cons.injEq, and_true]
    omega
  · intro hw
    have hr : (Evaluate o (NewHand cards)).Rank = 8 := r8.2 ⟨hf1, Or.inl hw⟩
    exact ⟨hr, v8w hr hw⟩
  · intro h
    constructor
    · intro h5
      obtain ⟨-, hnw, hnr, -⟩ := r5.1 h5
      rcases h with h | h
      · exact hnr h
      · exact hnw h
    · intro h4
      have := (r4.1 h4).1
      omega

theorem flag_of_repeat (cards : List Card) (t0 t1 t2 t3 t4 a b c d e f : Int)
    (hp : [(⟨t0, a⟩ : Card), ⟨t1, b⟩, ⟨t2, c⟩, ⟨t3, d⟩, ⟨t4, e⟩].Perm cards)
    (hs : b ≤ a ∧ c ≤ b ∧ d ≤ c ∧ e ≤ d) (hnd : cards.Nodup) (hf01 : f = 1 ∨ f = 0)
    (hfF : f = 1 ↔ t1 = t0 ∧ t2 = t0 ∧ t3 = t0 ∧ t4 = t0)
    (hrep : a = b ∨ b = c ∨ c = d ∨ d = e) : f = 0 := by
  rcases hf01 with h1 | h0
  · have := flush_chain cards t0 t1 t2 t3 t4 a b c d e f hp hs hnd hfF h1
    omega
  · exact h0

/-- C5. Five pairwise-distinct cards, in any input order and for any visiting order of the
rank counts, are classified Two Pairs exactly when exactly two distinct ranks each occur on
exactly two cards; the value vector is then the higher pair rank, the lower pair rank, and
the rank of the fifth card. -/
theorem Evaluate_two_pairs (o : RangeOrder) (cards : List Card) (hlen : cards.length = 5)
    (hnd : cards.Nodup) :
    ((Evaluate o (NewHand cards)).Rank = TwoPairs
        ↔ ∃ p1 p2 : Rank, p1 ≠ p2
            ∧ ∀ q : Rank, (cards.map Card.Rank).count q = 2 ↔ (q = p1 ∨ q = p2))
    ∧ (∀ p1 p2 k : Rank, p2 < p1 → (cards.map Card.Rank).count p1 = 2 →
        (cards.map Card.Rank).count p2 = 2 → k ∈ cards.map Card.Rank → k ≠ p1 → k ≠ p2 →
        (Evaluate o (NewHand cards)).Values = [p1, p2, k]) := by
  obtain ⟨t0, t1, t2, t3, t4, a, b, c, d, e, f, hp, hs, -, hf01, hfF, htab⟩ :=
    Evaluate_cases o cards hlen
  obtain ⟨-, -, -, -, -, -, -, r2, -⟩ := table_rank f a b c d e _ _ hs htab
  obtain ⟨-, -, -, -, -, -, -, -, -, -, -, -, -, v2a, v2b, v2c, -⟩ :=
    table_values f a b c d e _ _ hs htab
  have hrep := flag_of_repeat cards t0 t1 t2 t3 t4 a b c d e f hp hs hnd hf01 hfF
  simp only [count_two_of_perm cards t0 t1 t2 t3 t4 a b c d e hp hs,
    mem_ranks_of_perm cards t0 t1 t2 t3 t4 a b c d e hp, TwoPairs, Rank, ne_eq]
  clear htab hp hnd hf01 hfF
  refine ⟨?_, ?_⟩
  · rw [r2]
    constructor
    · rintro ⟨-, h | h | h⟩
      · exact ⟨a, c, by omega, fun q => by omega⟩
      · exact ⟨a, d, by omega, fun q => by omega⟩
      · exact ⟨b, d, by omega, fun q => by omega⟩
    · rintro ⟨p1, p2, hne, hq⟩
      have h1 := (hq p1).2 (Or.inl rfl)
      have h2 := (hq p2).2 (Or.inr rfl)
      clear hq
      have hpat : (a = b ∧ c < b ∧ c = d ∧ e < d) ∨ (a = b ∧ c < b ∧ d < c ∧ d = e)
          ∨ (b < a ∧ b = c ∧ d < c ∧ d = e) := by
        rcases lt_or_gt_of_ne hne with hlt | hlt
        · rcases two_pairs_shape a b c d e p2 p1 h2 h1 hlt with h | h | h
          · exact Or.inl h.1
          · exact Or.inr (Or.inl h.1)
          · exact Or.inr (Or.inr h.1)
        · rcases two_pairs_shape a b c d e p1 p2 h1 h2 hlt with h | h | h
          · exact Or.inl h.1
          · exact Or.inr (Or.inl h.1)
          · exact Or.inr (Or.inr h.1)
      refine ⟨hrep ?_, hpat⟩
      rcases hpat with h | h | h
      · exact Or.inl h.1
      · exact Or.inl h.1
      · exact Or.inr (Or.inl h.2.1)
  · intro p1 p2 k hlt h1 h2
    have hpat := two_pairs_shape a b c d e p1 p2 h1 h2 hlt
    clear h1 h2
    intro hk n1 n2
    rcases hpat with ⟨h, e1, e2⟩ | ⟨h, e1, e2⟩ | ⟨h, e1, e2⟩
    · rw [v2a (r2.2 ⟨hrep (by omega), Or.inl h⟩) h]
      simp only [List.cons.injEq, and_true, true_and]
      omega
    · rw [v2b (r2.2 ⟨hrep (by omega), Or.inr (Or.inl h)⟩) h]
      simp only [List.cons.injEq, and_true, true_and]
      omega
    · rw [v2c (r2.2 ⟨hrep (by omega), Or.inr (Or.inr h)⟩) h]
      simp only [List.cons.injEq, and_true, true_and]
      omega

/-- C6. Five pairwise-distinct cards are classified Three of a Kind exactly when some rank
occurs on exactly three cards and the other two cards have two different ranks, with value
vector the triple rank and then the two other ranks in descending order; they are classified
One Pair exactly when one rank occurs on exactly two cards and the other three cards have
three different ranks, with value vector the pair rank and then the three other ranks in
descending order. -/
theorem Evaluate_three_of_a_kind_one_pair (o : RangeOrder) (cards : List Card)
    (hlen : cards.length = 5) (hnd : cards.Nodup) :
    ((Evaluate o (NewHand cards)).Rank = ThreeOfAKind
        ↔ ∃ t k1 k2 : Rank, (cards.map Card.Rank).count t = 3
            ∧ (cards.map Card.Rank).count k1 = 1 ∧ (cards.map Card.Rank).count k2 = 1
            ∧ k2 < k1)
    ∧ (∀ t k1 k2 : Rank, (cards.map Card.Rank).count t = 3 →
        (cards.map Card.Rank).count k1 = 1 → (cards.map Card.Rank).count k2 = 1 → k2 < k1 →
        (Evaluate o (NewHand cards)).Values = [t, k1, k2])
    ∧ ((Evaluate o (NewHand cards)).Rank = OnePair
        ↔ ∃ p k1 k2 k3 : Rank, (cards.map Card.Rank).count p = 2
            ∧ (cards.map Card.Rank).count k1 = 1 ∧ (cards.map Card.Rank).count k2 = 1
            ∧ (cards.map Card.Rank).count k3 = 1 ∧ k2 < k1 ∧ k3 < k2)
    ∧ (∀ p k1 k2 k3 : Rank, (cards.map Card.Rank).count p = 2 →
        (cards.map Card.Rank).count k1 = 1 → (cards.map Card.Rank).count k2 = 1 →
        (cards.map Card.Rank).count k3 = 1 → k2 < k1 → k3 < k2 →
        (Evaluate o (NewHand cards)).Values = [p, k1, k2, k3]) := by
  obtain ⟨t0, t1, t2, t3, t4, a, b, c, d, e, f, hp, hs, -, hf01, hfF, htab⟩ :=
    Evaluate_cases o cards hlen
  obtain ⟨-, -, -, -, -, -, r3, -, r1, -⟩ := table_rank f a b c d e _ _ hs htab
  obtain ⟨-, -, -, -, -, -, -, -, -, -, v3a, v3b, v3c, -, -, -, v1a, v1b, v1c, v1d, -⟩ :=
    table_values f a b c d e _ _ hs htab
  have hrep := flag_of_repeat cards t0 t1 t2 t3 t4 a b c d e f hp hs hnd hf01 hfF
  simp only [count_three_of_perm cards t0 t1 t2 t3 t4 a b c d e hp hs,
    count_two_of_perm cards t0 t1 t2 t3 t4 a b c d e hp hs,
    count_one_of_perm cards t0 t1 t2 t3 t4 a b c d e hp hs, ThreeOfAKind, OnePair, Rank]
  clear htab hp hnd hf01 hfF
  refine ⟨?_, ?_, ?_, ?_⟩
  · rw [r3]
    constructor
    · rintro ⟨-, h | h | h⟩
      · exact ⟨c, d, e, by omega, by omega, by omega, by omega⟩
      · exact ⟨c, a, e, by omega, by omega, by omega, by omega⟩
      · exact ⟨c, a, b, by omega, by omega, by omega, by omega⟩
    · rintro ⟨t, k1, k2, h3, h1, h2, hlt⟩
      rcases trips_shape a b c d e t k1 k2 hs h3 h1 h2 hlt with h | h | h
      · exact ⟨hrep (by omega), Or.inl h.1⟩
      · exact ⟨hrep (by omega), Or.inr (Or.inl h.1)⟩
      · exact ⟨hrep (by omega), Or.inr (Or.inr h.1)⟩
  · intro t k1 k2 h3 h1 h2 hlt
    have hpat := trips_shape a b c d e t k1 k2 hs h3 h1 h2 hlt
    have ht := h3.1
    clear h1 h2 h3
    rcases hpat with ⟨h, e1, e2⟩ | ⟨h, e1, e2⟩ | ⟨h, e1, e2⟩
    · rw [v3a (r3.2 ⟨hrep (by omega), Or.inl h⟩) h]
      simp only [List.cons.injEq, and_true, true_and]
      omega
    · rw [v3b (r3.2 ⟨hrep (by omega), Or.inr (Or.inl h)⟩) h]
      simp only [List.cons.injEq, and_true, true_and]
      omega
    · rw [v3c (r3.2 ⟨hrep (by omega), Or.inr (Or.inr h)⟩) h]
      simp only [List.cons.injEq, and_true, true_and]
      omega
  · rw [r1]
    constructor
    · rintro ⟨-, h | h | h | h⟩
      · exact ⟨a, c, d, e, by omega, by omega, by omega, by omega, by omega, by omega⟩
      · exact ⟨b, a, d, e, by omega, by omega, by omega, by omega, by omega, by omega⟩
      · exact ⟨c, a, b, e, by omega, by omega, by omega, by omega, by omega, by omega⟩
      · exact ⟨d, a, b, c, by omega, by omega, by omega, by omega, by omega, by omega⟩
    · rintro ⟨p, k1, k2, k3, h2, h1, h1b, h1c, hlt, hlt'⟩
      rcases one_pair_shape a b c d e p k1 k2 k3 h2 h1 h1b h1c hlt hlt' with h | h | h | h
      · exact ⟨hrep (by omega), Or.inl h.1⟩
      · exact ⟨hrep (by omega), Or.inr (Or.inl h.1)⟩
      · exact ⟨hrep (by omega), Or.inr (Or.inr (Or.inl h.1))⟩
      · exact ⟨hrep (by omega), Or.inr (Or.inr (Or.inr h.1))⟩
  · intro p k1 k2 k3 h2 h1 h1b h1c hlt hlt'
    have hpat := one_pair_shape a b c d e p k1 k2 k3 h2 h1 h1b h1c hlt hlt'
    clear h1 h1b h1c h2
    rcases hpat with ⟨h, e0, e1, e2, e3⟩ | ⟨h, e0, e1, e2, e3⟩ | ⟨h, e0, e1, e2, e3⟩
      | ⟨h, e0, e1, e2, e3⟩
    · rw [v1a (r1.2 ⟨hrep (by omega), Or.inl h⟩) h]
      simp only [List.cons.injEq, and_true, true_and]
      omega
    · rw [v1b (r1.2 ⟨hrep (by omega), Or.inr (Or.inl h)⟩) h]
      simp only [List.cons.injEq, and_true, true_and]
      omega
    · rw [v1c (r1.2 ⟨hrep (by omega), Or.inr (Or.inr (Or.inl h))⟩) h]
      simp only [List.cons.injEq, and_true, true_and]
      omega
    · rw [v1d (r1.2 ⟨hrep (by omega), Or.inr (Or.inr (Or.inr h))⟩) h]
      simp only [List.cons.injEq, and_true, true_and]
      omega

theorem ranks_nodup_iff (cards : List Card) (t0 t1 t2 t3 t4 a b c d e : Int)
    (hp : [(⟨t0, a⟩ : Card), ⟨t1, b⟩, ⟨t2, c⟩, ⟨t3, d⟩, ⟨t4, e⟩].Perm cards)
    (hs : b ≤ a ∧ c ≤ b ∧ d ≤ c ∧ e ≤ d) :
    (cards.map Card.Rank).Nodup ↔ b < a ∧ c < b ∧ d < c ∧ e < d := by
  rw [← (hp.map Card.Rank).nodup_iff]
  simp only [List.map_cons, List.map_nil, List.nodup_cons, List.mem_cons, List.mem_singleton,
    List.not_mem_nil, List.nodup_nil, not_or, or_false, not_false_eq_true, and_true, Rank]
  constructor
  · rintro ⟨⟨h1, -⟩, ⟨h2, -⟩, ⟨h3, -⟩, h4⟩
    omega
  · intro h
    refine ⟨⟨?_, ?_, ?_, ?_⟩, ⟨?_, ?_, ?_⟩, ⟨?_, ?_⟩, ?_⟩ <;> omega

/-- C7. Five pairwise-distinct standard-deck cards are classified Flush exactly when they
share one suit and their ranks do not form a straight; they are classified High Card exactly
when they do not share one suit, their five ranks are pairwise different and do not form a
straight. In both cases the value vector is the five ranks in strictly descending order. -/
theorem Evaluate_flush_high_card (o : RangeOrder) (cards : List Card)
    (hlen : cards.length = 5) (hnd : cards.Nodup) (hv : ∀ card ∈ cards, card.Valid) :
    ((Evaluate o (NewHand cards)).Rank = Flush
        ↔ AllOneSuit cards ∧ ¬ StraightRanks cards)
    ∧ ((Evaluate o (NewHand cards)).Rank = HighCard
        ↔ ¬ AllOneSuit cards ∧ (cards.map Card.Rank).Nodup ∧ ¬ StraightRanks cards)
    ∧ ((Evaluate o (NewHand cards)).Rank = Flush
          ∨ (Evaluate o (NewHand cards)).Rank = HighCard →
        (Evaluate o (NewHand cards)).Values.Perm (cards.map Card.Rank)
          ∧ (Evaluate o (NewHand cards)).Values.Pairwise (fun x y => x > y)) := by
  obtain ⟨t0, t1, t2, t3, t4, a, b, c, d, e, f, hp, hs, -, hf01, hfF, htab⟩ :=
    Evaluate_cases o cards hlen
  obtain ⟨-, -, -, -, r5, -, -, -, -, r0⟩ := table_rank f a b c d e _ _ hs htab
  obtain ⟨-, -, -, -, -, -, -, v5, -, -, -, -, -, -, -, -, -, -, -, -, v0⟩ :=
    table_values f a b c d e _ _ hs htab
  have hchain := flush_chain cards t0 t1 t2 t3 t4 a b c d e f hp hs hnd hfF
  have hne := not_five_of_a_kind cards t0 t1 t2 t3 t4 a b c d e hp hs hnd hv
  obtain ⟨hA, hnA⟩ := flag_of_not_flush cards t0 t1 t2 t3 t4 a b c d e f hp hf01 hfF
  have hperm : [a, b, c, d, e].Perm (cards.map Card.Rank) := hp.map Card.Rank
  rw [hA, straightRanks_iff cards t0 t1 t2 t3 t4 a b c d e hp hs,
    ranks_nodup_iff cards t0 t1 t2 t3 t4 a b c d e hp hs]
  simp only [Flush, HighCard]
  clear htab hp hnd hv hA hnA hfF
  refine ⟨?_, ?_, ?_⟩
  · rw [r5]
    constructor
    · rintro ⟨h1, hnw, hnr, -⟩
      exact ⟨h1, fun h => h.elim hnr hnw⟩
    · rintro ⟨h1, hns⟩
      have hc := hchain h1
      exact ⟨h1, fun hw => hns (Or.inr hw), fun hr => hns (Or.inl hr),
        by clear r5 r0 hchain; omega, by clear r5 r0 hchain; omega⟩
  · rw [r0]
    constructor
    · rintro ⟨h0, hnw, hnr, hc⟩
      refine ⟨by clear r5 r0 hchain; omega, ?_, fun h => h.elim hnr hnw⟩
      rcases hc with hc | hc
      · exact hc
      · clear r5 r0 hchain; omega
    · rintro ⟨h0, hc, hns⟩
      exact ⟨by clear r5 r0 hchain; omega, fun hw => hns (Or.inr hw),
        fun hr => hns (Or.inl hr), Or.inl hc⟩
  · intro h
    have hc : b < a ∧ c < b ∧ d < c ∧ e < d := by
      rcases h with h | h
      · exact hchain (r5.1 h).1
      · rcases (r0.1 h).2.2.2 with hc | hc
        · exact hc
        · clear r5 r0 hchain; omega
    have hV : (Evaluate o (NewHand cards)).Values = [a, b, c, d, e] := by
      rcases h with h | h
      · exact v5 h trivial
      · exact v0 h trivial
    rw [hV]
    refine ⟨hperm, ?_⟩
    simp only [List.pairwise_cons, List.mem_cons, List.mem_singleton, List.not_mem_nil,
      forall_eq_or_imp, forall_eq, List.Pairwise.nil, IsEmpty.forall_iff, implies_true,
      and_true, gt_iff_lt, Rank]
    clear r5 r0 hchain
    omega

theorem table_length (f a b c d e r : Int) (v : List Int)
    (h : OutcomeTable f a b c d e r v) :
    (0 ≤ r ∧ r ≤ 9)
    ∧ (r = 9 ∨ r = 8 ∨ r = 4 → v.length = 1)
    ∧ (r = 7 ∨ r = 6 → v.length = 2)
    ∧ (r = 3 ∨ r = 2 → v.length = 3)
    ∧ (r = 1 → v.length = 4)
    ∧ (r = 5 ∨ r = 0 → v.length = 5) := by
  unfold OutcomeTable at h
  rcases h with ⟨hc, hR, hV⟩
    | ⟨hc, hR, hV⟩ | ⟨hc, hR, hV⟩ | ⟨hc, hR, hV⟩ | ⟨hc, hR, hV⟩ | ⟨hc, hR, hV⟩ | ⟨hc, hR, hV⟩
    | ⟨hc, hR, hV⟩ | ⟨hc, hR, hV⟩ | ⟨hc, hR, hV⟩ | ⟨hc, hR, hV⟩ | ⟨hc, hR, hV⟩ | ⟨hc, hR, hV⟩
    | ⟨hc, hR, hV⟩ | ⟨hc, hR, hV⟩ | ⟨hc, hR, hV⟩ | ⟨hc, hR, hV⟩ | ⟨hc, hR, hV⟩ | ⟨hc, hR, hV⟩
    | ⟨hc, hR, hV⟩ | ⟨hc, hR, hV⟩ | ⟨hc, hR, hV⟩ | ⟨hc, hR, hV⟩
  all_goals
    clear hc
    subst hV
    refine ⟨by omega, ?_, ?_, ?_, ?_, ?_⟩ <;> intro h <;> first | rfl | omega

/-- C8. On five cards `Evaluate` returns one of the ten categories, and the length of the
value vector depends on the category alone: 1 for Royal Flush, Straight Flush and Straight;
2 for Four of a Kind and Full House; 3 for Three of a Kind and Two Pairs; 4 for One Pair;
5 for Flush and High Card. In the categories with kickers, the candidate list that
`getKickers` builds from the sorted cards and the excluded ranks (the leading entries of the
value vector) has exactly the requested length, so the truncation keeps all of it. -/
theorem Evaluate_value_lengths (o : RangeOrder) (cards : List Card) (hlen : cards.length = 5) :
    ((Evaluate o (NewHand cards)).Rank = HighCard ∨ (Evaluate o (NewHand cards)).Rank = OnePair
      ∨ (Evaluate o (NewHand cards)).Rank = TwoPairs
      ∨ (Evaluate o (NewHand cards)).Rank = ThreeOfAKind
      ∨ (Evaluate o (NewHand cards)).Rank = Straight
      ∨ (Evaluate o (NewHand cards)).Rank = Flush
      ∨ (Evaluate o (NewHand cards)).Rank = FullHouse
      ∨ (Evaluate o (NewHand cards)).Rank = FourOfAKind
      ∨ (Evaluate o (NewHand cards)).Rank = StraightFlush
      ∨ (Evaluate o (NewHand cards)).Rank = RoyalFlush)
    ∧ ((Evaluate o (NewHand cards)).Rank = RoyalFlush
        ∨ (Evaluate o (NewHand cards)).Rank = StraightFlush
        ∨ (Evaluate o (NewHand cards)).Rank = Straight →
        (Evaluate o (NewHand cards)).Values.length = 1)
    ∧ ((Evaluate o (NewHand cards)).Rank = FourOfAKind
        ∨ (Evaluate o (NewHand cards)).Rank = FullHouse →
        (Evaluate o (NewHand cards)).Values.length = 2)
    ∧ ((Evaluate o (NewHand cards)).Rank = ThreeOfAKind
        ∨ (Evaluate o (NewHand cards)).Rank = TwoPairs →
        (Evaluate o (NewHand cards)).Values.length = 3)
    ∧ ((Evaluate o (NewHand cards)).Rank = OnePair →
        (Evaluate o (NewHand cards)).Values.length = 4)
    ∧ ((Evaluate o (NewHand cards)).Rank = Flush
        ∨ (Evaluate o (NewHand cards)).Rank = HighCard →
        (Evaluate o (NewHand cards)).Values.length = 5)
    ∧ ((Evaluate o (NewHand cards)).Rank = FourOfAKind →
        (kickerCandidates (Evaluate o (NewHand cards)).Cards
          ((Evaluate o (NewHand cards)).Values.take 1)).length = 1)
    ∧ ((Evaluate o (NewHand cards)).Rank = ThreeOfAKind →
        (kickerCandidates (Evaluate o (NewHand cards)).Cards
          ((Evaluate o (NewHand cards)).Values.take 1)).length = 2)
    ∧ ((Evaluate o (NewHand cards)).Rank = TwoPairs →
        (kickerCandidates (Evaluate o (NewHand cards)).Cards
          ((Evaluate o (NewHand cards)).Values.take 2)).length = 1)
    ∧ ((Evaluate o (NewHand cards)).Rank = OnePair →
        (kickerCandidates (Evaluate o (NewHand cards)).Cards
          ((Evaluate o (NewHand cards)).Values.take 1)).length = 3) := by
  obtain ⟨t0, t1, t2, t3, t4, a, b, c, d, e, f, -, hs, hC, -, -, htab⟩ :=
    Evaluate_cases o cards hlen
  obtain ⟨-, -, r7, -, -, -, r3, r2, r1, -⟩ := table_rank f a b c d e _ _ hs htab
  obtain ⟨-, -, -, v7a, v7b, -, -, -, -, -, v3a, v3b, v3c, v2a, v2b, v2c, v1a, v1b, v1c, v1d,
    -⟩ := table_values f a b c d e _ _ hs htab
  obtain ⟨hrange, l1, l2, l3, l4, l5⟩ := table_length f a b c d e _ _ htab
  obtain ⟨k7a, k7b, k3a, k3b, k3c, k2a, k2b, k2c, k1a, k1b, k1c, k1d⟩ :=
    kickerCandidates_five t0 t1 t2 t3 t4 a b c d e hs
  clear htab
  simp only [HighCard, OnePair, TwoPairs, ThreeOfAKind, Straight, Flush, FullHouse,
    FourOfAKind, StraightFlush, RoyalFlush, hC]
  refine ⟨?_, ?_, ?_, ?_, l4, ?_, ?_, ?_, ?_, ?_⟩
  · clear r7 r3 r2 r1 l1 l2 l3 l4 l5
    simp only [HandRank] at hrange ⊢
    omega
  · intro h; exact l1 (by clear r7 r3 r2 r1; simp only [HandRank] at h ⊢; omega)
  · intro h; exact l2 (by clear r7 r3 r2 r1; simp only [HandRank] at h ⊢; omega)
  · intro h; exact l3 (by clear r7 r3 r2 r1; simp only [HandRank] at h ⊢; omega)
  · intro h; exact l5 (by clear r7 r3 r2 r1; simp only [HandRank] at h ⊢; omega)
  · intro h
    rcases r7.1 h with hq | hq
    · rw [v7a h hq]; exact congrArg List.length (k7a hq)
    · rw [v7b h hq]; exact congrArg List.length (k7b hq)
  · intro h
    rcases (r3.1 h).2 with hq | hq | hq
    · rw [v3a h hq]; exact congrArg List.length (k3a hq)
    · rw [v3b h hq]; exact congrArg List.length (k3b hq)
    · rw [v3c h hq]; exact congrArg List.length (k3c hq)
  · intro h
    rcases (r2.1 h).2 with hq | hq | hq
    · rw [v2a h hq]; exact congrArg List.length (k2a hq)
    · rw [v2b h hq]; exact congrArg List.length (k2b hq)
    · rw [v2c h hq]; exact congrArg List.length (k2c hq)
  · intro h
    rcases (r1.1 h).2 with hq | hq | hq | hq
    · rw [v1a h hq]; exact congrArg List.length (k1a hq)
    · rw [v1b h hq]; exact congrArg List.length (k1b hq)
    · rw [v1c h hq]; exact congrArg List.length (k1c hq)
    · rw [v1d h hq]; exact congrArg List.length (k1d hq)

theorem lexCompare_append_diff (p s s' : List Rank) (x y : Rank) (hxy : x ≠ y) :
    lexCompare (p ++ x :: s) (p ++ y :: s') = if x > y then 1 else -1 := by
  induction p with
  | nil =>
    simp only [List.nil_append, lexCompare, gt_iff_lt]
    by_cases h : y < x
    · rw [if_pos h, if_pos h]
    · have h' : x < y := lt_of_le_of_ne (not_lt.1 h) hxy
      rw [if_neg h, if_pos h', if_neg h]
  | cons z p ih =>
    simp only [List.cons_append, lexCompare, gt_iff_lt, lt_self_iff_false, if_false]
    exact ih

theorem lexCompare_initial (p s : List Rank) (y : Rank) :
    lexCompare p (p ++ y :: s) = -1 ∧ lexCompare (p ++ y :: s) p = 1 := by
  induction p with
  | nil => simp [lexCompare]
  | cons z p ih =>
    simp only [List.cons_append, lexCompare, gt_iff_lt, lt_self_iff_false, if_false]
    exact ih

/-- C1. For a pool of more than five cards, the hand returned by `GetBestHand` is the
evaluation of five cards taken from five distinct positions of the pool (a sublist of length
five; the hand's `Cards` are those five cards, its `Rank` and `Values` what `Evaluate` gives
on them), and it is maximal: compared with the evaluation of any five cards taken from the
pool, `Compare` never answers -1. -/
theorem GetBestHand_maximal (o : RangeOrder) (pool : List Card) (hN : 5 < pool.length) :
    (∃ combo : List Card, combo.Sublist pool ∧ combo.length = 5
        ∧ GetBestHand o pool = Evaluate o (NewHand combo)
        ∧ (GetBestHand o pool).Cards.Perm combo)
    ∧ (∀ combo : List Card, combo.Sublist pool → combo.length = 5 →
        (GetBestHand o pool).Compare (Evaluate o (NewHand combo)) ≠ -1) := by
  have hmem := generateCombinations_mem pool 5 (by omega)
  have hperm : ∀ combo : List Card, (Evaluate o (NewHand combo)).Cards.Perm combo := by
    intro combo
    rw [Evaluate_Cards]
    simp only [NewHand, CopyCards_eq]
    exact sortByRank_perm combo
  unfold GetBestHand
  rw [if_neg (by omega)]
  cases hcomb : generateCombinations pool 5 with
  | nil =>
    have h5 : pool.take 5 ∈ generateCombinations pool 5 :=
      (hmem _).2 ⟨List.take_sublist 5 pool, by rw [List.length_take]; omega⟩
    rw [hcomb] at h5
    exact absurd h5 (List.not_mem_nil _)
  | cons combo0 rest =>
    simp only
    obtain ⟨h1, h2, h3⟩ := bestHandLoop_spec o rest (Evaluate o (NewHand combo0))
    have hin : ∀ combo, combo ∈ combo0 :: rest ↔ combo.Sublist pool ∧ combo.length = 5 := by
      intro combo
      rw [← hcomb]
      exact hmem combo
    constructor
    · rcases h1 with h1 | ⟨c', hc', h1⟩
      · obtain ⟨hs, hl⟩ := (hin combo0).1 (List.mem_cons_self _ _)
        exact ⟨combo0, hs, hl, h1, by rw [h1]; exact hperm combo0⟩
      · obtain ⟨hs, hl⟩ := (hin c').1 (List.mem_cons_of_mem _ hc')
        exact ⟨c', hs, hl, h1, by rw [h1]; exact hperm c'⟩
    · intro combo hs hl
      have hc := (hin combo).2 ⟨hs, hl⟩
      have hge : 0 ≤ (bestHandLoop o rest (Evaluate o (NewHand combo0))).Compare
          (Evaluate o (NewHand combo)) := by
        rcases List.mem_cons.1 hc with rfl | hc
        · exact h2
        · exact h3 combo hc
      intro hneg
      rw [hneg] at hge
      exact absurd hge (by decide)

/-- C9. Category order High Card < One Pair < Two Pairs < Three of a Kind < Straight < Flush
< Full House < Four of a Kind < Straight Flush < Royal Flush: for any two hands, whatever
their cards and value vectors, the hand of the stronger category compares as 1 against the
other, and the other as -1 against it. -/
theorem Compare_category (a b : Hand) (h : b.Rank < a.Rank) :
    (HighCard < OnePair ∧ OnePair < TwoPairs ∧ TwoPairs < ThreeOfAKind
      ∧ ThreeOfAKind < Straight ∧ Straight < Flush ∧ Flush < FullHouse
      ∧ FullHouse < FourOfAKind ∧ FourOfAKind < StraightFlush ∧ StraightFlush < RoyalFlush)
    ∧ a.Compare b = 1 ∧ b.Compare a = -1 := by
  refine ⟨by decide, ?_, ?_⟩
  · rw [Compare_eq, if_pos h]
  · rw [Compare_eq, if_neg (not_lt.2 (le_of_lt h)), if_pos h]

/-- C10. For two hands of the same category, `Compare` is the lexicographic comparison of
the value vectors read from index 0: after a common prefix the first differing element
decides (1 if the element of the first hand is larger, -1 if smaller); if one vector is a
strict prefix of the other the longer one wins; the result is 0 exactly when the vectors are
identical. Hence, for any two hands, `Compare` answers 0 if and only if they have the same
category and the same value vector. -/
theorem Compare_lexicographic (a b : Hand) :
    (a.Rank = b.Rank →
      a.Compare b = lexCompare a.Values b.Values
      ∧ (∀ (p s s' : List Rank) (x y : Rank), a.Values = p ++ x :: s → b.Values = p ++ y :: s' →
          x ≠ y → a.Compare b = if x > y then 1 else -1)
      ∧ (∀ (y : Rank) (s : List Rank), b.Values = a.Values ++ y :: s → a.Compare b = -1)
      ∧ (∀ (x : Rank) (s : List Rank), a.Values = b.Values ++ x :: s → a.Compare b = 1)
      ∧ (a.Compare b = 0 ↔ a.Values = b.Values))
    ∧ (a.Compare b = 0 ↔ a.Rank = b.Rank ∧ a.Values = b.Values) := by
  have hsame : a.Rank = b.Rank → a.Compare b = lexCompare a.Values b.Values := by
    intro h
    rw [Compare_eq, h, if_neg (lt_irrefl _), if_neg (lt_irrefl _)]
  constructor
  · intro h
    have hc := hsame h
    refine ⟨hc, ?_, ?_, ?_, ?_⟩
    · intro p s s' x y ha hb hxy
      rw [hc, ha, hb]
      exact lexCompare_append_diff p s s' x y hxy
    · intro y s hb
      rw [hc, hb]
      exact (lexCompare_initial a.Values s y).1
    · intro x s ha
      rw [hc, ha]
      exact (lexCompare_initial b.Values s x).2
    · rw [hc]
      exact lexCompare_eq_zero _ _
  · constructor
    · intro h0
      have hr : a.Rank = b.Rank := by
        rw [Compare_eq] at h0
        by_cases h1 : a.Rank > b.Rank
        · rw [if_pos h1] at h0
          exact absurd h0 (by decide)
        · rw [if_neg h1] at h0
          by_cases h2 : a.Rank < b.Rank
          · rw [if_pos h2] at h0
            exact absurd h0 (by decide)
          · exact le_antisymm (not_lt.1 h1) (not_lt.1 h2)
      refine ⟨hr, ?_⟩
      rw [hsame hr] at h0
      exact (lexCompare_eq_zero _ _).1 h0
    · rintro ⟨hr, hv⟩
      rw [hsame hr]
      exact (lexCompare_eq_zero _ _).2 hv

/-! ## GetBestHand on five cards or more -/

theorem generateCombinations_five_ne_nil (cards : List Card) (hN : 5 ≤ cards.length) :
    generateCombinations cards 5 ≠ [] := by
  intro hnil
  have h5 : cards.take 5 ∈ generateCombinations cards 5 :=
    (generateCombinations_mem cards 5 (by omega) _).2
      ⟨List.take_sublist 5 cards, by rw [List.length_take]; omega⟩
  rw [hnil] at h5
  exact absurd h5 (List.not_mem_nil _)

theorem GetBestHand_order (o : RangeOrder) (cards : List Card) :
    GetBestHand o cards = GetBestHand RangeOrder.insertion cards := by
  have hloop : ∀ (rest : List (List Card)) (best : Hand),
      bestHandLoop o rest best = bestHandLoop RangeOrder.insertion rest best := by
    intro rest
    induction rest with
    | nil => intro best; rfl
    | cons combo rest ih =>
      intro best
      simp only [bestHandLoop, Evaluate_order o, ih]
  unfold GetBestHand
  simp only [Evaluate_order o, hloop]

/-- For five cards or more, `GetBestHand` returns the evaluation of five cards taken from
five positions of the input, and no five cards of the input evaluate to a hand that beats
it. -/
theorem GetBestHand_spec (o : RangeOrder) (cards : List Card) (hN : 5 ≤ cards.length) :
    (∃ combo : List Card, combo.Sublist cards ∧ combo.length = 5
        ∧ GetBestHand o cards = Evaluate o (NewHand combo))
    ∧ (∀ combo : List Card, combo.Sublist cards → combo.length = 5 →
        0 ≤ (GetBestHand o cards).Compare (Evaluate o (NewHand combo))) := by
  by_cases h5 : cards.length ≤ 5
  · have hlen : cards.length = 5 := by omega
    have hG : GetBestHand o cards = Evaluate o (NewHand cards) := by
      unfold GetBestHand
      rw [if_pos h5]
    refine ⟨⟨cards, List.Sublist.refl _, hlen, hG⟩, ?_⟩
    intro combo hs hl
    have hc : combo = cards := hs.eq_of_length (by rw [hl, hlen])
    rw [hG, hc, Compare_self]
  · have hmem := generateCombinations_mem cards 5 (by omega)
    unfold GetBestHand
    rw [if_neg h5]
    cases hcomb : generateCombinations cards 5 with
    | nil => exact absurd hcomb (generateCombinations_five_ne_nil cards hN)
    | cons combo0 rest =>
      simp only
      obtain ⟨h1, h2, h3⟩ := bestHandLoop_spec o rest (Evaluate o (NewHand combo0))
      have hin : ∀ combo, combo ∈ combo0 :: rest ↔ combo.Sublist cards ∧ combo.length = 5 := by
        intro combo
        rw [← hcomb]
        exact hmem combo
      constructor
      · rcases h1 with h1 | ⟨c', hc', h1⟩
        · obtain ⟨hs, hl⟩ := (hin combo0).1 (List.mem_cons_self _ _)
          exact ⟨combo0, hs, hl, h1⟩
        · obtain ⟨hs, hl⟩ := (hin c').1 (List.mem_cons_of_mem _ hc')
          exact ⟨c', hs, hl, h1⟩
      · intro combo hs hl
        rcases List.mem_cons.1 ((hin combo).2 ⟨hs, hl⟩) with rfl | hc
        · exact h2
        · exact h3 combo hc

/-! ## Evaluate reads the ranks and the flush flag only -/

theorem Compare_eq_zero_iff (a b : Hand) :
    a.Compare b = 0 ↔ a.Rank = b.Rank ∧ a.Values = b.Values := by
  rw [Compare_eq]
  by_cases h1 : a.Rank > b.Rank
  · rw [if_pos h1]
    constructor
    · intro h; exact absurd h (by decide)
    · rintro ⟨h, -⟩; rw [h] at h1; exact absurd h1 (lt_irrefl _)
  · rw [if_neg h1]
    by_cases h2 : a.Rank < b.Rank
    · rw [if_pos h2]
      constructor
      · intro h; exact absurd h (by decide)
      · rintro ⟨h, -⟩; rw [h] at h2; exact absurd h2 (lt_irrefl _)
    · rw [if_neg h2, lexCompare_eq_zero]
      constructor
      · intro h; exact ⟨le_antisymm (not_lt.1 h1) (not_lt.1 h2), h⟩
      · rintro ⟨-, h⟩; exact h

theorem Compare_congr (a a' b b' : Hand) (hr : a.Rank = a'.Rank) (hv : a.Values = a'.Values)
    (hr' : b.Rank = b'.Rank) (hv' : b.Values = b'.Values) :
    a.Compare b = a'.Compare b' := by
  simp only [Compare_eq, hr, hv, hr', hv']

theorem Evaluate_eq_of_ranks (o o' : RangeOrder) (cards cards' : List Card)
    (hlen : cards.length = 5)
    (hranks : (cards.map Card.Rank).Perm (cards'.map Card.Rank))
    (hsuit : AllOneSuit cards ↔ AllOneSuit cards') :
    (Evaluate o (NewHand cards)).Rank = (Evaluate o' (NewHand cards')).Rank
    ∧ (Evaluate o (NewHand cards)).Values = (Evaluate o' (NewHand cards')).Values := by
  have hlen' : cards'.length = 5 := by
    have h := hranks.length_eq
    simp only [List.length_map] at h
    omega
  obtain ⟨t0, t1, t2, t3, t4, a, b, c, d, e, hp, hab, hbc, hcd, hde, -, hE⟩ :=
    Evaluate_five o cards hlen
  obtain ⟨u0, u1, u2, u3, u4, a', b', c', d', e', hp', hab', hbc', hcd', hde', -, hE'⟩ :=
    Evaluate_five o' cards' hlen'
  have hperm : [a, b, c, d, e].Perm [a', b', c', d', e'] :=
    ((hp.map Card.Rank).trans hranks).trans (hp'.map Card.Rank).symm
  have hr : [a, b, c, d, e] = [a', b', c', d', e'] := by
    refine sorted_desc_unique _ _ hperm ?_ ?_
    · simp only [List.pairwise_cons, List.mem_cons, List.mem_singleton, forall_eq_or_imp,
        forall_eq, List.not_mem_nil, ge_iff_le, IsEmpty.forall_iff, implies_true,
        List.Pairwise.nil, and_true]
      omega
    · simp only [List.pairwise_cons, List.mem_cons, List.mem_singleton, forall_eq_or_imp,
        forall_eq, List.not_mem_nil, ge_iff_le, IsEmpty.forall_iff, implies_true,
        List.Pairwise.nil, and_true]
      omega
  have hf : (t1 = t0 ∧ t2 = t0 ∧ t3 = t0 ∧ t4 = t0)
      ↔ (u1 = u0 ∧ u2 = u0 ∧ u3 = u0 ∧ u4 = u0) :=
    (allOneSuit_iff cards t0 t1 t2 t3 t4 a b c d e hp).symm.trans
      (hsuit.trans (allOneSuit_iff cards' u0 u1 u2 u3 u4 a' b' c' d' e' hp'))
  have hd : decide (t1 = t0 ∧ t2 = t0 ∧ t3 = t0 ∧ t4 = t0)
      = decide (u1 = u0 ∧ u2 = u0 ∧ u3 = u0 ∧ u4 = u0) := decide_eq_decide.2 hf
  simp only [List.cons.injEq, and_true] at hr
  obtain ⟨rfl, rfl, rfl, rfl, rfl⟩ := hr
  rw [hE, hE', hd]
  exact ⟨rfl, rfl⟩

/-! ## Pools with the same ranks -/

theorem not_allOneSuit_of_countP (pool x : List Card)
    (h : ∀ s : Suit, pool.countP (fun card => decide (card.Suit = s)) < 5)
    (hs : x.Sublist pool) (hl : x.length = 5) : ¬ AllOneSuit x := by
  intro hall
  obtain ⟨x0, x1, x2, x3, x4, rfl⟩ := length_five x hl
  have hcount : List.countP (fun card => decide (card.Suit = x0.Suit)) [x0, x1, x2, x3, x4]
      = [x0, x1, x2, x3, x4].length := by
    rw [List.countP_eq_length]
    intro card hcard
    exact decide_eq_true (hall card hcard x0 (List.mem_cons_self _ _))
  have hle := List.Sublist.countP_le (fun card => decide (card.Suit = x0.Suit)) hs
  have hlt := h x0.Suit
  rw [hcount] at hle
  simp only [List.length_cons, List.length_nil] at hle
  omega

theorem countP_suit_of_mem (pool : List Card)
    (h : ∀ card ∈ pool, pool.countP (fun c => decide (c.Suit = card.Suit)) < 5) (s : Suit) :
    pool.countP (fun c => decide (c.Suit = s)) < 5 := by
  by_cases hs : ∃ card ∈ pool, card.Suit = s
  · obtain ⟨card, hcard, rfl⟩ := hs
    exact h card hcard
  · have h0 : pool.countP (fun c => decide (c.Suit = s)) = 0 := by
      rw [List.countP_eq_zero]
      intro card hcard hd
      exact hs ⟨card, hcard, of_decide_eq_true hd⟩
    rw [h0]
    decide

theorem exists_sublist_of_ranks_perm (p1 p2 x : List Card)
    (hranks : (p1.map Card.Rank).Perm (p2.map Card.Rank)) (hs : x.Sublist p1) :
    ∃ y : List Card, y.Sublist p2 ∧ (x.map Card.Rank).Perm (y.map Card.Rank) := by
  have hsub : (x.map Card.Rank).Subperm (p2.map Card.Rank) :=
    (hs.map Card.Rank).subperm.trans hranks.subperm
  obtain ⟨l, hl, hl2⟩ := hsub
  obtain ⟨y, hy, rfl⟩ := List.sublist_map_iff.1 hl2
  exact ⟨y, hy, hl.symm⟩

theorem GetBestHand_le_of_ranks (o o' : RangeOrder) (p1 p2 : List Card)
    (hN1 : 5 ≤ p1.length) (hN2 : 5 ≤ p2.length)
    (hranks : (p1.map Card.Rank).Perm (p2.map Card.Rank))
    (h1 : ∀ s : Suit, p1.countP (fun card => decide (card.Suit = s)) < 5)
    (h2 : ∀ s : Suit, p2.countP (fun card => decide (card.Suit = s)) < 5) :
    0 ≤ (GetBestHand o' p2).Compare (GetBestHand o p1) := by
  obtain ⟨⟨x, hxs, hxl, hE⟩, -⟩ := GetBestHand_spec o p1 hN1
  obtain ⟨y, hys, hperm⟩ := exists_sublist_of_ranks_perm p1 p2 x hranks hxs
  have hyl : y.length = 5 := by
    have h := hperm.length_eq
    simp only [List.length_map] at h
    omega
  have hnx := not_allOneSuit_of_countP p1 x h1 hxs hxl
  have hny := not_allOneSuit_of_countP p2 y h2 hys hyl
  obtain ⟨hr, hv⟩ := Evaluate_eq_of_ranks o o' x y hxl hperm
    ⟨fun h => absurd h hnx, fun h => absurd h hny⟩
  have hge := (GetBestHand_spec o' p2 hN2).2 y hys hyl
  rw [hE, Compare_congr (GetBestHand o' p2) (GetBestHand o' p2) (Evaluate o (NewHand x))
    (Evaluate o' (NewHand y)) rfl rfl hr hv]
  exact hge

/-! ## The ranks read back from the category and the value vector -/

theorem table_decode (f a b c d e r : Int) (v : List Int)
    (hs : b ≤ a ∧ c ≤ b ∧ d ≤ c ∧ e ≤ d) (hlo : 2 ≤ e)
    (h : OutcomeTable f a b c d e r v) : [a, b, c, d, e] = decodeRanks r v := by
  unfold OutcomeTable at h
  rcases h with ⟨hc, hR, hV⟩
    | ⟨hc, hR, hV⟩
    | ⟨hc, hR, hV⟩
    | ⟨hc, hR, hV⟩
    | ⟨hc, hR, hV⟩
    | ⟨hc, hR, hV⟩
    | ⟨hc, hR, hV⟩
    | ⟨hc, hR, hV⟩
    | ⟨hc, hR, hV⟩
    | ⟨hc, hR, hV⟩
    | ⟨hc, hR, hV⟩
    | ⟨hc, hR, hV⟩
    | ⟨hc, hR, hV⟩
    | ⟨hc, hR, hV⟩
    | ⟨hc, hR, hV⟩
    | ⟨hc, hR, hV⟩
    | ⟨hc, hR, hV⟩
    | ⟨hc, hR, hV⟩
    | ⟨hc, hR, hV⟩
    | ⟨hc, hR, hV⟩
    | ⟨hc, hR, hV⟩
    | ⟨hc, hR, hV⟩
    | ⟨hc, hR, hV⟩
  all_goals
    subst hR
    subst hV
    first
      | (simp only [decodeRanks]; done)
      | (simp only [decodeRanks]
         split_ifs <;> simp only [List.cons.injEq, and_true, true_and] <;> omega)

/-! ## generateCombinations in closed form -/

theorem generateCombosLoop_eq (k : Nat) (suffix current : List Card)
    (result : List (List Card)) (hcur : current.length < k) :
    generateCombosLoop k suffix current result
      = result ++ (selections (k - current.length) suffix).map (fun t => current ++ t) := by
  induction suffix generalizing current result with
  | nil =>
    obtain ⟨m, hm⟩ : ∃ m, k - current.length = m + 1 := ⟨k - current.length - 1, by omega⟩
    simp only [generateCombosLoop, hm, selections, List.map_nil, List.append_nil]
  | cons card rest ih =>
    obtain ⟨m, hm⟩ : ∃ m, k - current.length = m + 1 := ⟨k - current.length - 1, by omega⟩
    simp only [generateCombosLoop]
    rw [ih current _ hcur, hm]
    simp only [selections, List.map_append, List.map_map]
    by_cases hk : (current ++ [card]).length = k
    · have hm0 : m = 0 := by
        simp only [List.length_append, List.length_singleton] at hk
        omega
      subst hm0
      rw [if_pos hk]
      simp only [selections, List.map_cons, List.map_nil, Function.comp, List.append_assoc,
        List.singleton_append]
    · have hlt : (current ++ [card]).length < k := by
        simp only [List.length_append, List.length_singleton] at hk ⊢
        omega
      have hm2 : k - (current ++ [card]).length = m := by
        simp only [List.length_append, List.length_singleton]
        omega
      rw [if_neg hk, ih (current ++ [card]) result hlt, hm2]
      simp only [List.append_assoc, List.singleton_append]
      rfl

theorem generateCombinations_eq (cards : List Card) (k : Nat) :
    generateCombinations cards k = selections k cards := by
  unfold generateCombinations generateCombosHelper
  rcases Nat.eq_zero_or_pos k with rfl | hk
  · simp only [List.length_nil, if_true, List.nil_append]
    cases cards <;> rfl
  · rw [if_neg (by simp only [List.length_nil]; omega),
      generateCombosLoop_eq k cards [] [] (by simpa using hk)]
    simp only [List.length_nil, Nat.sub_zero, List.nil_append, List.map_id']

theorem selections_map {α β : Type} (f : α → β) (k : Nat) (l : List α) :
    selections k (l.map f) = (selections k l).map (List.map f) := by
  induction l generalizing k with
  | nil => cases k <;> simp [selections]
  | cons x xs ih =>
    cases k with
    | zero => simp [selections]
    | succ k =>
      simp only [List.map_cons, selections, ih, List.map_append, List.map_map]
      rfl

theorem selections_perm {α : Type} (k : Nat) (l : List α) :
    (selections k l).Perm (List.sublistsLen k l) := by
  induction l generalizing k with
  | nil => cases k <;> simp [selections]
  | cons x xs ih =>
    cases k with
    | zero => simp [selections]
    | succ k =>
      rw [List.sublistsLen_succ_cons]
      simp only [selections]
      exact ((ih k).map _).append (ih (k + 1)) |>.trans List.perm_append_comm

theorem sorted_fin_iff (n : Nat) (l : List (Fin n)) :
    l.Sublist (List.finRange n) ↔ l.Sorted (fun i j => i < j) := by
  constructor
  · intro h
    exact (List.pairwise_lt_finRange n).sublist h
  · intro h
    have hnd : l.Nodup := h.imp (fun hij => ne_of_lt hij)
    have hsub : l.Subperm (List.finRange n) :=
      hnd.subperm (fun i _ => List.mem_finRange i)
    exact List.sublist_of_subperm_of_sorted hsub (h.imp (fun hij => le_of_lt hij))
      ((List.pairwise_lt_finRange n).imp (fun hij => le_of_lt hij))

/-! ## The checked embedding never panics -/

theorem andThen_some (x y : Bool) : andThen (some x) (some y) = some (x && y) := by
  cases x <;> rfl

theorem checkStraightLoopChecked_five (c0 c1 c2 c3 c4 : Card) :
    checkStraightLoopChecked [c0, c1, c2, c3, c4] 4 0
      = some (if c0.Rank - c1.Rank ≠ 1 then (false, 0)
          else if c1.Rank - c2.Rank ≠ 1 then (false, 0)
          else if c2.Rank - c3.Rank ≠ 1 then (false, 0)
          else if c3.Rank - c4.Rank ≠ 1 then (false, 0)
          else (true, c0.Rank)) := by
  simp only [checkStraightLoopChecked, List.getElem?_cons_zero, List.getElem?_cons_succ,
    Option.map_some', zero_add, Nat.reduceAdd, apply_ite some]

theorem checkStraightChecked_eq (cards : List Card) :
    checkStraightChecked cards = some (checkStraight cards) := by
  by_cases hlen : cards.length = 5
  · obtain ⟨c0, c1, c2, c3, c4, rfl⟩ := length_five cards hlen
    have hw : andThen (andThen (andThen (andThen (rankAtIs [c0, c1, c2, c3, c4] 0 Ace)
          (rankAtIs [c0, c1, c2, c3, c4] 1 Five)) (rankAtIs [c0, c1, c2, c3, c4] 2 Four))
          (rankAtIs [c0, c1, c2, c3, c4] 3 Three)) (rankAtIs [c0, c1, c2, c3, c4] 4 Two)
        = some (decide (c0.Rank = Ace ∧ c1.Rank = Five ∧ c2.Rank = Four ∧ c3.Rank = Three
            ∧ c4.Rank = Two)) := by
      simp only [rankAtIs, List.getElem?_cons_zero, List.getElem?_cons_succ, Option.map_some',
        andThen_some, Bool.decide_and, Bool.and_assoc]
    unfold checkStraightChecked
    rw [if_neg (by simp only [List.length_cons, List.length_nil]; decide), hw,
      checkStraightLoopChecked_five]
    by_cases h : c0.Rank = Ace ∧ c1.Rank = Five ∧ c2.Rank = Four ∧ c3.Rank = Three
        ∧ c4.Rank = Two
    · simp only [h, and_self, decide_True, checkStraight, if_true]
    · simp only [h, decide_False, checkStraight, if_false]
  · unfold checkStraightChecked
    rw [if_pos hlen]
    rcases cards with _ | ⟨c0, _ | ⟨c1, _ | ⟨c2, _ | ⟨c3, _ | ⟨c4, _ | ⟨c5, rest⟩⟩⟩⟩⟩⟩
    · rfl
    · rfl
    · rfl
    · rfl
    · rfl
    · exact absurd rfl hlen
    · rfl

theorem EvaluateChecked_eq (o : RangeOrder) (h : Hand) :
    EvaluateChecked o h = some (Evaluate o h) := by
  simp only [EvaluateChecked, checkStraightChecked_eq, Evaluate, apply_ite some]

theorem getElem?_eq_getD (l : List Rank) (i : Nat) (h : i < l.length) :
    l[i]? = some (l.getD i 0) := by
  rw [List.getD_eq_getElem?_getD, List.getElem?_eq_getElem h]
  rfl

theorem compareLoopChecked_eq (hv ov : List Rank) (left i : Nat)
    (h1 : left + i ≤ hv.length) (h2 : left + i ≤ ov.length) :
    compareLoopChecked hv ov left i = some (compareLoop hv ov left i) := by
  induction left generalizing i with
  | zero => rfl
  | succ left ih =>
    simp only [compareLoopChecked, compareLoop]
    rw [getElem?_eq_getD hv i (by omega), getElem?_eq_getD ov i (by omega)]
    simp only
    rw [ih (i + 1) (by omega) (by omega)]
    split_ifs <;> rfl

theorem CompareChecked_eq (a b : Hand) : a.CompareChecked b = some (a.Compare b) := by
  unfold Hand.CompareChecked Hand.Compare
  simp only
  rw [compareLoopChecked_eq a.Values b.Values _ 0 (by split_ifs <;> omega)
    (by split_ifs <;> omega)]
  split_ifs <;> first | rfl | (cases compareLoop a.Values b.Values _ 0 <;> rfl)

theorem generateCombosLoopChecked_eq (cards : List Card) (k left i : Nat)
    (current : List Card) (result : List (List Card)) (hleft : left = cards.length - i)
    (hi : i ≤ cards.length) :
    generateCombosLoopChecked cards k left i current result
      = some (generateCombosLoop k (cards.drop i) current result) := by
  induction left generalizing i current result with
  | zero =>
    have hd : cards.drop i = [] := List.drop_eq_nil_of_le (by omega)
    rw [hd]
    rfl
  | succ left ih =>
    have hlt : i < cards.length := by omega
    have hd : cards.drop i = cards[i] :: cards.drop (i + 1) := List.drop_eq_getElem_cons hlt
    rw [hd]
    simp only [generateCombosLoopChecked, generateCombosLoop, List.getElem?_eq_getElem hlt]
    by_cases hk : (current ++ [cards[i]]).length = k
    · simp only [if_pos hk]
      exact ih (i + 1) current _ (by omega) (by omega)
    · simp only [if_neg hk]
      rw [ih (i + 1) (current ++ [cards[i]]) result (by omega) (by omega)]
      exact ih (i + 1) current _ (by omega) (by omega)

theorem generateCombinationsChecked_eq (cards : List Card) (k : Nat) :
    generateCombinationsChecked cards k = some (generateCombinations cards k) := by
  unfold generateCombinationsChecked generateCombosHelperChecked generateCombinations
    generateCombosHelper
  by_cases hk : ([] : List Card).length = k
  · rw [if_pos hk, if_pos hk]
  · rw [if_neg hk, if_neg hk,
      generateCombosLoopChecked_eq cards k _ 0 [] [] rfl (Nat.zero_le _), List.drop_zero]

theorem bestHandLoopChecked_eq (o : RangeOrder) (combos : List (List Card)) (left i : Nat)
    (best : Hand) (hleft : left = combos.length - i) (hi : i ≤ combos.length) :
    bestHandLoopChecked o combos left i best
      = some (bestHandLoop o (combos.drop i) best) := by
  induction left generalizing i best with
  | zero =>
    have hd : combos.drop i = [] := List.drop_eq_nil_of_le (by omega)
    rw [hd]
    rfl
  | succ left ih =>
    have hlt : i < combos.length := by omega
    have hd : combos.drop i = combos[i] :: combos.drop (i + 1) := List.drop_eq_getElem_cons hlt
    rw [hd]
    simp only [bestHandLoopChecked, bestHandLoop, List.getElem?_eq_getElem hlt,
      EvaluateChecked_eq, CompareChecked_eq]
    split_ifs
    · exact ih (i + 1) _ (by omega) (by omega)
    · exact ih (i + 1) _ (by omega) (by omega)

theorem GetBestHandChecked_eq (o : RangeOrder) (cards : List Card) :
    GetBestHandChecked o cards = some (GetBestHand o cards) := by
  unfold GetBestHandChecked GetBestHand
  by_cases hN : cards.length ≤ 5
  · rw [if_pos hN, if_pos hN, EvaluateChecked_eq]
  · rw [if_neg hN, if_neg hN, generateCombinationsChecked_eq]
    cases hcomb : generateCombinations cards 5 with
    | nil => rfl
    | cons combo0 rest =>
      simp only [List.length_cons, Nat.add_one_ne_zero, if_false, List.getElem?_cons_zero,
        EvaluateChecked_eq, Nat.add_sub_cancel]
      rw [bestHandLoopChecked_eq o (combo0 :: rest) rest.length 1 _
        (by simp only [List.length_cons, Nat.add_sub_cancel])
        (by simp only [List.length_cons]; omega)]
      rfl

theorem Evaluate_Rank_range (o : RangeOrder) (h : Hand) :
    HighCard ≤ (Evaluate o h).Rank ∧ (Evaluate o h).Rank ≤ RoyalFlush := by
  simp only [Evaluate, apply_ite Hand.Rank]
  split_ifs <;> decide

theorem GetBestHand_Rank_range (o : RangeOrder) (cards : List Card) :
    HighCard ≤ (GetBestHand o cards).Rank ∧ (GetBestHand o cards).Rank ≤ RoyalFlush := by
  by_cases hN : cards.length ≤ 5
  · have hG : GetBestHand o cards = Evaluate o (NewHand cards) := by
      unfold GetBestHand
      rw [if_pos hN]
    rw [hG]
    exact Evaluate_Rank_range o _
  · obtain ⟨⟨combo, -, -, hE⟩, -⟩ := GetBestHand_spec o cards (by omega)
    rw [hE]
    exact Evaluate_Rank_range o _

/-! ## The classifier and the search: invariance, enumeration, totality, order -/

/-- C11. The category and the value vector given by `Evaluate` depend only on the multiset
of ranks of the five cards and on whether the five cards share one suit: two lists of five
cards with the same multiset of ranks, both single-suited or both not, in any input order,
with any suits and any visiting orders of the maps, get the same `Rank` and the same
`Values`, so the two hands compare as 0. -/
theorem Evaluate_rank_multiset (o o' : RangeOrder) (cards cards' : List Card)
    (hlen : cards.length = 5)
    (hranks : (cards.map Card.Rank).Perm (cards'.map Card.Rank))
    (hsuit : AllOneSuit cards ↔ AllOneSuit cards') :
    (Evaluate o (NewHand cards)).Rank = (Evaluate o' (NewHand cards')).Rank
    ∧ (Evaluate o (NewHand cards)).Values = (Evaluate o' (NewHand cards')).Values
    ∧ (Evaluate o (NewHand cards)).Compare (Evaluate o' (NewHand cards')) = 0 := by
  obtain ⟨h1, h2⟩ := Evaluate_eq_of_ranks o o' cards cards' hlen hranks hsuit
  exact ⟨h1, h2, (Compare_eq_zero_iff _ _).2 ⟨h1, h2⟩⟩

/-- C12. For every list of `N` cards and every `k`, `generateCombinations cards k` returns
exactly the selections of `k` positions of the input, each once: it is the image, under
reading the cards at the positions, of a list without repetition that holds exactly the
lists of `k` strictly increasing positions; so every combination has length `k` and holds
the cards at positions `i1 < ... < ik` in that order. The number of combinations is
`C(N, k)`: 21 for `N = 7` and `k = 5`, and none when `k > N`. -/
theorem generateCombinations_exact (cards : List Card) (k : Nat) :
    (∃ idx : List (List (Fin cards.length)),
        generateCombinations cards k = idx.map (fun positions => positions.map cards.get)
        ∧ idx.Nodup
        ∧ ∀ positions : List (Fin cards.length),
            positions ∈ idx ↔ positions.Sorted (fun i j => i < j) ∧ positions.length = k)
    ∧ (generateCombinations cards k).length = Nat.choose cards.length k
    ∧ (cards.length = 7 → k = 5 → (generateCombinations cards k).length = 21)
    ∧ (cards.length < k → generateCombinations cards k = []) := by
  have hperm := selections_perm k (List.finRange cards.length)
  have hlen : (generateCombinations cards k).length = Nat.choose cards.length k := by
    rw [generateCombinations_eq, (selections_perm k cards).length_eq, List.length_sublistsLen]
  refine ⟨⟨selections k (List.finRange cards.length), ?_, ?_, ?_⟩, hlen, ?_, ?_⟩
  · rw [generateCombinations_eq, ← selections_map]
    rw [List.finRange_map_get]
  · exact hperm.nodup_iff.2 (List.nodup_sublistsLen k (List.nodup_finRange _))
  · intro positions
    rw [hperm.mem_iff, List.mem_sublistsLen, sorted_fin_iff]
  · intro h7 h5
    rw [hlen, h7, h5]
    rfl
  · intro hlt
    have h0 : (generateCombinations cards k).length = 0 := by
      rw [hlen]
      exact Nat.choose_eq_zero_of_lt hlt
    exact List.length_eq_zero.1 h0

/-- C13. Two card pools of the same size `N ≥ 5` with the same multiset of ranks (suits and
order may differ), neither of which holds five cards of one suit: `GetBestHand` returns
hands with the same `Rank` and the same `Values`, so the two best hands compare as 0
(whatever the visiting orders of the maps in the two searches). -/
theorem GetBestHand_rank_multiset (o o' : RangeOrder) (p1 p2 : List Card)
    (hN : 5 ≤ p1.length)
    (hranks : (p1.map Card.Rank).Perm (p2.map Card.Rank))
    (h1 : ∀ s : Suit, p1.countP (fun card => decide (card.Suit = s)) < 5)
    (h2 : ∀ s : Suit, p2.countP (fun card => decide (card.Suit = s)) < 5) :
    p1.length = p2.length
    ∧ (GetBestHand o p1).Rank = (GetBestHand o' p2).Rank
    ∧ (GetBestHand o p1).Values = (GetBestHand o' p2).Values
    ∧ (GetBestHand o p1).Compare (GetBestHand o' p2) = 0 := by
  have hlen : p1.length = p2.length := by
    have h := hranks.length_eq
    simpa only [List.length_map] using h
  have hN2 : 5 ≤ p2.length := by omega
  have ha := GetBestHand_le_of_ranks o o' p1 p2 hN hN2 hranks h1 h2
  have hb := GetBestHand_le_of_ranks o' o p2 p1 hN2 hN hranks.symm h2 h1
  have hanti := Compare_antisymm (GetBestHand o p1) (GetBestHand o' p2)
  have h0 : (GetBestHand o p1).Compare (GetBestHand o' p2) = 0 := by omega
  exact ⟨hlen, ((Compare_eq_zero_iff _ _).1 h0).1, ((Compare_eq_zero_iff _ _).1 h0).2, h0⟩

/-- C14. For every list of cards (of any length, so also for `N ≥ 1` standard-deck cards and
for fewer than five), `GetBestHand` with every index expression checked returns a hand, the
one of the unchecked embedding, and its category is one of the ten: `checkStraight` and
`Compare` never read an index out of range, the enumeration of the combinations returns
(its recursion is on the number of loop iterations left), and for `N > 5` the list of
combinations is not empty, so the fallback branch is not taken and the hand returned is the
evaluation of five cards of the input. -/
theorem GetBestHand_total (o : RangeOrder) (cards : List Card) :
    GetBestHandChecked o cards = some (GetBestHand o cards)
    ∧ (HighCard ≤ (GetBestHand o cards).Rank ∧ (GetBestHand o cards).Rank ≤ RoyalFlush)
    ∧ (∀ hand : List Card, checkStraightChecked hand = some (checkStraight hand))
    ∧ (∀ a b : Hand, a.CompareChecked b = some (a.Compare b))
    ∧ generateCombinationsChecked cards 5 = some (generateCombinations cards 5)
    ∧ (5 < cards.length →
        generateCombinations cards 5 ≠ []
        ∧ ∃ combo : List Card, combo.Sublist cards ∧ combo.length = 5
            ∧ GetBestHand o cards = Evaluate o (NewHand combo)) := by
  refine ⟨GetBestHandChecked_eq o cards, GetBestHand_Rank_range o cards,
    checkStraightChecked_eq, CompareChecked_eq, generateCombinationsChecked_eq cards 5, ?_⟩
  intro hN
  exact ⟨generateCombinations_five_ne_nil cards (by omega),
    (GetBestHand_spec o cards (by omega)).1⟩

/-- C15. For every list of at most five cards `GetBestHand` performs no search: it returns
the hand that `Evaluate` gives on `NewHand` of the whole input (the same `Cards`, `Rank` and
`Values`, whatever the visiting orders of the maps), and its `Cards` are the input sorted by
descending rank. -/
theorem GetBestHand_small (o o' : RangeOrder) (cards : List Card) (hN : cards.length ≤ 5) :
    GetBestHand o cards = Evaluate o' (NewHand cards)
    ∧ (GetBestHand o cards).Cards = sortByRank cards
    ∧ (GetBestHand o cards).Cards.Perm cards
    ∧ (GetBestHand o cards).Cards.Pairwise (fun x y => x.Rank ≥ y.Rank) := by
  have hG : GetBestHand o cards = Evaluate o' (NewHand cards) := by
    unfold GetBestHand
    rw [if_pos hN, Evaluate_order o, Evaluate_order o']
  have hC : (GetBestHand o cards).Cards = sortByRank cards := by
    rw [hG, Evaluate_Cards]
    simp only [NewHand, CopyCards_eq]
  refine ⟨hG, hC, ?_, ?_⟩
  · rw [hC]; exact sortByRank_perm cards
  · rw [hC]; exact sortByRank_sorted cards

/-- C16. The method `HandRank.String` maps the ten categories High Card .. Royal Flush, in
that order, to the labels "High Card", "One Pair", "Two Pairs", "Three of a Kind",
"Straight", "Flush", "Full House", "Four of a Kind", "Straight Flush", "Royal Flush"; the
ten labels are pairwise different, so two of the ten categories with the same label are the
same category. -/
theorem HandRank_String_labels :
    [HighCard, OnePair, TwoPairs, ThreeOfAKind, Straight, Flush, FullHouse, FourOfAKind,
        StraightFlush, RoyalFlush].map HandRank.String
      = [some "High Card", some "One Pair", some "Two Pairs", some "Three of a Kind",
          some "Straight", some "Flush", some "Full House", some "Four of a Kind",
          some "Straight Flush", some "Royal Flush"]
    ∧ ([HighCard, OnePair, TwoPairs, ThreeOfAKind, Straight, Flush, FullHouse, FourOfAKind,
        StraightFlush, RoyalFlush].map HandRank.String).Nodup
    ∧ (∀ a b : HandRank, HighCard ≤ a → a ≤ RoyalFlush → HighCard ≤ b → b ≤ RoyalFlush →
        HandRank.String a = HandRank.String b → a = b) := by
  refine ⟨by decide, by decide, ?_⟩
  intro a b ha1 ha2 hb1 hb2 h
  simp only [HandRank, HighCard, RoyalFlush] at *
  interval_cases a <;> interval_cases b <;> first | rfl | exact absurd h (by decide)

/-- C17. The wheel is the lowest straight: of two evaluated hands of five cards that are both
Straight, or both Straight Flush, the first with ranks `{Ace, Two, Three, Four, Five}` and
the second (standard-deck cards) with any other ranks, the first compares as -1 against the
second; its value vector is `[Five]` although it holds an Ace. -/
theorem Compare_wheel_lowest (o o' : RangeOrder) (cards cards' : List Card)
    (hlen : cards.length = 5) (hlen' : cards'.length = 5)
    (hv' : ∀ card ∈ cards', card.Valid)
    (hcat : ((Evaluate o (NewHand cards)).Rank = Straight
          ∧ (Evaluate o' (NewHand cards')).Rank = Straight)
        ∨ ((Evaluate o (NewHand cards)).Rank = StraightFlush
          ∧ (Evaluate o' (NewHand cards')).Rank = StraightFlush))
    (hwheel : rankSet cards = {Ace, Two, Three, Four, Five})
    (hother : rankSet cards' ≠ {Ace, Two, Three, Four, Five}) :
    (Evaluate o (NewHand cards)).Compare (Evaluate o' (NewHand cards')) = -1
    ∧ (Evaluate o (NewHand cards)).Values = [Five]
    ∧ (∃ card ∈ cards, card.Rank = Ace) := by
  obtain ⟨t0, t1, t2, t3, t4, a, b, c, d, e, f, hp, hs, -, -, -, htab⟩ :=
    Evaluate_cases o cards hlen
  obtain ⟨u0, u1, u2, u3, u4, a', b', c', d', e', f', hp', hs', -, -, -, htab'⟩ :=
    Evaluate_cases o' cards' hlen'
  obtain ⟨-, v8w, -, -, -, -, -, -, v4w, -, -⟩ := table_values f a b c d e _ _ hs htab
  obtain ⟨-, r8', -, -, -, r4', -⟩ := table_rank f' a' b' c' d' e' _ _ hs' htab'
  obtain ⟨-, -, v8r', -, -, -, -, -, -, v4r', -⟩ :=
    table_values f' a' b' c' d' e' _ _ hs' htab'
  obtain ⟨⟨hlo, -⟩, -⟩ := valid_five cards' u0 u1 u2 u3 u4 a' b' c' d' e' hp' hv'
  have hw : a = 14 ∧ b = 5 ∧ c = 4 ∧ d = 3 ∧ e = 2 := by
    rw [wheel_set] at hwheel
    exact (rankSet_eq_iff cards t0 t1 t2 t3 t4 a b c d e hp hs 2 3 4 5 14 (by omega)).1 hwheel
  have hnw : ¬ (a' = 14 ∧ b' = 5 ∧ c' = 4 ∧ d' = 3 ∧ e' = 2) := by
    intro h
    apply hother
    rw [wheel_set]
    exact (rankSet_eq_iff cards' u0 u1 u2 u3 u4 a' b' c' d' e' hp' hs' 2 3 4 5 14
      (by omega)).2 h
  have hace : ∃ card ∈ cards, card.Rank = Ace :=
    ⟨⟨t0, a⟩, hp.mem_iff.1 (List.mem_cons_self _ _), hw.1⟩
  clear htab htab' hp hp' hv' hwheel hother
  have hval : (Evaluate o (NewHand cards)).Values = [5] := by
    rcases hcat with ⟨h1, -⟩ | ⟨h1, -⟩
    · exact v4w h1 hw
    · exact v8w h1 hw
  have hval' : (Evaluate o' (NewHand cards')).Values = [a'] ∧ 5 < a' := by
    rcases hcat with ⟨-, h2⟩ | ⟨-, h2⟩
    · rcases (r4'.1 h2).2 with h | h
      · exact absurd h hnw
      · exact ⟨v4r' h2 h, by omega⟩
    · rcases (r8'.1 h2).2 with h | h
      · exact absurd h hnw
      · exact ⟨v8r' h2 h.1, by omega⟩
  have hrank : (Evaluate o (NewHand cards)).Rank = (Evaluate o' (NewHand cards')).Rank := by
    rcases hcat with ⟨h1, h2⟩ | ⟨h1, h2⟩
    · rw [h1, h2]
    · rw [h1, h2]
  refine ⟨?_, hval, hace⟩
  rw [Compare_eq, hrank, hval, hval'.1]
  have h5 := hval'.2
  simp only [gt_iff_lt, lt_self_iff_false, if_false, lexCompare]
  rw [if_neg (not_lt.2 (le_of_lt h5)), if_pos h5]

/-- C18. `Compare` is a total preorder on hands of arbitrary categories and value vectors of
any lengths: `a.Compare b = -(b.Compare a)`, the answer is 1, 0 or -1 (so one of the two
hands is at least the other), and from `a.Compare b ≥ 0` and `b.Compare c ≥ 0` follows
`a.Compare c ≥ 0`, with `a.Compare c = 1` as soon as one of the two is 1. -/
theorem Compare_total_preorder (a b c : Hand) :
    a.Compare b = -(b.Compare a)
    ∧ (a.Compare b = 1 ∨ a.Compare b = 0 ∨ a.Compare b = -1)
    ∧ (0 ≤ a.Compare b ∨ 0 ≤ b.Compare a)
    ∧ a.Compare a = 0
    ∧ (0 ≤ a.Compare b → 0 ≤ b.Compare c →
        0 ≤ a.Compare c ∧ (a.Compare b = 1 ∨ b.Compare c = 1 → a.Compare c = 1)) := by
  refine ⟨Compare_antisymm a b, Compare_range a b, ?_, Compare_self a, Compare_trans a b c⟩
  have h1 := Compare_antisymm a b
  rcases Compare_range a b with h | h | h
  · left; rw [h]; decide
  · left; rw [h]
  · right; rw [h] at h1; omega

/-- C19. The value vector is a faithful tie-break: two lists of five standard-deck cards
(pairwise distinct or not) whose evaluated hands compare as 0 have the same multiset of
ranks, so two hands with different rank multisets are never reported as tied. -/
theorem Compare_zero_same_ranks (o o' : RangeOrder) (cards cards' : List Card)
    (hlen : cards.length = 5) (hlen' : cards'.length = 5)
    (hv : ∀ card ∈ cards, card.Valid) (hv' : ∀ card ∈ cards', card.Valid)
    (h0 : (Evaluate o (NewHand cards)).Compare (Evaluate o' (NewHand cards')) = 0) :
    (cards.map Card.Rank).Perm (cards'.map Card.Rank) := by
  obtain ⟨hr, hvals⟩ := (Compare_eq_zero_iff _ _).1 h0
  obtain ⟨t0, t1, t2, t3, t4, a, b, c, d, e, f, hp, hs, -, -, -, htab⟩ :=
    Evaluate_cases o cards hlen
  obtain ⟨u0, u1, u2, u3, u4, a', b', c', d', e', f', hp', hs', -, -, -, htab'⟩ :=
    Evaluate_cases o' cards' hlen'
  obtain ⟨⟨hlo, -⟩, -⟩ := valid_five cards t0 t1 t2 t3 t4 a b c d e hp hv
  obtain ⟨⟨hlo', -⟩, -⟩ := valid_five cards' u0 u1 u2 u3 u4 a' b' c' d' e' hp' hv'
  have h1 := table_decode f a b c d e _ _ hs hlo htab
  have h2 := table_decode f' a' b' c' d' e' _ _ hs' hlo' htab'
  rw [hr, hvals, ← h2] at h1
  have hp1 : (cards.map Card.Rank).Perm [a, b, c, d, e] := (hp.map Card.Rank).symm
  have hp2 : [a', b', c', d', e'].Perm (cards'.map Card.Rank) := hp'.map Card.Rank
  rw [h1] at hp1
  exact hp1.trans hp2

/-- C20. More cards never hurt: for a pool of at least five cards and any list of extra
cards, the best hand of the pool with the extra cards never compares as -1 against the best
hand of the pool alone (whatever the visiting orders of the maps in the two searches). -/
theorem GetBestHand_more_cards (o o' : RangeOrder) (pool extra : List Card)
    (hN : 5 ≤ pool.length) :
    (GetBestHand o (pool ++ extra)).Compare (GetBestHand o' pool) ≠ -1 := by
  obtain ⟨⟨combo, hs, hl, hE⟩, -⟩ := GetBestHand_spec o pool hN
  have hge := (GetBestHand_spec o (pool ++ extra)
    (by rw [List.length_append]; omega)).2 combo
    (hs.trans (List.sublist_append_left pool extra)) hl
  rw [GetBestHand_order o' pool, ← GetBestHand_order o pool, hE]
  intro hneg
  rw [hneg] at hge
  exact absurd hge (by decide)

/-! ## Witnesses: the theorems applied to hands of the test suite -/

theorem GetBestHand_maximal_witness :
    5 < [NewCard Diamonds Six, NewCard Spades Nine, NewCard Hearts Four, NewCard Spades Three,
          NewCard Clubs Two, NewCard Spades King, NewCard Clubs Ace].length
    ∧ (GetBestHand RangeOrder.insertion
          [NewCard Diamonds Six, NewCard Spades Nine, NewCard Hearts Four,
            NewCard Spades Three, NewCard Clubs Two, NewCard Spades King,
            NewCard Clubs Ace]).Compare
        (Evaluate RangeOrder.insertion (NewHand [NewCard Diamonds Six, NewCard Spades Nine,
          NewCard Hearts Four, NewCard Spades Three, NewCard Clubs Two])) ≠ -1 :=
  ⟨by decide,
    (GetBestHand_maximal RangeOrder.insertion _ (by decide)).2 _ (by decide) (by decide)⟩

theorem Evaluate_straight_witness :
    [NewCard Hearts Four, NewCard Spades Five, NewCard Hearts Ace, NewCard Diamonds Three,
        NewCard Hearts Two].length = 5
    ∧ (∀ card ∈ [NewCard Hearts Four, NewCard Spades Five, NewCard Hearts Ace,
        NewCard Diamonds Three, NewCard Hearts Two], card.Valid)
    ∧ ¬ AllOneSuit [NewCard Hearts Four, NewCard Spades Five, NewCard Hearts Ace,
        NewCard Diamonds Three, NewCard Hearts Two]
    ∧ (Evaluate RangeOrder.reversed (NewHand [NewCard Hearts Four, NewCard Spades Five,
        NewCard Hearts Ace, NewCard Diamonds Three, NewCard Hearts Two])).Values = [Five] :=
  ⟨by decide, by decide, by decide,
    (Evaluate_straight RangeOrder.reversed _ (by decide) (by decide) (by decide)).2.2.1
      (by decide)⟩

theorem Evaluate_straight_flush_witness :
    [NewCard Clubs Ten, NewCard Clubs Jack, NewCard Clubs Queen, NewCard Clubs King,
        NewCard Clubs Ace].length = 5
    ∧ AllOneSuit [NewCard Clubs Ten, NewCard Clubs Jack, NewCard Clubs Queen,
        NewCard Clubs King, NewCard Clubs Ace]
    ∧ (Evaluate RangeOrder.insertion (NewHand [NewCard Clubs Ten, NewCard Clubs Jack,
          NewCard Clubs Queen, NewCard Clubs King, NewCard Clubs Ace])).Rank = RoyalFlush
    ∧ (Evaluate RangeOrder.insertion (NewHand [NewCard Clubs Ten, NewCard Clubs Jack,
          NewCard Clubs Queen, NewCard Clubs King, NewCard Clubs Ace])).Values = [Ace] :=
  ⟨by decide, by decide,
    (Evaluate_straight_flush RangeOrder.insertion _ (by decide) (by decide)).1 (by decide)⟩

theorem Evaluate_four_of_a_kind_full_house_witness :
    [NewCard Hearts Ten, NewCard Spades Queen, NewCard Spades Ten, NewCard Diamonds Ten,
        NewCard Clubs Ten].length = 5
    ∧ (Evaluate RangeOrder.reversed (NewHand [NewCard Hearts Ten, NewCard Spades Queen,
        NewCard Spades Ten, NewCard Diamonds Ten, NewCard Clubs Ten])).Values
        = [Ten, Queen] :=
  ⟨by decide,
    (Evaluate_four_of_a_kind_full_house RangeOrder.reversed _ (by decide)).2.1 Ten Queen
      (by decide) (by decide) (by decide)⟩

theorem Evaluate_two_pairs_witness :
    [NewCard Hearts Five, NewCard Spades Queen, NewCard Clubs Five, NewCard Diamonds Ten,
        NewCard Clubs Ten].length = 5
    ∧ [NewCard Hearts Five, NewCard Spades Queen, NewCard Clubs Five, NewCard Diamonds Ten,
        NewCard Clubs Ten].Nodup
    ∧ (Evaluate RangeOrder.reversed (NewHand [NewCard Hearts Five, NewCard Spades Queen,
        NewCard Clubs Five, NewCard Diamonds Ten, NewCard Clubs Ten])).Values
        = [Ten, Five, Queen] :=
  ⟨by decide, by decide,
    (Evaluate_two_pairs RangeOrder.reversed _ (by decide) (by decide)).2 Ten Five Queen
      (by decide) (by decide) (by decide) (by decide) (by decide) (by decide)⟩

theorem Evaluate_three_of_a_kind_one_pair_witness :
    [NewCard Hearts Two, NewCard Spades Queen, NewCard Spades Two, NewCard Diamonds Two,
        NewCard Clubs King].length = 5
    ∧ [NewCard Hearts Two, NewCard Spades Queen, NewCard Spades Two, NewCard Diamonds Two,
        NewCard Clubs King].Nodup
    ∧ (Evaluate RangeOrder.insertion (NewHand [NewCard Hearts Two, NewCard Spades Queen,
        NewCard Spades Two, NewCard Diamonds Two, NewCard Clubs King])).Values
        = [Two, King, Queen] :=
  ⟨by decide, by decide,
    (Evaluate_three_of_a_kind_one_pair RangeOrder.insertion _ (by decide) (by decide)).2.1
      Two King Queen (by decide) (by decide) (by decide) (by decide)⟩

theorem Evaluate_flush_high_card_witness :
    [NewCard Hearts King, NewCard Hearts Queen, NewCard Hearts Two, NewCard Hearts Four,
        NewCard Hearts Five].length = 5
    ∧ [NewCard Hearts King, NewCard Hearts Queen, NewCard Hearts Two, NewCard Hearts Four,
        NewCard Hearts Five].Nodup
    ∧ (∀ card ∈ [NewCard Hearts King, NewCard Hearts Queen, NewCard Hearts Two,
        NewCard Hearts Four, NewCard Hearts Five], card.Valid)
    ∧ ((Evaluate RangeOrder.insertion (NewHand [NewCard Hearts King, NewCard Hearts Queen,
          NewCard Hearts Two, NewCard Hearts Four, NewCard Hearts Five])).Rank = Flush
        ↔ AllOneSuit [NewCard Hearts King, NewCard Hearts Queen, NewCard Hearts Two,
            NewCard Hearts Four, NewCard Hearts Five]
          ∧ ¬ StraightRanks [NewCard Hearts King, NewCard Hearts Queen, NewCard Hearts Two,
            NewCard Hearts Four, NewCard Hearts Five]) :=
  ⟨by decide, by decide, by decide,
    (Evaluate_flush_high_card RangeOrder.insertion _ (by decide) (by decide) (by decide)).1⟩

theorem Evaluate_value_lengths_witness :
    [NewCard Hearts Three, NewCard Spades Eight, NewCard Hearts Five, NewCard Diamonds Eight,
        NewCard Clubs Ace].length = 5
    ∧ (Evaluate RangeOrder.insertion (NewHand [NewCard Hearts Three, NewCard Spades Eight,
        NewCard Hearts Five, NewCard Diamonds Eight, NewCard Clubs Ace])).Values.length = 4 :=
  ⟨by decide,
    (Evaluate_value_lengths RangeOrder.insertion _ (by decide)).2.2.2.2.1 (by decide)⟩

theorem Compare_category_witness :
    (Hand.mk [] FourOfAKind [Ace, King]).Rank < (Hand.mk [] StraightFlush [Five]).Rank
    ∧ (Hand.mk [] StraightFlush [Five]).Compare (Hand.mk [] FourOfAKind [Ace, King]) = 1 :=
  ⟨by decide, (Compare_category _ _ (by decide)).2.1⟩

theorem Compare_lexicographic_witness :
    (Hand.mk [] OnePair [King, Ten, Eight, Seven]).Rank
        = (Hand.mk [] OnePair [King, Ten, Eight, Five]).Rank
    ∧ (Hand.mk [] OnePair [King, Ten, Eight, Seven]).Compare
        (Hand.mk [] OnePair [King, Ten, Eight, Five]) = if Seven > Five then 1 else -1 :=
  ⟨rfl, ((Compare_lexicographic (Hand.mk [] OnePair [King, Ten, Eight, Seven])
    (Hand.mk [] OnePair [King, Ten, Eight, Five])).1 rfl).2.1 [King, Ten, Eight] [] [] Seven
    Five rfl rfl (by decide)⟩

theorem Evaluate_rank_multiset_witness :
    [NewCard Spades King, NewCard Hearts Ten, NewCard Clubs Eight, NewCard Clubs Seven,
        NewCard Diamonds King].length = 5
    ∧ ([NewCard Spades King, NewCard Hearts Ten, NewCard Clubs Eight, NewCard Clubs Seven,
          NewCard Diamonds King].map Card.Rank).Perm
        ([NewCard Hearts King, NewCard Clubs Seven, NewCard Hearts Ten, NewCard Spades King,
          NewCard Clubs Eight].map Card.Rank)
    ∧ (Evaluate RangeOrder.insertion (NewHand [NewCard Spades King, NewCard Hearts Ten,
          NewCard Clubs Eight, NewCard Clubs Seven, NewCard Diamonds King])).Compare
        (Evaluate RangeOrder.reversed (NewHand [NewCard Hearts King, NewCard Clubs Seven,
          NewCard Hearts Ten, NewCard Spades King, NewCard Clubs Eight])) = 0 :=
  ⟨by decide, by decide,
    (Evaluate_rank_multiset RangeOrder.insertion RangeOrder.reversed _ _ (by decide)
      (by decide) (by decide)).2.2⟩

theorem generateCombinations_exact_witness :
    [NewCard Clubs Ten, NewCard Clubs Jack, NewCard Clubs Queen, NewCard Clubs King,
        NewCard Clubs Ace, NewCard Hearts Two, NewCard Hearts Three].length = 7
    ∧ (generateCombinations [NewCard Clubs Ten, NewCard Clubs Jack, NewCard Clubs Queen,
        NewCard Clubs King, NewCard Clubs Ace, NewCard Hearts Two, NewCard Hearts Three]
        5).length = 21 :=
  ⟨by decide, (generateCombinations_exact _ 5).2.2.1 (by decide) rfl⟩

theorem GetBestHand_rank_multiset_witness :
    5 ≤ [NewCard Diamonds Six, NewCard Spades Nine, NewCard Hearts Four, NewCard Spades Three,
          NewCard Clubs Two, NewCard Spades King, NewCard Clubs Ace].length
    ∧ ([NewCard Diamonds Six, NewCard Spades Nine, NewCard Hearts Four, NewCard Spades Three,
          NewCard Clubs Two, NewCard Spades King, NewCard Clubs Ace].map Card.Rank).Perm
        ([NewCard Diamonds Six, NewCard Spades Nine, NewCard Hearts Four,
          NewCard Spades Three, NewCard Clubs Two, NewCard Hearts Ace,
          NewCard Clubs King].map Card.Rank)
    ∧ (GetBestHand RangeOrder.insertion [NewCard Diamonds Six, NewCard Spades Nine,
          NewCard Hearts Four, NewCard Spades Three, NewCard Clubs Two, NewCard Spades King,
          NewCard Clubs Ace]).Compare
        (GetBestHand RangeOrder.reversed [NewCard Diamonds Six, NewCard Spades Nine,
          NewCard Hearts Four, NewCard Spades Three, NewCard Clubs Two, NewCard Hearts Ace,
          NewCard Clubs King]) = 0
    ∧ (GetBestHand RangeOrder.insertion [NewCard Diamonds Six, NewCard Spades Nine,
          NewCard Hearts Four, NewCard Spades Three, NewCard Clubs Two, NewCard Spades King,
          NewCard Clubs Ace]).Rank = HighCard
    ∧ (GetBestHand RangeOrder.insertion [NewCard Diamonds Six, NewCard Spades Nine,
          NewCard Hearts Four, NewCard Spades Three, NewCard Clubs Two, NewCard Spades King,
          NewCard Clubs Ace]).Values = [Ace, King, Nine, Six, Four] :=
  ⟨by decide, by decide,
    (GetBestHand_rank_multiset RangeOrder.insertion RangeOrder.reversed _ _ (by decide)
      (by decide) (countP_suit_of_mem _ (by decide))
      (countP_suit_of_mem _ (by decide))).2.2.2,
    by decide, by decide⟩

theorem GetBestHand_total_witness :
    5 < [NewCard Clubs Ten, NewCard Clubs Jack, NewCard Clubs Queen, NewCard Clubs King,
        NewCard Clubs Ace, NewCard Hearts Two, NewCard Hearts Three].length
    ∧ generateCombinations [NewCard Clubs Ten, NewCard Clubs Jack, NewCard Clubs Queen,
        NewCard Clubs King, NewCard Clubs Ace, NewCard Hearts Two, NewCard Hearts Three] 5
        ≠ [] :=
  ⟨by decide, ((GetBestHand_total RangeOrder.insertion _).2.2.2.2.2 (by decide)).1⟩

theorem GetBestHand_small_witness :
    [NewCard Hearts Four, NewCard Spades Five, NewCard Hearts Ace].length ≤ 5
    ∧ GetBestHand RangeOrder.insertion
        [NewCard Hearts Four, NewCard Spades Five, NewCard Hearts Ace]
      = Evaluate RangeOrder.reversed
          (NewHand [NewCard Hearts Four, NewCard Spades Five, NewCard Hearts Ace])
    ∧ (GetBestHand RangeOrder.insertion
        [NewCard Hearts Four, NewCard Spades Five, NewCard Hearts Ace]).Cards
      = [NewCard Hearts Ace, NewCard Spades Five, NewCard Hearts Four] :=
  ⟨by decide,
    (GetBestHand_small RangeOrder.insertion RangeOrder.reversed _ (by decide)).1,
    by decide⟩

theorem HandRank_String_labels_witness :
    HighCard ≤ StraightFlush ∧ StraightFlush ≤ RoyalFlush
    ∧ HandRank.String StraightFlush = some "Straight Flush"
    ∧ (HandRank.String StraightFlush = HandRank.String 8 → StraightFlush = 8) :=
  ⟨by decide, by decide, by decide,
    HandRank_String_labels.2.2 StraightFlush 8 (by decide) (by decide) (by decide)
      (by decide)⟩

theorem Compare_wheel_lowest_witness :
    [NewCard Hearts Two, NewCard Hearts Three, NewCard Spades Four, NewCard Clubs Five,
        NewCard Hearts Ace].length = 5
    ∧ (∀ card ∈ [NewCard Hearts Two, NewCard Hearts Three, NewCard Spades Four,
        NewCard Clubs Five, NewCard Hearts Six], card.Valid)
    ∧ rankSet [NewCard Hearts Two, NewCard Hearts Three, NewCard Spades Four,
        NewCard Clubs Five, NewCard Hearts Ace] = {Ace, Two, Three, Four, Five}
    ∧ (Evaluate RangeOrder.insertion (NewHand [NewCard Hearts Two, NewCard Hearts Three,
          NewCard Spades Four, NewCard Clubs Five, NewCard Hearts Ace])).Compare
        (Evaluate RangeOrder.insertion (NewHand [NewCard Hearts Two, NewCard Hearts Three,
          NewCard Spades Four, NewCard Clubs Five, NewCard Hearts Six])) = -1
    ∧ (GetBestHand RangeOrder.insertion [NewCard Hearts Two, NewCard Hearts Three,
          NewCard Spades Four, NewCard Clubs Five, NewCard Hearts Ten, NewCard Hearts Ace,
          NewCard Spades Three]).Compare
        (GetBestHand RangeOrder.insertion [NewCard Hearts Two, NewCard Hearts Three,
          NewCard Spades Four, NewCard Clubs Five, NewCard Hearts Ten, NewCard Hearts Six,
          NewCard Spades Ace]) = -1 :=
  ⟨by decide, by decide, by decide,
    (Compare_wheel_lowest RangeOrder.insertion RangeOrder.insertion _ _ (by decide)
      (by decide) (by decide) (Or.inl ⟨by decide, by decide⟩) (by decide) (by decide)).1,
    by decide⟩

theorem Compare_total_preorder_witness :
    0 ≤ (Hand.mk [] Flush [Ace, King]).Compare (Hand.mk [] Flush [Ace])
    ∧ 0 ≤ (Hand.mk [] Flush [Ace]).Compare (Hand.mk [] Straight [Five])
    ∧ (Hand.mk [] Flush [Ace, King]).Compare (Hand.mk [] Straight [Five]) = 1 :=
  ⟨by decide, by decide,
    ((Compare_total_preorder (Hand.mk [] Flush [Ace, King]) (Hand.mk [] Flush [Ace])
      (Hand.mk [] Straight [Five])).2.2.2.2 (by decide) (by decide)).2 (Or.inl (by decide))⟩

theorem Compare_zero_same_ranks_witness :
    (Evaluate RangeOrder.insertion (NewHand [NewCard Spades Ace, NewCard Hearts Queen,
        NewCard Spades Queen, NewCard Hearts Ace, NewCard Diamonds Queen])).Compare
      (Evaluate RangeOrder.insertion (NewHand [NewCard Hearts Queen, NewCard Spades Queen,
        NewCard Diamonds Ace, NewCard Clubs Queen, NewCard Spades Ace])) = 0
    ∧ ([NewCard Spades Ace, NewCard Hearts Queen, NewCard Spades Queen, NewCard Hearts Ace,
          NewCard Diamonds Queen].map Card.Rank).Perm
        ([NewCard Hearts Queen, NewCard Spades Queen, NewCard Diamonds Ace,
          NewCard Clubs Queen, NewCard Spades Ace].map Card.Rank) :=
  ⟨by decide,
    Compare_zero_same_ranks RangeOrder.insertion RangeOrder.insertion _ _ (by decide)
      (by decide) (by decide) (by decide) (by decide)⟩

theorem GetBestHand_more_cards_witness :
    5 ≤ [NewCard Hearts Two, NewCard Hearts Three, NewCard Spades Four, NewCard Clubs Five,
        NewCard Hearts Ten].length
    ∧ (GetBestHand RangeOrder.insertion
          ([NewCard Hearts Two, NewCard Hearts Three, NewCard Spades Four, NewCard Clubs Five,
            NewCard Hearts Ten] ++ [NewCard Hearts Six, NewCard Spades Ace])).Compare
        (GetBestHand RangeOrder.reversed [NewCard Hearts Two, NewCard Hearts Three,
          NewCard Spades Four, NewCard Clubs Five, NewCard Hearts Ten]) ≠ -1 :=
  ⟨by decide,
    GetBestHand_more_cards RangeOrder.insertion RangeOrder.reversed _ _ (by decide)⟩

end poker
